import Mathlib

/-!
# A verification model of the CSSLayout flexbox engine (`React/CSSLayout/CSSLayout.c`)

This file is a shallow embedding of the layout engine in
`src/React/CSSLayout/CSSLayout.c`.  C `float` values are modelled as
`Option ℚ`: `none` is the NaN "undefined" sentinel (`CSSUndefined`), `some q`
is an ordinary finite value.  Real arithmetic replaces IEEE rounding, and
IEEE infinities are out of scope (division by zero is mapped to the undefined
value); none of the theorems below depend on rounding or on infinities.
Machine recursion is modelled with an explicit fuel parameter: a call that
runs out of fuel returns `none`, so every theorem about a completed layout
pass is conditioned on the pass having returned `some _`.

The enum values (`CSSFlexDirection`, `CSSMeasureMode`, ...) are declared in
the public header `CSSLayout.h`, which is not part of `src/`; their
constructor order below follows the order documented in the specification
(§3), which matches the initializer tables and mode-name tables in the
`.c` file.  The child list container `CSSNodeList` is likewise declared
elsewhere; it is modelled from the spec as an ordered sequence (`List`).
-/

set_option maxHeartbeats 2000000
set_option maxRecDepth 3000

/-! ## Floats: `Option ℚ` with the NaN sentinel -/

/-- The C `float` type, modelled as `Option ℚ`; `none` plays the role of NaN. -/
abbrev F : Type := Option ℚ

/-- `CSSUndefined`: the NaN sentinel. -/
def CSSUndefined : F := none

/-- `CSSValueIsUndefined` (CSSLayout.c line 368): `isnan`. -/
def CSSValueIsUndefined (v : F) : Bool := v.isNone

/-- C `==` on floats: NaN compares unequal to everything, including itself. -/
def fBeq : F → F → Bool
  | some a, some b => a == b
  | _, _ => false

/-- C `!=` on floats (the style setters' change test). -/
def fNe (a b : F) : Bool := !(fBeq a b)

/-- C `<` on floats: false whenever an operand is NaN. -/
def fLt : F → F → Bool
  | some a, some b => a < b
  | _, _ => false

/-- C `<=` on floats: false whenever an operand is NaN. -/
def fLe : F → F → Bool
  | some a, some b => a ≤ b
  | _, _ => false

/-- C `>` on floats. -/
def fGt (a b : F) : Bool := fLt b a

/-- C `>=` on floats. -/
def fGe (a b : F) : Bool := fLe b a

/-- Float addition; NaN propagates. -/
def fadd : F → F → F
  | some a, some b => some (a + b)
  | _, _ => none

/-- Float subtraction; NaN propagates. -/
def fsub : F → F → F
  | some a, some b => some (a - b)
  | _, _ => none

/-- Float multiplication; NaN propagates. -/
def fmul : F → F → F
  | some a, some b => some (a * b)
  | _, _ => none

/-- Float negation; NaN propagates. -/
def fneg : F → F
  | some a => some (-a)
  | none => none

/-- Float division; NaN propagates.  Division by zero is mapped to the
undefined value (the C code would produce an IEEE infinity here; infinities
are outside the scope of this model and none of the proved statements
exercises this case). -/
def fdiv : F → F → F
  | some a, some b => if b = 0 then none else some (a / b)
  | _, _ => none

/-- C99 `fmaxf`: if one operand is NaN, the other is returned. -/
def fmaxf : F → F → F
  | some a, some b => some (max a b)
  | some a, none => some a
  | none, some b => some b
  | none, none => none

/-- C99 `fminf`: if one operand is NaN, the other is returned. -/
def fminf : F → F → F
  | some a, some b => some (min a b)
  | some a, none => some a
  | none, some b => some b
  | none, none => none

/-- `fabs`, written out so it reduces in the kernel. -/
def qabs (x : ℚ) : ℚ := if x < 0 then -x else x

/-- `eq` (CSSLayout.c line 372): undefined iff both undefined, otherwise
absolute difference below `0.0001`. -/
def feq : F → F → Bool
  | none, b => b.isNone
  | some _, none => false
  | some a, some b => qabs (a - b) < 1 / 10000

/-! Exact-equality test functions used only to state and check concrete
evaluation results efficiently in the kernel (they are proven equivalent to
propositional equality below); they are not part of the embedded program. -/

/-- Structural equality on ℚ via numerator and denominator. -/
def ratEqB (a b : ℚ) : Bool := a.num == b.num && a.den == b.den

/-- Exact equality test on model floats. -/
def fEqB : F → F → Bool
  | none, none => true
  | some a, some b => ratEqB a b
  | _, _ => false

/-! ## Enumerations (declared in CSSLayout.h; order per spec §3) -/

/-- `CSSDirection`: `Inherit | LTR | RTL`. -/
inductive CSSDirection where
  | inherit | ltr | rtl
deriving DecidableEq, Repr

/-- `CSSFlexDirection`: `Column | ColumnReverse | Row | RowReverse`.
`numCode` records the numeric value each enumerator has in C (declaration
order, starting at 0); the value of `CSSFlexDirectionRowReverse` matters
for the step-11 trailing-position predicate. -/
inductive CSSFlexDirection where
  | column | columnReverse | row | rowReverse
deriving DecidableEq, Repr

/-- The numeric value of a `CSSFlexDirection` enumerator in C. -/
def CSSFlexDirection.numCode : CSSFlexDirection → Nat
  | .column => 0
  | .columnReverse => 1
  | .row => 2
  | .rowReverse => 3

/-- `CSSMeasureMode`: `Undefined | Exactly | AtMost` (order confirmed by the
mode-name tables at CSSLayout.c line 2013). -/
inductive CSSMeasureMode where
  | undefined | exactly | atMost
deriving DecidableEq, Repr

/-- `CSSJustify`: `FlexStart | Center | FlexEnd | SpaceBetween | SpaceAround`. -/
inductive CSSJustify where
  | flexStart | center | flexEnd | spaceBetween | spaceAround
deriving DecidableEq, Repr

/-- `CSSAlign`: `Auto | FlexStart | Center | FlexEnd | Stretch`. -/
inductive CSSAlign where
  | auto | flexStart | center | flexEnd | stretch
deriving DecidableEq, Repr

/-- `CSSPositionType`: `Relative | Absolute`. -/
inductive CSSPositionType where
  | relative | absolute
deriving DecidableEq, Repr

/-- `CSSWrapType`: `NoWrap | Wrap`. -/
inductive CSSWrapType where
  | noWrap | wrap
deriving DecidableEq, Repr

/-- `CSSOverflow`: `Visible | Hidden | Scroll`. -/
inductive CSSOverflow where
  | visible | hidden | scroll
deriving DecidableEq, Repr

/-- `CSSEdge`: `Left | Top | Right | Bottom | Start | End | Horizontal |
Vertical | All`. -/
inductive CSSEdge where
  | left | top | right | bottom | start | end_ | horizontal | vertical | all
deriving DecidableEq, Repr

/-- `CSSDimension`: `Width | Height`. -/
inductive CSSDimension where
  | width | height
deriving DecidableEq, Repr

/-! ## Data model: cached measurements, style, layout, nodes -/

/-- `CSSCachedMeasurement` (CSSLayout.c line 27).  The two measure-mode key
fields are `Option CSSMeasureMode`: `none` models the out-of-band
`(CSSMeasureMode) -1` marker the code stores to invalidate an entry. -/
structure CSSCachedMeasurement where
  availableWidth : F
  availableHeight : F
  widthMeasureMode : Option CSSMeasureMode
  heightMeasureMode : Option CSSMeasureMode
  computedWidth : F
  computedHeight : F
deriving DecidableEq, Repr

/-- Exact equality test on cache entries (kernel-friendly; proven
equivalent to propositional equality below). -/
def cmEqB (x y : CSSCachedMeasurement) : Bool :=
  fEqB x.availableWidth y.availableWidth &&
  fEqB x.availableHeight y.availableHeight &&
  x.widthMeasureMode = y.widthMeasureMode &&
  x.heightMeasureMode = y.heightMeasureMode &&
  fEqB x.computedWidth y.computedWidth &&
  fEqB x.computedHeight y.computedHeight

/-- An edge-indexed float array (`float x[CSSEdgeCount]`). -/
abbrev EdgeArr : Type := CSSEdge → F

/-- A dimension-indexed float array (`float x[2]`). -/
abbrev DimArr : Type := CSSDimension → F

/-- Update one slot of an edge array. -/
def updEdge (m : EdgeArr) (e : CSSEdge) (v : F) : EdgeArr :=
  fun x => if x = e then v else m x

/-- Update one slot of a dimension array. -/
def updDim (m : DimArr) (d : CSSDimension) (v : F) : DimArr :=
  fun x => if x = d then v else m x

/-- `CSSStyle` (CSSLayout.c line 60). -/
structure CSSStyle where
  direction : CSSDirection
  flexDirection : CSSFlexDirection
  justifyContent : CSSJustify
  alignContent : CSSAlign
  alignItems : CSSAlign
  alignSelf : CSSAlign
  positionType : CSSPositionType
  flexWrap : CSSWrapType
  overflow : CSSOverflow
  flexGrow : F
  flexShrink : F
  flexBasis : F
  margin : EdgeArr
  position : EdgeArr
  padding : EdgeArr
  border : EdgeArr
  dimensions : DimArr
  minDimensions : DimArr
  maxDimensions : DimArr

/-- `CSSLayout` (CSSLayout.c line 41), the engine-owned layout record.
`lastParentDirection` is `Option CSSDirection`: `none` models the
`(CSSDirection) -1` initial marker.  The `cachedMeasurements` ring (a fixed
16-slot array with cursor `nextCachedMeasurementsIndex`) is modelled by the
list of its live entries (indices below the cursor): the code only ever
reads slots below the cursor, writes at the cursor, and resets the cursor
to 0 on invalidation or overflow, so the live prefix is the whole
observable state.  `CSS_MAX_CACHED_RESULT_COUNT = 16`. -/
structure CSSLayoutRec where
  position : EdgeArr
  dimensions : DimArr
  direction : CSSDirection
  computedFlexBasis : F
  generationCount : Nat
  lastParentDirection : Option CSSDirection
  cachedMeasurements : List CSSCachedMeasurement
  measuredDimensions : DimArr
  cachedLayout : CSSCachedMeasurement

/-- `CSS_MAX_CACHED_RESULT_COUNT` (CSSLayout.c line 39). -/
def CSS_MAX_CACHED_RESULT_COUNT : Nat := 16

/-- A leaf measurement callback: `(innerWidth, widthMode, innerHeight,
heightMode) → (width, height)`.  The node's `context` argument is folded
into the closure. -/
abbrev MeasureFn : Type := F → CSSMeasureMode → F → CSSMeasureMode → F × F

/-- The scalar fields of `CSSNode` (CSSLayout.c line 82) other than the
child list; the parent back-pointer is represented by tree structure, and
the transient `nextChild` scratch field by the explicit lists the kernel
builds. -/
structure CSSNodeData where
  style : CSSStyle
  layout : CSSLayoutRec
  lineIndex : Nat
  hasNewLayout : Bool
  isTextNode : Bool
  isDirty : Bool
  measure : Option MeasureFn

/-- A node tree: `CSSNode` with its ordered child list. -/
inductive CSSNode where
  | mk (data : CSSNodeData) (children : List CSSNode)

/-- The scalar data of a node. -/
def CSSNode.data : CSSNode → CSSNodeData
  | .mk d _ => d

/-- The ordered child list of a node. -/
def CSSNode.children : CSSNode → List CSSNode
  | .mk _ cs => cs

/-- Rebuild a node with new scalar data. -/
def CSSNode.withData (n : CSSNode) (d : CSSNodeData) : CSSNode :=
  .mk d n.children

/-- Rebuild a node with a new child list. -/
def CSSNode.withChildren (n : CSSNode) (cs : List CSSNode) : CSSNode :=
  .mk n.data cs

/-- `CSSNodeChildCount`. -/
def CSSNodeChildCount (n : CSSNode) : Nat := n.children.length

/-! ## Node initialization (`CSSNodeNew` / `CSSNodeInit`)

`CSSNodeNew` `calloc`s the node (all fields zero) and then runs
`CSSNodeInit` (CSSLayout.c line 163).  Fields not touched by `CSSNodeInit`
keep their `calloc` value: numeric zero for floats and counters, the first
enumerator for enums, `false` for booleans, null for pointers. -/

/-- The style of a freshly created node. -/
def initStyle : CSSStyle where
  direction := .inherit
  flexDirection := .column
  justifyContent := .flexStart
  alignContent := .flexStart
  alignItems := .stretch
  alignSelf := .auto
  positionType := .relative
  flexWrap := .noWrap
  overflow := .visible
  flexGrow := some 0
  flexShrink := some 0
  flexBasis := none
  margin := fun _ => none
  position := fun _ => none
  padding := fun _ => none
  border := fun _ => none
  dimensions := fun _ => none
  minDimensions := fun _ => none
  maxDimensions := fun _ => none

/-- The layout record of a freshly created node. -/
def initLayout : CSSLayoutRec where
  position := fun _ => some 0
  dimensions := fun _ => none
  direction := .inherit
  computedFlexBasis := none
  generationCount := 0
  lastParentDirection := none
  cachedMeasurements := []
  measuredDimensions := fun _ => none
  cachedLayout :=
    { availableWidth := some 0
      availableHeight := some 0
      widthMeasureMode := none
      heightMeasureMode := none
      computedWidth := some 0
      computedHeight := some 0 }

/-- A freshly created node (`CSSNodeNew`). -/
def CSSNodeNew : CSSNode :=
  .mk
    { style := initStyle
      layout := initLayout
      lineIndex := 0
      hasNewLayout := true
      isTextNode := false
      isDirty := false
      measure := none }
    []

/-! ## Dirty propagation and tree addressing

The C tree links children to parents with a back-pointer;
`_CSSNodeMarkDirty` walks that pointer upward.  Here a node inside a tree is
addressed by its path (list of child indices) from the root, and the upward
walk is realized by the downward recursion `markDirtyGo`, which returns
whether the marking is still propagating toward the root. -/

/-- The per-node effect of `_CSSNodeMarkDirty` (CSSLayout.c line 212) on a
clean node: set `isDirty` and invalidate `computedFlexBasis`. -/
def markDirtyData (d : CSSNodeData) : CSSNodeData :=
  { d with isDirty := true, layout.computedFlexBasis := CSSUndefined }

/-- `_CSSNodeMarkDirty` on the node at `path`, implemented top-down.  The
returned flag says whether the recursion is still propagating upward (i.e.
the child at this level was clean and has just been marked). -/
def markDirtyGo : CSSNode → List Nat → CSSNode × Bool
  | n, [] =>
    if n.data.isDirty then (n, false) else (n.withData (markDirtyData n.data), true)
  | n, i :: p =>
    match n.children[i]? with
    | none => (n, false)
    | some c =>
      let r := markDirtyGo c p
      let n' := n.withChildren (n.children.set i r.1)
      if r.2 then
        if n'.data.isDirty then (n', false)
        else (n'.withData (markDirtyData n'.data), true)
      else (n', false)

/-- `_CSSNodeMarkDirty` applied to the node at `path` of the tree `root`. -/
def markDirtyAt (root : CSSNode) (path : List Nat) : CSSNode :=
  (markDirtyGo root path).1

/-- Look up the node at a path. -/
def CSSNode.getAt? : CSSNode → List Nat → Option CSSNode
  | n, [] => some n
  | n, i :: p => match n.children[i]? with
    | none => none
    | some c => c.getAt? p

/-- Apply `f` to the node at `path` (identity when the path is invalid). -/
def CSSNode.modifyAt : CSSNode → List Nat → (CSSNode → CSSNode) → CSSNode
  | n, [], f => f n
  | n, i :: p, f => match n.children[i]? with
    | none => n
    | some c => n.withChildren (n.children.set i (c.modifyAt p f))

/-! ## Style setters

`CSS_NODE_STYLE_PROPERTY_IMPL` (CSSLayout.c line 289) and
`CSS_NODE_STYLE_EDGE_PROPERTY_IMPL` (line 301) generate one setter per style
field, all with the same shape: compare with C `!=`, and on change assign
the field and call `_CSSNodeMarkDirty`.  The macro is modelled by a function
generic in the accessed field (a lens into `CSSStyle`); each concrete
setter instantiates it. -/

/-- A float-valued style field: how to read it and how to write it. -/
structure FloatField where
  get : CSSStyle → F
  set : F → CSSStyle → CSSStyle

/-- The generated float style setter, acting on the node at `path` of
`root`: the body of `CSS_NODE_STYLE_PROPERTY_IMPL` /
`CSS_NODE_STYLE_EDGE_PROPERTY_IMPL` (the edge setters compare and assign
the raw array slot `style.x[edge]`, which is a `FloatField` like any
other). -/
def styleSetFloat (fld : FloatField) (root : CSSNode) (path : List Nat) (v : F) :
    CSSNode :=
  match root.getAt? path with
  | none => root
  | some n =>
    if fNe (fld.get n.data.style) v then
      markDirtyAt
        (root.modifyAt path fun m =>
          m.withData { m.data with style := fld.set v m.data.style })
        path
    else root

/-- An enum-valued style field (for `CSS_NODE_STYLE_PROPERTY_IMPL` at enum
type); enum comparison is exact. -/
structure EnumField (α : Type) [DecidableEq α] where
  get : CSSStyle → α
  set : α → CSSStyle → CSSStyle

/-- The generated enum style setter. -/
def styleSetEnum {α : Type} [DecidableEq α] (fld : EnumField α) (root : CSSNode)
    (path : List Nat) (v : α) : CSSNode :=
  match root.getAt? path with
  | none => root
  | some n =>
    if fld.get n.data.style ≠ v then
      markDirtyAt
        (root.modifyAt path fun m =>
          m.withData { m.data with style := fld.set v m.data.style })
        path
    else root

/-- `CSSNodeStyleSetFlexGrow` field. -/
def flexGrowField : FloatField :=
  ⟨fun s => s.flexGrow, fun v s => { s with flexGrow := v }⟩

/-- `CSSNodeStyleSetFlexShrink` field. -/
def flexShrinkField : FloatField :=
  ⟨fun s => s.flexShrink, fun v s => { s with flexShrink := v }⟩

/-- `CSSNodeStyleSetFlexBasis` field. -/
def flexBasisField : FloatField :=
  ⟨fun s => s.flexBasis, fun v s => { s with flexBasis := v }⟩

/-- `CSSNodeStyleSetWidth` field. -/
def widthField : FloatField :=
  ⟨fun s => s.dimensions .width, fun v s => { s with dimensions := updDim s.dimensions .width v }⟩

/-- `CSSNodeStyleSetHeight` field. -/
def heightField : FloatField :=
  ⟨fun s => s.dimensions .height, fun v s => { s with dimensions := updDim s.dimensions .height v }⟩

/-- `CSSNodeStyleSetMinWidth` field. -/
def minWidthField : FloatField :=
  ⟨fun s => s.minDimensions .width,
   fun v s => { s with minDimensions := updDim s.minDimensions .width v }⟩

/-- `CSSNodeStyleSetMinHeight` field. -/
def minHeightField : FloatField :=
  ⟨fun s => s.minDimensions .height,
   fun v s => { s with minDimensions := updDim s.minDimensions .height v }⟩

/-- `CSSNodeStyleSetMaxWidth` field. -/
def maxWidthField : FloatField :=
  ⟨fun s => s.maxDimensions .width,
   fun v s => { s with maxDimensions := updDim s.maxDimensions .width v }⟩

/-- `CSSNodeStyleSetMaxHeight` field. -/
def maxHeightField : FloatField :=
  ⟨fun s => s.maxDimensions .height,
   fun v s => { s with maxDimensions := updDim s.maxDimensions .height v }⟩

/-- `CSSNodeStyleSetMargin` field for a given edge. -/
def marginField (e : CSSEdge) : FloatField :=
  ⟨fun s => s.margin e, fun v s => { s with margin := updEdge s.margin e v }⟩

/-- `CSSNodeStyleSetPosition` field for a given edge. -/
def positionField (e : CSSEdge) : FloatField :=
  ⟨fun s => s.position e, fun v s => { s with position := updEdge s.position e v }⟩

/-- `CSSNodeStyleSetPadding` field for a given edge. -/
def paddingField (e : CSSEdge) : FloatField :=
  ⟨fun s => s.padding e, fun v s => { s with padding := updEdge s.padding e v }⟩

/-- `CSSNodeStyleSetBorder` field for a given edge. -/
def borderField (e : CSSEdge) : FloatField :=
  ⟨fun s => s.border e, fun v s => { s with border := updEdge s.border e v }⟩

/-! ## The flex shorthand (`CSSNodeStyleSetFlex` / `CSSNodeStyleGetFlex`) -/

/-- `CSSNodeStyleSetFlex` (CSSLayout.c line 254), applied to the node at
`path`: dispatches on the sign of `flex` (NaN fails both `> 0` and the
implicit `< 0`, and is caught by the first test) and forwards to the three
underlying setters. -/
def CSSNodeStyleSetFlex (root : CSSNode) (path : List Nat) (flex : F) : CSSNode :=
  if CSSValueIsUndefined flex || fBeq flex (some 0) then
    styleSetFloat flexBasisField
      (styleSetFloat flexShrinkField
        (styleSetFloat flexGrowField root path (some 0)) path (some 0)) path CSSUndefined
  else if fGt flex (some 0) then
    styleSetFloat flexBasisField
      (styleSetFloat flexShrinkField
        (styleSetFloat flexGrowField root path flex) path (some 0)) path (some 0)
  else
    styleSetFloat flexBasisField
      (styleSetFloat flexShrinkField
        (styleSetFloat flexGrowField root path (some 0)) path (fneg flex)) path CSSUndefined

/-- `CSSNodeStyleGetFlex` (CSSLayout.c line 270). -/
def CSSNodeStyleGetFlex (n : CSSNode) : F :=
  if fGt n.data.style.flexGrow (some 0) then n.data.style.flexGrow
  else if fGt n.data.style.flexShrink (some 0) then fneg n.data.style.flexShrink
  else some 0

/-! ## Edge and axis resolution -/

/-- `computedEdgeValue` (CSSLayout.c line 103).  The `CSS_ASSERT` that
`edge <= CSSEdgeEnd` guards a host programming error; the model is total. -/
def computedEdgeValue (edges : EdgeArr) (edge : CSSEdge) (defaultValue : F) : F :=
  if !CSSValueIsUndefined (edges edge) then edges edge
  else if (edge = .top ∨ edge = .bottom) ∧ !CSSValueIsUndefined (edges .vertical) then
    edges .vertical
  else if (edge = .left ∨ edge = .right ∨ edge = .start ∨ edge = .end_) ∧
      !CSSValueIsUndefined (edges .horizontal) then
    edges .horizontal
  else if !CSSValueIsUndefined (edges .all) then edges .all
  else if edge = .start ∨ edge = .end_ then CSSUndefined
  else defaultValue

/-- The `leading` edge table (CSSLayout.c line 555). -/
def leadingEdge : CSSFlexDirection → CSSEdge
  | .column => .top
  | .columnReverse => .bottom
  | .row => .left
  | .rowReverse => .right

/-- The `trailing` edge table (CSSLayout.c line 561). -/
def trailingEdge : CSSFlexDirection → CSSEdge
  | .column => .bottom
  | .columnReverse => .top
  | .row => .right
  | .rowReverse => .left

/-- The `pos` edge table (CSSLayout.c line 567). -/
def posEdge : CSSFlexDirection → CSSEdge
  | .column => .top
  | .columnReverse => .bottom
  | .row => .left
  | .rowReverse => .right

/-- The `dim` table (CSSLayout.c line 573). -/
def dimOf : CSSFlexDirection → CSSDimension
  | .column => .height
  | .columnReverse => .height
  | .row => .width
  | .rowReverse => .width

/-- `isRowDirection` (CSSLayout.c line 580). -/
def isRowDirection (fd : CSSFlexDirection) : Bool :=
  fd = .row ∨ fd = .rowReverse

/-- `isColumnDirection` (CSSLayout.c line 584). -/
def isColumnDirection (fd : CSSFlexDirection) : Bool :=
  fd = .column ∨ fd = .columnReverse

/-- `getLeadingMargin` (CSSLayout.c line 588). -/
def getLeadingMargin (n : CSSNode) (axis : CSSFlexDirection) : F :=
  if isRowDirection axis && !CSSValueIsUndefined (n.data.style.margin .start) then
    n.data.style.margin .start
  else computedEdgeValue n.data.style.margin (leadingEdge axis) (some 0)

/-- `getTrailingMargin` (CSSLayout.c line 596). -/
def getTrailingMargin (n : CSSNode) (axis : CSSFlexDirection) : F :=
  if isRowDirection axis && !CSSValueIsUndefined (n.data.style.margin .end_) then
    n.data.style.margin .end_
  else computedEdgeValue n.data.style.margin (trailingEdge axis) (some 0)

/-- `getLeadingPadding` (CSSLayout.c line 604). -/
def getLeadingPadding (n : CSSNode) (axis : CSSFlexDirection) : F :=
  if isRowDirection axis && !CSSValueIsUndefined (n.data.style.padding .start) &&
      fGe (n.data.style.padding .start) (some 0) then
    n.data.style.padding .start
  else if fGe (computedEdgeValue n.data.style.padding (leadingEdge axis) (some 0)) (some 0) then
    computedEdgeValue n.data.style.padding (leadingEdge axis) (some 0)
  else some 0

/-- `getTrailingPadding` (CSSLayout.c line 617). -/
def getTrailingPadding (n : CSSNode) (axis : CSSFlexDirection) : F :=
  if isRowDirection axis && !CSSValueIsUndefined (n.data.style.padding .end_) &&
      fGe (n.data.style.padding .end_) (some 0) then
    n.data.style.padding .end_
  else if fGe (computedEdgeValue n.data.style.padding (trailingEdge axis) (some 0)) (some 0) then
    computedEdgeValue n.data.style.padding (trailingEdge axis) (some 0)
  else some 0

/-- `getLeadingBorder` (CSSLayout.c line 630). -/
def getLeadingBorder (n : CSSNode) (axis : CSSFlexDirection) : F :=
  if isRowDirection axis && !CSSValueIsUndefined (n.data.style.border .start) &&
      fGe (n.data.style.border .start) (some 0) then
    n.data.style.border .start
  else if fGe (computedEdgeValue n.data.style.border (leadingEdge axis) (some 0)) (some 0) then
    computedEdgeValue n.data.style.border (leadingEdge axis) (some 0)
  else some 0

/-- `getTrailingBorder` (CSSLayout.c line 643). -/
def getTrailingBorder (n : CSSNode) (axis : CSSFlexDirection) : F :=
  if isRowDirection axis && !CSSValueIsUndefined (n.data.style.border .end_) &&
      fGe (n.data.style.border .end_) (some 0) then
    n.data.style.border .end_
  else if fGe (computedEdgeValue n.data.style.border (trailingEdge axis) (some 0)) (some 0) then
    computedEdgeValue n.data.style.border (trailingEdge axis) (some 0)
  else some 0

/-- `getLeadingPaddingAndBorder` (CSSLayout.c line 656). -/
def getLeadingPaddingAndBorder (n : CSSNode) (axis : CSSFlexDirection) : F :=
  fadd (getLeadingPadding n axis) (getLeadingBorder n axis)

/-- `getTrailingPaddingAndBorder` (CSSLayout.c line 660). -/
def getTrailingPaddingAndBorder (n : CSSNode) (axis : CSSFlexDirection) : F :=
  fadd (getTrailingPadding n axis) (getTrailingBorder n axis)

/-- `getMarginAxis` (CSSLayout.c line 664). -/
def getMarginAxis (n : CSSNode) (axis : CSSFlexDirection) : F :=
  fadd (getLeadingMargin n axis) (getTrailingMargin n axis)

/-- `getPaddingAndBorderAxis` (CSSLayout.c line 668). -/
def getPaddingAndBorderAxis (n : CSSNode) (axis : CSSFlexDirection) : F :=
  fadd (getLeadingPaddingAndBorder n axis) (getTrailingPaddingAndBorder n axis)

/-- `getAlignItem` (CSSLayout.c line 672). -/
def getAlignItem (n child : CSSNode) : CSSAlign :=
  if child.data.style.alignSelf ≠ .auto then child.data.style.alignSelf
  else n.data.style.alignItems

/-- `resolveDirection` (CSSLayout.c line 679): `parentDirection >
CSSDirectionInherit` means the parent direction is `ltr` or `rtl`. -/
def resolveDirection (n : CSSNode) (parentDirection : CSSDirection) : CSSDirection :=
  if n.data.style.direction = .inherit then
    if parentDirection ≠ .inherit then parentDirection else .ltr
  else n.data.style.direction

/-- `resolveAxis` (CSSLayout.c line 687). -/
def resolveAxis (fd : CSSFlexDirection) (direction : CSSDirection) : CSSFlexDirection :=
  if direction = .rtl then
    if fd = .row then .rowReverse
    else if fd = .rowReverse then .row
    else fd
  else fd

/-- `getCrossFlexDirection` (CSSLayout.c line 700). -/
def getCrossFlexDirection (fd : CSSFlexDirection) (direction : CSSDirection) :
    CSSFlexDirection :=
  if isColumnDirection fd then resolveAxis .row direction else .column

/-- `isFlex` (CSSLayout.c line 709). -/
def isFlex (n : CSSNode) : Bool :=
  n.data.style.positionType = CSSPositionType.relative &&
    (fNe n.data.style.flexGrow (some 0) || fNe n.data.style.flexShrink (some 0))

/-- `getDimWithMargin` (CSSLayout.c line 714). -/
def getDimWithMargin (n : CSSNode) (axis : CSSFlexDirection) : F :=
  fadd (fadd (n.data.layout.measuredDimensions (dimOf axis)) (getLeadingMargin n axis))
    (getTrailingMargin n axis)

/-- `isStyleDimDefined` (CSSLayout.c line 719). -/
def isStyleDimDefined (n : CSSNode) (axis : CSSFlexDirection) : Bool :=
  let value := n.data.style.dimensions (dimOf axis)
  !CSSValueIsUndefined value && fGe value (some 0)

/-- `isLayoutDimDefined` (CSSLayout.c line 724). -/
def isLayoutDimDefined (n : CSSNode) (axis : CSSFlexDirection) : Bool :=
  let value := n.data.layout.measuredDimensions (dimOf axis)
  !CSSValueIsUndefined value && fGe value (some 0)

/-- `isLeadingPosDefined` (CSSLayout.c line 729). -/
def isLeadingPosDefined (n : CSSNode) (axis : CSSFlexDirection) : Bool :=
  (isRowDirection axis &&
    !CSSValueIsUndefined (computedEdgeValue n.data.style.position .start CSSUndefined)) ||
  !CSSValueIsUndefined (computedEdgeValue n.data.style.position (leadingEdge axis) CSSUndefined)

/-- `isTrailingPosDefined` (CSSLayout.c line 736). -/
def isTrailingPosDefined (n : CSSNode) (axis : CSSFlexDirection) : Bool :=
  (isRowDirection axis &&
    !CSSValueIsUndefined (computedEdgeValue n.data.style.position .end_ CSSUndefined)) ||
  !CSSValueIsUndefined (computedEdgeValue n.data.style.position (trailingEdge axis) CSSUndefined)

/-- `getLeadingPosition` (CSSLayout.c line 744). -/
def getLeadingPosition (n : CSSNode) (axis : CSSFlexDirection) : F :=
  if isRowDirection axis &&
      !CSSValueIsUndefined (computedEdgeValue n.data.style.position .start CSSUndefined) then
    computedEdgeValue n.data.style.position .start CSSUndefined
  else if !CSSValueIsUndefined
      (computedEdgeValue n.data.style.position (leadingEdge axis) CSSUndefined) then
    computedEdgeValue n.data.style.position (leadingEdge axis) CSSUndefined
  else some 0

/-- `getTrailingPosition` (CSSLayout.c line 755). -/
def getTrailingPosition (n : CSSNode) (axis : CSSFlexDirection) : F :=
  if isRowDirection axis &&
      !CSSValueIsUndefined (computedEdgeValue n.data.style.position .end_ CSSUndefined) then
    computedEdgeValue n.data.style.position .end_ CSSUndefined
  else if !CSSValueIsUndefined
      (computedEdgeValue n.data.style.position (trailingEdge axis) CSSUndefined) then
    computedEdgeValue n.data.style.position (trailingEdge axis) CSSUndefined
  else some 0

/-- `boundAxisWithinMinAndMax` (CSSLayout.c line 766). -/
def boundAxisWithinMinAndMax (n : CSSNode) (axis : CSSFlexDirection) (value : F) : F :=
  let mn : F :=
    if isColumnDirection axis then n.data.style.minDimensions .height
    else if isRowDirection axis then n.data.style.minDimensions .width
    else CSSUndefined
  let mx : F :=
    if isColumnDirection axis then n.data.style.maxDimensions .height
    else if isRowDirection axis then n.data.style.maxDimensions .width
    else CSSUndefined
  let bound1 := if !CSSValueIsUndefined mx && fGe mx (some 0) && fGt value mx then mx else value
  if !CSSValueIsUndefined mn && fGe mn (some 0) && fLt bound1 mn then mn else bound1

/-- `boundAxis` (CSSLayout.c line 796): clamp within min/max and never below
the padding-and-border floor. -/
def boundAxis (n : CSSNode) (axis : CSSFlexDirection) (value : F) : F :=
  fmaxf (boundAxisWithinMinAndMax n axis value) (getPaddingAndBorderAxis n axis)

/-- `setTrailingPosition` (CSSLayout.c line 800), returning the updated
child. -/
def setTrailingPosition (n child : CSSNode) (axis : CSSFlexDirection) : CSSNode :=
  let size := child.data.layout.measuredDimensions (dimOf axis)
  child.withData
    { child.data with
      layout.position :=
        updEdge child.data.layout.position (trailingEdge axis)
          (fsub (fsub (n.data.layout.measuredDimensions (dimOf axis)) size)
            (child.data.layout.position (posEdge axis))) }

/-- `getRelativePosition` (CSSLayout.c line 810). -/
def getRelativePosition (n : CSSNode) (axis : CSSFlexDirection) : F :=
  if isLeadingPosDefined n axis then getLeadingPosition n axis
  else fneg (getTrailingPosition n axis)

/-- `setPosition` (CSSLayout.c line 817), returning the updated node. -/
def setPosition (n : CSSNode) (direction : CSSDirection) : CSSNode :=
  let mainAxis := resolveAxis n.data.style.flexDirection direction
  let crossAxis := getCrossFlexDirection mainAxis direction
  let p0 := n.data.layout.position
  let p1 := updEdge p0 (leadingEdge mainAxis)
    (fadd (getLeadingMargin n mainAxis) (getRelativePosition n mainAxis))
  let p2 := updEdge p1 (trailingEdge mainAxis)
    (fadd (getTrailingMargin n mainAxis) (getRelativePosition n mainAxis))
  let p3 := updEdge p2 (leadingEdge crossAxis)
    (fadd (getLeadingMargin n crossAxis) (getRelativePosition n crossAxis))
  let p4 := updEdge p3 (trailingEdge crossAxis)
    (fadd (getTrailingMargin n crossAxis) (getRelativePosition n crossAxis))
  n.withData { n.data with layout.position := p4 }

/-! ## The measurement-cache hit predicate -/

/-- `isHeightSame` (CSSLayout.c line 2034): the cached entry and the new
request agree on the height key. -/
def cacheHeightSame (cachedLayout : CSSCachedMeasurement) (availableHeight : F)
    (heightMeasureMode : CSSMeasureMode) : Bool :=
  (cachedLayout.heightMeasureMode = some .undefined &&
    heightMeasureMode = .undefined) ||
  (cachedLayout.heightMeasureMode = some heightMeasureMode &&
    feq cachedLayout.availableHeight availableHeight)

/-- `isWidthSame` (CSSLayout.c line 2039). -/
def cacheWidthSame (cachedLayout : CSSCachedMeasurement) (availableWidth : F)
    (widthMeasureMode : CSSMeasureMode) : Bool :=
  (cachedLayout.widthMeasureMode = some .undefined &&
    widthMeasureMode = .undefined) ||
  (cachedLayout.widthMeasureMode = some widthMeasureMode &&
    feq cachedLayout.availableWidth availableWidth)

/-- `isHeightValid` (CSSLayout.c line 2048): the cached entry remains valid
on the height axis under the new constraint. -/
def cacheHeightValid (cachedLayout : CSSCachedMeasurement)
    (availableHeight marginColumn : F) (heightMeasureMode : CSSMeasureMode) : Bool :=
  (cachedLayout.heightMeasureMode = some .undefined &&
    heightMeasureMode = .atMost &&
    fLe cachedLayout.computedHeight (fsub availableHeight marginColumn)) ||
  (heightMeasureMode = .exactly &&
    feq cachedLayout.computedHeight (fsub availableHeight marginColumn))

/-- `isWidthValid` (CSSLayout.c line 2058). -/
def cacheWidthValid (cachedLayout : CSSCachedMeasurement)
    (availableWidth marginRow : F) (widthMeasureMode : CSSMeasureMode) : Bool :=
  (cachedLayout.widthMeasureMode = some .undefined &&
    widthMeasureMode = .atMost &&
    fLe cachedLayout.computedWidth (fsub availableWidth marginRow)) ||
  (widthMeasureMode = .exactly &&
    feq cachedLayout.computedWidth (fsub availableWidth marginRow))

/-- `canUseCachedMeasurement` (CSSLayout.c line 2026).  The C function takes
its `cachedLayout` argument **by value**; the assignment
`cachedLayout.computedHeight = availableHeight - marginColumn` in the
text-node branch therefore writes a local copy that is discarded when the
function returns `true` on the next line, so the function's only observable
behaviour is its boolean result, which this translation returns. -/
def canUseCachedMeasurement (isTextNode : Bool) (availableWidth availableHeight : F)
    (marginRow marginColumn : F) (widthMeasureMode heightMeasureMode : CSSMeasureMode)
    (cachedLayout : CSSCachedMeasurement) : Bool :=
  let isHeightSame := cacheHeightSame cachedLayout availableHeight heightMeasureMode
  let isWidthSame := cacheWidthSame cachedLayout availableWidth widthMeasureMode
  if isHeightSame && isWidthSame then true
  else
    let isHeightValid :=
      cacheHeightValid cachedLayout availableHeight marginColumn heightMeasureMode
    if isWidthSame && isHeightValid then true
    else
      let isWidthValid :=
        cacheWidthValid cachedLayout availableWidth marginRow widthMeasureMode
      if isHeightSame && isWidthValid then true
      else if isHeightValid && isWidthValid then true
      else if isTextNode then
        if isWidthSame then
          if heightMeasureMode = .undefined then true
          else if heightMeasureMode = .atMost &&
              fLt cachedLayout.computedHeight (fsub availableHeight marginColumn) then true
          else
            -- the C code updates the local copy's computedHeight here and
            -- returns true; the write is unobservable (pass-by-value)
            true
        else if cachedLayout.widthMeasureMode = some .undefined &&
            (widthMeasureMode = .undefined ||
              (widthMeasureMode = .atMost &&
                fLe cachedLayout.computedWidth (fsub availableWidth marginRow))) then
          true
        else false
      else false

/-! ## The cache-guarded wrapper (`layoutNodeInternal`), decomposed -/

/-- The visiting condition at the top of `layoutNodeInternal`
(CSSLayout.c line 2132). -/
def needToVisitNode (n : CSSNode) (parentDirection : CSSDirection) (gen : Nat) : Bool :=
  (n.data.isDirty && n.data.layout.generationCount ≠ gen) ||
  n.data.layout.lastParentDirection ≠ some parentDirection

/-- Cache invalidation (CSSLayout.c line 2137): reset the measurement ring
and mark both mode fields of `cachedLayout` with the out-of-band value. -/
def invalidateCaches (l : CSSLayoutRec) : CSSLayoutRec :=
  { l with
    cachedMeasurements := []
    cachedLayout :=
      { l.cachedLayout with widthMeasureMode := none, heightMeasureMode := none } }

/-- The entry phase of `layoutNodeInternal` (CSSLayout.c lines 2132-2141):
invalidate the caches exactly when the node needs to be visited. -/
def wrapperEntry (node : CSSNode) (parentDirection : CSSDirection) (gen : Nat) :
    CSSNode :=
  if needToVisitNode node parentDirection gen then
    node.withData { node.data with layout := invalidateCaches node.data.layout }
  else node

/-- The cache lookup of `layoutNodeInternal` (CSSLayout.c lines 2143-2204):
measure-function leaves use `canUseCachedMeasurement` on the layout entry and
then the ring; full-layout calls use an exact key match on the layout entry;
measure-only calls use an exact key match on the ring. -/
def findCachedResult (n : CSSNode) (availableWidth availableHeight : F)
    (widthMeasureMode heightMeasureMode : CSSMeasureMode) (performLayout : Bool) :
    Option CSSCachedMeasurement :=
  if n.data.measure.isSome && n.children.length = 0 then
    let marginAxisRow := getMarginAxis n .row
    let marginAxisColumn := getMarginAxis n .column
    if canUseCachedMeasurement n.data.isTextNode availableWidth availableHeight
        marginAxisRow marginAxisColumn widthMeasureMode heightMeasureMode
        n.data.layout.cachedLayout then
      some n.data.layout.cachedLayout
    else
      n.data.layout.cachedMeasurements.find? fun e =>
        canUseCachedMeasurement n.data.isTextNode availableWidth availableHeight
          marginAxisRow marginAxisColumn widthMeasureMode heightMeasureMode e
  else if performLayout then
    if feq n.data.layout.cachedLayout.availableWidth availableWidth &&
        feq n.data.layout.cachedLayout.availableHeight availableHeight &&
        n.data.layout.cachedLayout.widthMeasureMode = some widthMeasureMode &&
        n.data.layout.cachedLayout.heightMeasureMode = some heightMeasureMode then
      some n.data.layout.cachedLayout
    else none
  else
    n.data.layout.cachedMeasurements.find? fun e =>
      feq e.availableWidth availableWidth && feq e.availableHeight availableHeight &&
      e.widthMeasureMode = some widthMeasureMode &&
      e.heightMeasureMode = some heightMeasureMode

/-- The cache write-back of `layoutNodeInternal` (CSSLayout.c lines
2261-2285), performed only when the lookup found nothing: on ring overflow
reset the cursor, then write the layout entry (full-layout call) or append a
ring entry (measure-only call). -/
def storeCacheEntry (l : CSSLayoutRec) (availableWidth availableHeight : F)
    (widthMeasureMode heightMeasureMode : CSSMeasureMode) (performLayout : Bool) :
    CSSLayoutRec :=
  let l1 :=
    if l.cachedMeasurements.length = CSS_MAX_CACHED_RESULT_COUNT then
      { l with cachedMeasurements := [] }
    else l
  let entry : CSSCachedMeasurement :=
    { availableWidth := availableWidth
      availableHeight := availableHeight
      widthMeasureMode := some widthMeasureMode
      heightMeasureMode := some heightMeasureMode
      computedWidth := l1.measuredDimensions .width
      computedHeight := l1.measuredDimensions .height }
  if performLayout then { l1 with cachedLayout := entry }
  else { l1 with cachedMeasurements := l1.cachedMeasurements ++ [entry] }

/-- Write both measured dimensions of a node. -/
def setMeasuredDims (n : CSSNode) (w h : F) : CSSNode :=
  n.withData
    { n.data with
      layout.measuredDimensions :=
        updDim (updDim n.data.layout.measuredDimensions .width w) .height h }

/-- The type of the recursive layout call available inside the kernel body:
`(child, availableWidth, availableHeight, parentDirection, widthMeasureMode,
heightMeasureMode, performLayout) ↦ (updated child, kernel-body run count)`,
or `none` on fuel exhaustion. -/
abbrev RecurFn : Type :=
  CSSNode → F → F → CSSDirection → CSSMeasureMode → CSSMeasureMode → Bool →
    Option (CSSNode × Nat)

/-! ## `computeChildFlexBasis` (CSSLayout.c line 831) -/

/-- `computeChildFlexBasis`: resolve one child's `computedFlexBasis`,
measuring the child through the cache-guarded wrapper when neither a style
flex basis nor a definite main-axis style dimension applies. -/
def computeChildFlexBasisF (recur : RecurFn) (node child : CSSNode) (width : F)
    (widthMode : CSSMeasureMode) (height : F) (heightMode : CSSMeasureMode)
    (direction : CSSDirection) : Option (CSSNode × Nat) :=
  let mainAxis := resolveAxis node.data.style.flexDirection direction
  let isMainAxisRow := isRowDirection mainAxis
  if !CSSValueIsUndefined child.data.style.flexBasis &&
      !CSSValueIsUndefined (if isMainAxisRow then width else height) then
    if CSSValueIsUndefined child.data.layout.computedFlexBasis then
      some (child.withData
        { child.data with
          layout.computedFlexBasis :=
            fmaxf child.data.style.flexBasis (getPaddingAndBorderAxis child mainAxis) }, 0)
    else some (child, 0)
  else if isMainAxisRow && isStyleDimDefined child .row then
    some (child.withData
      { child.data with
        layout.computedFlexBasis :=
          fmaxf (child.data.style.dimensions .width)
            (getPaddingAndBorderAxis child .row) }, 0)
  else if !isMainAxisRow && isStyleDimDefined child .column then
    some (child.withData
      { child.data with
        layout.computedFlexBasis :=
          fmaxf (child.data.style.dimensions .height)
            (getPaddingAndBorderAxis child .column) }, 0)
  else
    let cw0 : F × CSSMeasureMode :=
      if isStyleDimDefined child .row then
        (fadd (child.data.style.dimensions .width) (getMarginAxis child .row), .exactly)
      else (CSSUndefined, .undefined)
    let ch0 : F × CSSMeasureMode :=
      if isStyleDimDefined child .column then
        (fadd (child.data.style.dimensions .height) (getMarginAxis child .column), .exactly)
      else (CSSUndefined, .undefined)
    -- the overflow == Scroll disjunctions, kept as written in the source
    let cw1 : F × CSSMeasureMode :=
      if ((!isMainAxisRow && node.data.style.overflow = .scroll) ||
          node.data.style.overflow ≠ .scroll) then
        if CSSValueIsUndefined cw0.1 && !CSSValueIsUndefined width then (width, .atMost)
        else cw0
      else cw0
    let ch1 : F × CSSMeasureMode :=
      if ((isMainAxisRow && node.data.style.overflow = .scroll) ||
          node.data.style.overflow ≠ .scroll) then
        if CSSValueIsUndefined ch0.1 && !CSSValueIsUndefined height then (height, .atMost)
        else ch0
      else ch0
    let cw2 : F × CSSMeasureMode :=
      if !isMainAxisRow && !CSSValueIsUndefined width && !isStyleDimDefined child .row &&
          widthMode = .exactly && getAlignItem node child = .stretch then
        (width, .exactly)
      else cw1
    let ch2 : F × CSSMeasureMode :=
      if isMainAxisRow && !CSSValueIsUndefined height && !isStyleDimDefined child .column &&
          heightMode = .exactly && getAlignItem node child = .stretch then
        (height, .exactly)
      else ch1
    match recur child cw2.1 ch2.1 direction cw2.2 ch2.2 false with
    | none => none
    | some (child', cnt) =>
      some (child'.withData
        { child'.data with
          layout.computedFlexBasis :=
            fmaxf
              (if isMainAxisRow then child'.data.layout.measuredDimensions .width
               else child'.data.layout.measuredDimensions .height)
              (getPaddingAndBorderAxis child' mainAxis) }, cnt)

/-! ## `absoluteLayoutChild` (CSSLayout.c line 930) -/

/-- `absoluteLayoutChild`: size and lay out one absolutely positioned child
against the parent's measured dimensions. -/
def absoluteLayoutChildF (recur : RecurFn) (node child : CSSNode) (width : F)
    (widthMode : CSSMeasureMode) (direction : CSSDirection) : Option (CSSNode × Nat) :=
  let mainAxis := resolveAxis node.data.style.flexDirection direction
  let crossAxis := getCrossFlexDirection mainAxis direction
  let isMainAxisRow := isRowDirection mainAxis
  let childWidth0 : F :=
    if isStyleDimDefined child .row then
      fadd (child.data.style.dimensions .width) (getMarginAxis child .row)
    else if isLeadingPosDefined child .row && isTrailingPosDefined child .row then
      boundAxis child .row
        (fsub
          (fsub (node.data.layout.measuredDimensions .width)
            (fadd (getLeadingBorder node .row) (getTrailingBorder node .row)))
          (fadd (getLeadingPosition child .row) (getTrailingPosition child .row)))
    else CSSUndefined
  let childHeight0 : F :=
    if isStyleDimDefined child .column then
      fadd (child.data.style.dimensions .height) (getMarginAxis child .column)
    else if isLeadingPosDefined child .column && isTrailingPosDefined child .column then
      boundAxis child .column
        (fsub
          (fsub (node.data.layout.measuredDimensions .height)
            (fadd (getLeadingBorder node .column) (getTrailingBorder node .column)))
          (fadd (getLeadingPosition child .column) (getTrailingPosition child .column)))
    else CSSUndefined
  let measured : Option (CSSNode × F × F × Nat) :=
    if CSSValueIsUndefined childWidth0 || CSSValueIsUndefined childHeight0 then
      let cwm : CSSMeasureMode :=
        if CSSValueIsUndefined childWidth0 then .undefined else .exactly
      let chm : CSSMeasureMode :=
        if CSSValueIsUndefined childHeight0 then .undefined else .exactly
      let cwPair : F × CSSMeasureMode :=
        if !isMainAxisRow && CSSValueIsUndefined childWidth0 && widthMode ≠ .undefined then
          (width, .atMost)
        else (childWidth0, cwm)
      (recur child cwPair.1 childHeight0 direction cwPair.2 chm false).map fun r =>
        (r.1,
         fadd (r.1.data.layout.measuredDimensions .width) (getMarginAxis r.1 .row),
         fadd (r.1.data.layout.measuredDimensions .height) (getMarginAxis r.1 .column),
         r.2)
    else some (child, childWidth0, childHeight0, 0)
  measured.bind fun m =>
    (recur m.1 m.2.1 m.2.2.1 direction .exactly .exactly true).bind fun r2 =>
      let child2 := r2.1
      let child3 :=
        if isTrailingPosDefined child2 mainAxis && !isLeadingPosDefined child2 mainAxis then
          child2.withData
            { child2.data with
              layout.position :=
                updEdge child2.data.layout.position (leadingEdge mainAxis)
                  (fsub
                    (fsub (node.data.layout.measuredDimensions (dimOf mainAxis))
                      (child2.data.layout.measuredDimensions (dimOf mainAxis)))
                    (getTrailingPosition child2 mainAxis)) }
        else child2
      let child4 :=
        if isTrailingPosDefined child3 crossAxis && !isLeadingPosDefined child3 crossAxis then
          child3.withData
            { child3.data with
              layout.position :=
                updEdge child3.data.layout.position (leadingEdge crossAxis)
                  (fsub
                    (fsub (node.data.layout.measuredDimensions (dimOf crossAxis))
                      (child3.data.layout.measuredDimensions (dimOf crossAxis)))
                    (getTrailingPosition child3 crossAxis)) }
        else child3
      some (child4, m.2.2.2 + r2.2)

/-! ## The layout kernel (`layoutNodeImpl`), decomposed

The kernel's loops over children (with their intrusive `nextChild` scratch
lists) are realized as folds over child index lists; the per-line relative
list is the list of non-absolute child indices in the line's range, in
order, exactly as the source threads it. -/

/-- Total child indexing (indices produced by the kernel are always in
range). -/
def getCh (cs : List CSSNode) (i : Nat) : CSSNode := cs.getD i CSSNodeNew

/-- The loop-invariant context of one `layoutNodeImpl` invocation
(STEP 1/2, CSSLayout.c lines 1280-1304). -/
structure ImplCtx where
  node : CSSNode
  direction : CSSDirection
  mainAxis : CSSFlexDirection
  crossAxis : CSSFlexDirection
  isMainAxisRow : Bool
  widthMeasureMode : CSSMeasureMode
  heightMeasureMode : CSSMeasureMode
  performLayout : Bool
  availableInnerMainDim : F
  availableInnerCrossDim : F

/-- STEP 3 (CSSLayout.c lines 1306-1338): set each child's initial position
(full-layout passes), and resolve `computedFlexBasis` for non-absolute
children. -/
def step3Go (recur : RecurFn) (node : CSSNode) (availW : F) (wm : CSSMeasureMode)
    (availH : F) (hm : CSSMeasureMode) (direction : CSSDirection)
    (performLayout : Bool) : List CSSNode → Option (List CSSNode × Nat)
  | [] => some ([], 0)
  | c :: rest =>
    let c1 := if performLayout then setPosition c (resolveDirection c direction) else c
    if c1.data.style.positionType = .absolute then
      match step3Go recur node availW wm availH hm direction performLayout rest with
      | none => none
      | some (cs, k) => some (c1 :: cs, k)
    else
      match computeChildFlexBasisF recur node c1 availW wm availH hm direction with
      | none => none
      | some (c2, k1) =>
        match step3Go recur node availW wm availH hm direction performLayout rest with
        | none => none
        | some (cs, k2) => some (c2 :: cs, k1 + k2)

/-- One flex line (STEP 4): the child index range `[start, stop)`, the
number of in-flow items, and the line's accumulated size and flex factors. -/
structure FlexLine where
  start : Nat
  stop : Nat
  itemsOnLine : Nat
  sizeConsumed : F
  totalFlexGrowFactors : F
  totalFlexShrinkScaledFactors : F

/-- STEP 4 (CSSLayout.c lines 1340-1416): collect children into flex lines.
A non-absolute child whose outer flex basis overflows the line (under
`wrap`, with at least one item already on the line) closes the line and
opens the next one with itself as first item. -/
def collectLinesGo (mainAxis : CSSFlexDirection) (availMain : F) (wrap : Bool) :
    List CSSNode → Nat → Nat → Nat → F → F → F → List FlexLine
  | [], idx, start, items, consumed, tg, ts =>
    [⟨start, idx, items, consumed, tg, ts⟩]
  | c :: rest, idx, start, items, consumed, tg, ts =>
    if c.data.style.positionType ≠ .absolute then
      let outer := fadd c.data.layout.computedFlexBasis (getMarginAxis c mainAxis)
      let addTg := fun (g : F) => if isFlex c then fadd g c.data.style.flexGrow else g
      let addTs := fun (s : F) =>
        if isFlex c then
          fadd s (fmul (fneg c.data.style.flexShrink) c.data.layout.computedFlexBasis)
        else s
      if fGt (fadd consumed outer) availMain && wrap && items > 0 then
        ⟨start, idx, items, consumed, tg, ts⟩ ::
          collectLinesGo mainAxis availMain wrap rest (idx + 1) idx 1 outer
            (addTg (some 0)) (addTs (some 0))
      else
        collectLinesGo mainAxis availMain wrap rest (idx + 1) start (items + 1)
          (fadd consumed outer) (addTg tg) (addTs ts)
    else
      collectLinesGo mainAxis availMain wrap rest (idx + 1) start items consumed tg ts

/-- Write each child's `lineIndex` from the line partition (the kernel sets
`child->lineIndex = lineCount` as it scans; the final value is the index of
the line whose range contains the child). -/
def applyLineIndex (lines : List FlexLine) (cs : List CSSNode) : List CSSNode :=
  cs.enum.map fun p =>
    match lines.findIdx? (fun L => decide (L.start ≤ p.1) && decide (p.1 < L.stop)) with
    | some k => p.2.withData { p.2.data with lineIndex := k }
    | none => p.2

/-- STEP 5, first pass (CSSLayout.c lines 1478-1527): detect the flex items
whose min/max constraints trigger and accumulate the deltas to the free
space and the flex factor totals. -/
def flexPass1Go (ctx : ImplCtx) (cs : List CSSNode) (rfs totalShrink totalGrow : F) :
    List Nat → F × F × F → F × F × F
  | [], acc => acc
  | i :: rest, (dFS, dS, dG) =>
    let child := getCh cs i
    let basis := child.data.layout.computedFlexBasis
    let acc' :=
      if fLt rfs (some 0) then
        let factor := fmul (fneg child.data.style.flexShrink) basis
        if fNe factor (some 0) then
          let base := fadd basis (fmul (fdiv rfs totalShrink) factor)
          let bound := boundAxis child ctx.mainAxis base
          if fNe base bound then (fsub dFS (fsub bound basis), fsub dS factor, dG)
          else (dFS, dS, dG)
        else (dFS, dS, dG)
      else if fGt rfs (some 0) then
        let g := child.data.style.flexGrow
        if fNe g (some 0) then
          let base := fadd basis (fmul (fdiv rfs totalGrow) g)
          let bound := boundAxis child ctx.mainAxis base
          if fNe base bound then (fsub dFS (fsub bound basis), dS, fsub dG g)
          else (dFS, dS, dG)
        else (dFS, dS, dG)
      else (dFS, dS, dG)
    flexPass1Go ctx cs rfs totalShrink totalGrow rest acc'

/-- STEP 5, second pass (CSSLayout.c lines 1533-1633): resolve each flexible
item's main size and relayout it with its cross-axis constraints; stretch
items are laid out measure-only here and finalized in STEP 7. -/
def flexPass2Go (recur : RecurFn) (ctx : ImplCtx) (rfs totalShrink totalGrow : F) :
    List Nat → List CSSNode → F → Nat → Option (List CSSNode × F × Nat)
  | [], cs, dFS, k => some (cs, dFS, k)
  | i :: rest, cs, dFS, k =>
    let child := getCh cs i
    let basis := child.data.layout.computedFlexBasis
    let updatedMainSize :=
      if fLt rfs (some 0) then
        let factor := fmul (fneg child.data.style.flexShrink) basis
        if fNe factor (some 0) then
          let childSize :=
            if fBeq totalShrink (some 0) then fadd basis factor
            else fadd basis (fmul (fdiv rfs totalShrink) factor)
          boundAxis child ctx.mainAxis childSize
        else basis
      else if fGt rfs (some 0) then
        let g := child.data.style.flexGrow
        if fNe g (some 0) then
          boundAxis child ctx.mainAxis (fadd basis (fmul (fdiv rfs totalGrow) g))
        else basis
      else basis
    let dFS' := fsub dFS (fsub updatedMainSize basis)
    let cwch : (F × CSSMeasureMode) × (F × CSSMeasureMode) :=
      if ctx.isMainAxisRow then
        let cw := (fadd updatedMainSize (getMarginAxis child .row), CSSMeasureMode.exactly)
        let ch :=
          if !CSSValueIsUndefined ctx.availableInnerCrossDim &&
              !isStyleDimDefined child .column &&
              ctx.heightMeasureMode = .exactly && getAlignItem ctx.node child = .stretch then
            (ctx.availableInnerCrossDim, CSSMeasureMode.exactly)
          else if !isStyleDimDefined child .column then
            (ctx.availableInnerCrossDim,
             if CSSValueIsUndefined ctx.availableInnerCrossDim then CSSMeasureMode.undefined
             else CSSMeasureMode.atMost)
          else
            (fadd (child.data.style.dimensions .height) (getMarginAxis child .column),
             CSSMeasureMode.exactly)
        (cw, ch)
      else
        let ch := (fadd updatedMainSize (getMarginAxis child .column), CSSMeasureMode.exactly)
        let cw :=
          if !CSSValueIsUndefined ctx.availableInnerCrossDim &&
              !isStyleDimDefined child .row &&
              ctx.widthMeasureMode = .exactly && getAlignItem ctx.node child = .stretch then
            (ctx.availableInnerCrossDim, CSSMeasureMode.exactly)
          else if !isStyleDimDefined child .row then
            (ctx.availableInnerCrossDim,
             if CSSValueIsUndefined ctx.availableInnerCrossDim then CSSMeasureMode.undefined
             else CSSMeasureMode.atMost)
          else
            (fadd (child.data.style.dimensions .width) (getMarginAxis child .row),
             CSSMeasureMode.exactly)
        (cw, ch)
    let requiresStretchLayout :=
      !isStyleDimDefined child ctx.crossAxis && getAlignItem ctx.node child = .stretch
    match recur child cwch.1.1 cwch.2.1 ctx.direction cwch.1.2 cwch.2.2
        (ctx.performLayout && !requiresStretchLayout) with
    | none => none
    | some (child', k1) =>
      flexPass2Go recur ctx rfs totalShrink totalGrow rest (cs.set i child') dFS' (k + k1)

/-- STEP 6b (CSSLayout.c lines 1687-1730): place children along the main
axis and accumulate the line's main and cross dimensions. -/
def mainLoopGo (ctx : ImplCtx) (canSkipFlex : Bool) (between : F) :
    List Nat → List CSSNode → F → F → List CSSNode × F × F
  | [], cs, mainDim, crossDim => (cs, mainDim, crossDim)
  | i :: rest, cs, mainDim, crossDim =>
    let child := getCh cs i
    if child.data.style.positionType = .absolute &&
        isLeadingPosDefined child ctx.mainAxis then
      let cs' :=
        if ctx.performLayout then
          cs.set i (child.withData
            { child.data with
              layout.position :=
                updEdge child.data.layout.position (posEdge ctx.mainAxis)
                  (fadd
                    (fadd (getLeadingPosition child ctx.mainAxis)
                      (getLeadingBorder ctx.node ctx.mainAxis))
                    (getLeadingMargin child ctx.mainAxis)) })
        else cs
      mainLoopGo ctx canSkipFlex between rest cs' mainDim crossDim
    else
      let cs' :=
        if ctx.performLayout then
          cs.set i (child.withData
            { child.data with
              layout.position :=
                updEdge child.data.layout.position (posEdge ctx.mainAxis)
                  (fadd (child.data.layout.position (posEdge ctx.mainAxis)) mainDim) })
        else cs
      if child.data.style.positionType = .relative then
        if canSkipFlex then
          mainLoopGo ctx canSkipFlex between rest cs'
            (fadd mainDim
              (fadd between
                (fadd (getMarginAxis child ctx.mainAxis)
                  child.data.layout.computedFlexBasis)))
            ctx.availableInnerCrossDim
        else
          mainLoopGo ctx canSkipFlex between rest cs'
            (fadd mainDim (fadd between (getDimWithMargin child ctx.mainAxis)))
            (fmaxf crossDim (getDimWithMargin child ctx.crossAxis))
      else mainLoopGo ctx canSkipFlex between rest cs' mainDim crossDim

/-- STEP 7 (CSSLayout.c lines 1755-1836): cross-axis alignment on one line;
stretch children without a definite cross size are re-laid-out at the line's
cross size. -/
def crossLoopGo (recur : RecurFn) (ctx : ImplCtx)
    (crossDim containerCrossAxis totalLineCrossDim leadingPBCross : F) :
    List Nat → List CSSNode → Nat → Option (List CSSNode × Nat)
  | [], cs, k => some (cs, k)
  | i :: rest, cs, k =>
    let child := getCh cs i
    if child.data.style.positionType = .absolute then
      let v :=
        if isLeadingPosDefined child ctx.crossAxis then
          fadd
            (fadd (getLeadingPosition child ctx.crossAxis)
              (getLeadingBorder ctx.node ctx.crossAxis))
            (getLeadingMargin child ctx.crossAxis)
        else fadd leadingPBCross (getLeadingMargin child ctx.crossAxis)
      crossLoopGo recur ctx crossDim containerCrossAxis totalLineCrossDim leadingPBCross rest
        (cs.set i (child.withData
          { child.data with
            layout.position := updEdge child.data.layout.position (posEdge ctx.crossAxis) v }))
        k
    else
      let alignItem := getAlignItem ctx.node child
      let stretched : Option (CSSNode × F × Nat) :=
        if alignItem = .stretch then
          let isCrossSizeDefinite :=
            if ctx.isMainAxisRow then isStyleDimDefined child .column
            else isStyleDimDefined child .row
          let cwch : F × F :=
            if ctx.isMainAxisRow then
              (fadd (child.data.layout.measuredDimensions .width) (getMarginAxis child .row),
               crossDim)
            else
              (crossDim,
               fadd (child.data.layout.measuredDimensions .height)
                 (getMarginAxis child .column))
          if !isCrossSizeDefinite then
            let cwm : CSSMeasureMode :=
              if CSSValueIsUndefined cwch.1 then .undefined else .exactly
            let chm : CSSMeasureMode :=
              if CSSValueIsUndefined cwch.2 then .undefined else .exactly
            match recur child cwch.1 cwch.2 ctx.direction cwm chm true with
            | none => none
            | some (child', k1) => some (child', leadingPBCross, k1)
          else some (child, leadingPBCross, 0)
        else if alignItem ≠ .flexStart then
          let remainingCrossDim :=
            fsub containerCrossAxis (getDimWithMargin child ctx.crossAxis)
          if alignItem = .center then
            some (child, fadd leadingPBCross (fdiv remainingCrossDim (some 2)), 0)
          else some (child, fadd leadingPBCross remainingCrossDim, 0)
        else some (child, leadingPBCross, 0)
      match stretched with
      | none => none
      | some (child1, leadingCrossDim, k1) =>
        let child2 := child1.withData
          { child1.data with
            layout.position :=
              updEdge child1.data.layout.position (posEdge ctx.crossAxis)
                (fadd (child1.data.layout.position (posEdge ctx.crossAxis))
                  (fadd totalLineCrossDim leadingCrossDim)) }
        crossLoopGo recur ctx crossDim containerCrossAxis totalLineCrossDim leadingPBCross rest
          (cs.set i child2) (k + k1)

/-- STEPS 5-7 for one line (CSSLayout.c lines 1418-1839). -/
def processLine (recur : RecurFn) (ctx : ImplCtx) (line : FlexLine)
    (cs : List CSSNode) (totalLineCrossDim maxLineMainDim : F) :
    Option (List CSSNode × F × F × Nat) :=
  let mmMain := if ctx.isMainAxisRow then ctx.widthMeasureMode else ctx.heightMeasureMode
  let mmCross := if ctx.isMainAxisRow then ctx.heightMeasureMode else ctx.widthMeasureMode
  let canSkipFlex := !ctx.performLayout && mmCross = .exactly
  let rfs0 : F :=
    if !CSSValueIsUndefined ctx.availableInnerMainDim then
      fsub ctx.availableInnerMainDim line.sizeConsumed
    else if fLt line.sizeConsumed (some 0) then fneg line.sizeConsumed
    else some 0
  let originalRfs := rfs0
  let idxs := (List.range (line.stop - line.start)).map (· + line.start)
  let relIdx := idxs.filter fun i => (getCh cs i).data.style.positionType ≠ .absolute
  let flexResult : Option (List CSSNode × F × Nat) :=
    if !canSkipFlex then
      let d := flexPass1Go ctx cs rfs0 line.totalFlexShrinkScaledFactors
        line.totalFlexGrowFactors relIdx (some 0, some 0, some 0)
      let totalShrink := fadd line.totalFlexShrinkScaledFactors d.2.1
      let totalGrow := fadd line.totalFlexGrowFactors d.2.2
      let rfs1 := fadd rfs0 d.1
      flexPass2Go recur ctx rfs1 totalShrink totalGrow relIdx cs (some 0) 0
    else some (cs, some 0, 0)
  flexResult.bind fun fr =>
    let cs1 := fr.1
    let deltaFS := fr.2.1
    let k1 := fr.2.2
    let rfs2 := fadd originalRfs deltaFS
    let minMain := ctx.node.data.style.minDimensions (dimOf ctx.mainAxis)
    let rfs3 :=
      if mmMain = .atMost && fGt rfs2 (some 0) then
        if !CSSValueIsUndefined minMain && fGe minMain (some 0) then
          fmaxf (some 0) (fsub minMain (fsub ctx.availableInnerMainDim rfs2))
        else some 0
      else rfs2
    let leadBetween : F × F :=
      match ctx.node.data.style.justifyContent with
      | .center => (fdiv rfs3 (some 2), some 0)
      | .flexEnd => (rfs3, some 0)
      | .spaceBetween =>
        (some 0,
         if line.itemsOnLine > 1 then
           fdiv (fmaxf rfs3 (some 0)) (some ((line.itemsOnLine : ℚ) - 1))
         else some 0)
      | .spaceAround =>
        let b := fdiv rfs3 (some (line.itemsOnLine : ℚ))
        (fdiv b (some 2), b)
      | .flexStart => (some 0, some 0)
    let mainDim0 := fadd (getLeadingPaddingAndBorder ctx.node ctx.mainAxis) leadBetween.1
    let r6 := mainLoopGo ctx canSkipFlex leadBetween.2 idxs cs1 mainDim0 (some 0)
    let mainDim2 := fadd r6.2.1 (getTrailingPaddingAndBorder ctx.node ctx.mainAxis)
    let crossDim0 := r6.2.2
    let pbCross := getPaddingAndBorderAxis ctx.node ctx.crossAxis
    let containerCrossAxis :=
      if mmCross = .undefined || mmCross = .atMost then
        let c := fsub (boundAxis ctx.node ctx.crossAxis (fadd crossDim0 pbCross)) pbCross
        if mmCross = .atMost then fminf c ctx.availableInnerCrossDim else c
      else ctx.availableInnerCrossDim
    let crossDim1 :=
      if !(ctx.node.data.style.flexWrap = .wrap) && mmCross = .exactly then
        ctx.availableInnerCrossDim
      else crossDim0
    let crossDim2 := fsub (boundAxis ctx.node ctx.crossAxis (fadd crossDim1 pbCross)) pbCross
    let step7 : Option (List CSSNode × Nat) :=
      if ctx.performLayout then
        crossLoopGo recur ctx crossDim2 containerCrossAxis totalLineCrossDim
          (getLeadingPaddingAndBorder ctx.node ctx.crossAxis) idxs r6.1 0
      else some (r6.1, 0)
    step7.bind fun s7 =>
      some (s7.1, fadd totalLineCrossDim crossDim2, fmaxf maxLineMainDim mainDim2, k1 + s7.2)

/-- Fold `processLine` over the collected lines. -/
def processLinesGo (recur : RecurFn) (ctx : ImplCtx) :
    List FlexLine → List CSSNode → F → F → Nat → Option (List CSSNode × F × F × Nat)
  | [], cs, t, m, k => some (cs, t, m, k)
  | L :: rest, cs, t, m, k =>
    match processLine recur ctx L cs t m with
    | none => none
    | some (cs', t', m', k1) => processLinesGo recur ctx rest cs' t' m' (k + k1)

/-- STEP 8 line scan (CSSLayout.c lines 1871-1888): find the line's end
index and its height (max measured cross extent plus margin over the
in-flow children with the matching `lineIndex`); recursion is over the
number of remaining children. -/
def step8ScanGo (cs : List CSSNode) (crossAxis : CSSFlexDirection) (i : Nat) :
    Nat → Nat → F → Nat × F
  | ii, 0, acc => (ii, acc)
  | ii, rem + 1, acc =>
    let child := getCh cs ii
    if child.data.style.positionType = .relative then
      if child.data.lineIndex ≠ i then (ii, acc)
      else
        let acc' :=
          if isLayoutDimDefined child crossAxis then
            fmaxf acc
              (fadd (child.data.layout.measuredDimensions (dimOf crossAxis))
                (getMarginAxis child crossAxis))
          else acc
        step8ScanGo cs crossAxis i (ii + 1) rem acc'
    else step8ScanGo cs crossAxis i (ii + 1) rem acc

/-- STEP 8 per-child placement within a line's band (CSSLayout.c lines
1891-1926). -/
def step8ApplyGo (ctx : ImplCtx) (currentLead lineHeight : F) :
    List Nat → List CSSNode → List CSSNode
  | [], cs => cs
  | ii :: rest, cs =>
    let child := getCh cs ii
    let cs' :=
      if child.data.style.positionType = .relative then
        let v : Option F :=
          match getAlignItem ctx.node child with
          | .flexStart => some (fadd currentLead (getLeadingMargin child ctx.crossAxis))
          | .flexEnd =>
            some (fsub
              (fsub (fadd currentLead lineHeight) (getTrailingMargin child ctx.crossAxis))
              (child.data.layout.measuredDimensions (dimOf ctx.crossAxis)))
          | .center =>
            some (fadd currentLead
              (fdiv
                (fsub lineHeight (child.data.layout.measuredDimensions (dimOf ctx.crossAxis)))
                (some 2)))
          | .stretch => some (fadd currentLead (getLeadingMargin child ctx.crossAxis))
          | .auto => none
        match v with
        | some w =>
          cs.set ii (child.withData
            { child.data with
              layout.position := updEdge child.data.layout.position (posEdge ctx.crossAxis) w })
        | none => cs
      else cs
    step8ApplyGo ctx currentLead lineHeight rest cs'

/-- STEP 8 outer loop over lines (CSSLayout.c lines 1866-1929). -/
def step8LinesGo (ctx : ImplCtx) (childCount : Nat) (crossDimLead : F) :
    Nat → Nat → Nat → F → List CSSNode → List CSSNode
  | _, 0, _, _, cs => cs
  | startIndex, remLines + 1, i, currentLead, cs =>
    let scan := step8ScanGo cs ctx.crossAxis i startIndex (childCount - startIndex) (some 0)
    let lineHeight := fadd scan.2 crossDimLead
    let idxs := (List.range (scan.1 - startIndex)).map (· + startIndex)
    let cs' := step8ApplyGo ctx currentLead lineHeight idxs cs
    step8LinesGo ctx childCount crossDimLead scan.1 remLines (i + 1)
      (fadd currentLead lineHeight) cs'

/-- STEP 8 (CSSLayout.c lines 1842-1930): multi-line content alignment per
`alignContent`. -/
def step8 (ctx : ImplCtx) (lineCount : Nat) (totalLineCrossDim : F)
    (cs : List CSSNode) : List CSSNode :=
  let leadingPBCross := getLeadingPaddingAndBorder ctx.node ctx.crossAxis
  let remainingAlignContentDim := fsub ctx.availableInnerCrossDim totalLineCrossDim
  let leadPair : F × F :=
    match ctx.node.data.style.alignContent with
    | .flexEnd => (some 0, fadd leadingPBCross remainingAlignContentDim)
    | .center => (some 0, fadd leadingPBCross (fdiv remainingAlignContentDim (some 2)))
    | .stretch =>
      (if fGt ctx.availableInnerCrossDim totalLineCrossDim then
        fdiv remainingAlignContentDim (some (lineCount : ℚ))
      else some 0, leadingPBCross)
    | .auto => (some 0, leadingPBCross)
    | .flexStart => (some 0, leadingPBCross)
  step8LinesGo ctx cs.length leadPair.1 0 lineCount 0 leadPair.2 cs

/-- STEP 10 (CSSLayout.c lines 1966-1971): lay out the absolutely positioned
children, in document order. -/
def step10Go (recur : RecurFn) (node : CSSNode) (availInnerW : F)
    (wm : CSSMeasureMode) (direction : CSSDirection) :
    List Nat → List CSSNode → Nat → Option (List CSSNode × Nat)
  | [], cs, k => some (cs, k)
  | i :: rest, cs, k =>
    match absoluteLayoutChildF recur node (getCh cs i) availInnerW wm direction with
    | none => none
    | some (c', k1) =>
      step10Go recur node availInnerW wm direction rest (cs.set i c') (k + k1)

/-- STEP 11 (CSSLayout.c lines 1973-1992): trailing positions.  The source's
cross-axis predicate tests the *constant* `CSSFlexDirectionRowReverse`
(numeric value 3, hence truthy as a C condition) rather than `crossAxis`;
the translation preserves that as written. -/
def step11 (node : CSSNode) (mainAxis crossAxis : CSSFlexDirection)
    (cs : List CSSNode) : List CSSNode :=
  let needsMainTrailingPos :=
    mainAxis = CSSFlexDirection.rowReverse || mainAxis = CSSFlexDirection.columnReverse
  let needsCrossTrailingPos :=
    (CSSFlexDirection.rowReverse.numCode ≠ 0) || crossAxis = CSSFlexDirection.columnReverse
  if needsMainTrailingPos || needsCrossTrailingPos then
    cs.map fun child =>
      let c1 := if needsMainTrailingPos then setTrailingPosition node child mainAxis else child
      if needsCrossTrailingPos then setTrailingPosition node c1 crossAxis else c1
  else cs

/-- The kernel's general path, STEPS 1-11 (CSSLayout.c lines 1280-1993).
`node` already carries the resolved `layout.direction`. -/
def layoutNodeImplFull (recur : RecurFn) (node : CSSNode) (aw ah : F)
    (wm hm : CSSMeasureMode) (performLayout : Bool) (direction : CSSDirection)
    (marginAxisRow marginAxisColumn paddingAndBorderAxisRow paddingAndBorderAxisColumn : F) :
    Option (CSSNode × Nat) :=
  let mainAxis := resolveAxis node.data.style.flexDirection direction
  let crossAxis := getCrossFlexDirection mainAxis direction
  let isMainAxisRow := isRowDirection mainAxis
  let availableInnerWidth := fsub (fsub aw marginAxisRow) paddingAndBorderAxisRow
  let availableInnerHeight := fsub (fsub ah marginAxisColumn) paddingAndBorderAxisColumn
  let availableInnerMainDim :=
    if isMainAxisRow then availableInnerWidth else availableInnerHeight
  let availableInnerCrossDim :=
    if isMainAxisRow then availableInnerHeight else availableInnerWidth
  (step3Go recur node availableInnerWidth wm availableInnerHeight hm direction
      performLayout node.children).bind fun r0 =>
    let cs0 := r0.1
    let k0 := r0.2
    let lines :=
      collectLinesGo mainAxis availableInnerMainDim
        (node.data.style.flexWrap = .wrap) cs0 0 0 0 (some 0) (some 0) (some 0)
    let cs1 := applyLineIndex lines cs0
    let ctx : ImplCtx :=
      { node := node
        direction := direction
        mainAxis := mainAxis
        crossAxis := crossAxis
        isMainAxisRow := isMainAxisRow
        widthMeasureMode := wm
        heightMeasureMode := hm
        performLayout := performLayout
        availableInnerMainDim := availableInnerMainDim
        availableInnerCrossDim := availableInnerCrossDim }
    (processLinesGo recur ctx lines cs1 (some 0) (some 0) 0).bind fun rl =>
      let cs2 := rl.1
      let totalLineCrossDim := rl.2.1
      let maxLineMainDim := rl.2.2.1
      let k2 := rl.2.2.2
      let lineCount := lines.length
      let cs3 :=
        if lineCount > 1 && performLayout &&
            !CSSValueIsUndefined availableInnerCrossDim then
          step8 ctx lineCount totalLineCrossDim cs2
        else cs2
      let mmMain := if isMainAxisRow then wm else hm
      let mmCross := if isMainAxisRow then hm else wm
      let paddingAndBorderAxisMain := getPaddingAndBorderAxis node mainAxis
      let paddingAndBorderAxisCross := getPaddingAndBorderAxis node crossAxis
      let md0 :=
        updDim
          (updDim node.data.layout.measuredDimensions .width
            (boundAxis node .row (fsub aw marginAxisRow)))
          .height (boundAxis node .column (fsub ah marginAxisColumn))
      let md1 :=
        if mmMain = .undefined then
          updDim md0 (dimOf mainAxis) (boundAxis node mainAxis maxLineMainDim)
        else if mmMain = .atMost then
          updDim md0 (dimOf mainAxis)
            (fmaxf
              (fminf (fadd availableInnerMainDim paddingAndBorderAxisMain)
                (boundAxisWithinMinAndMax node mainAxis maxLineMainDim))
              paddingAndBorderAxisMain)
        else md0
      let md2 :=
        if mmCross = .undefined then
          updDim md1 (dimOf crossAxis)
            (boundAxis node crossAxis (fadd totalLineCrossDim paddingAndBorderAxisCross))
        else if mmCross = .atMost then
          updDim md1 (dimOf crossAxis)
            (fmaxf
              (fminf (fadd availableInnerCrossDim paddingAndBorderAxisCross)
                (boundAxisWithinMinAndMax node crossAxis
                  (fadd totalLineCrossDim paddingAndBorderAxisCross)))
              paddingAndBorderAxisCross)
        else md1
      let node9 := node.withData { node.data with layout.measuredDimensions := md2 }
      let absIdx :=
        (cs3.enum.filter fun p => p.2.data.style.positionType = .absolute).map (·.1)
      let step10res :=
        if performLayout then
          step10Go recur node9 availableInnerWidth wm direction absIdx cs3 0
        else some (cs3, 0)
      step10res.bind fun r10 =>
        let cs5 := if performLayout then step11 node9 mainAxis crossAxis r10.1 else r10.1
        some (node9.withChildren cs5, k0 + k2 + r10.2)

/-- `layoutNodeImpl` (CSSLayout.c line 1144): resolve and store the
direction, then dispatch to the measure-function branch, the childless
branch, the measure-only shortcuts, or the general path.  The returned
count is the number of kernel-body executions (this one plus all recursive
ones). -/
def layoutNodeImplF (recur : RecurFn) (node0 : CSSNode) (aw ah : F)
    (pd : CSSDirection) (wm hm : CSSMeasureMode) (performLayout : Bool) :
    Option (CSSNode × Nat) :=
  let paddingAndBorderAxisRow := getPaddingAndBorderAxis node0 .row
  let paddingAndBorderAxisColumn := getPaddingAndBorderAxis node0 .column
  let marginAxisRow := getMarginAxis node0 .row
  let marginAxisColumn := getMarginAxis node0 .column
  let direction := resolveDirection node0 pd
  let node := node0.withData { node0.data with layout.direction := direction }
  match node.data.measure with
  | some f =>
    if node.children.length = 0 then
      let innerWidth := fsub (fsub aw marginAxisRow) paddingAndBorderAxisRow
      let innerHeight := fsub (fsub ah marginAxisColumn) paddingAndBorderAxisColumn
      if wm = .exactly && hm = .exactly then
        some (setMeasuredDims node (boundAxis node .row (fsub aw marginAxisRow))
          (boundAxis node .column (fsub ah marginAxisColumn)), 1)
      else if fLe innerWidth (some 0) || fLe innerHeight (some 0) then
        some (setMeasuredDims node (boundAxis node .row (some 0))
          (boundAxis node .column (some 0)), 1)
      else
        let measuredSize := f innerWidth wm innerHeight hm
        some (setMeasuredDims node
          (boundAxis node .row
            (if wm = .undefined || wm = .atMost then
              fadd measuredSize.1 paddingAndBorderAxisRow
            else fsub aw marginAxisRow))
          (boundAxis node .column
            (if hm = .undefined || hm = .atMost then
              fadd measuredSize.2 paddingAndBorderAxisColumn
            else fsub ah marginAxisColumn)), 1)
    else
      (layoutNodeImplFull recur node aw ah wm hm performLayout direction
          marginAxisRow marginAxisColumn paddingAndBorderAxisRow
          paddingAndBorderAxisColumn).map fun r => (r.1, r.2 + 1)
  | none =>
    if node.children.length = 0 then
      some (setMeasuredDims node
        (boundAxis node .row
          (if wm = .undefined || wm = .atMost then paddingAndBorderAxisRow
           else fsub aw marginAxisRow))
        (boundAxis node .column
          (if hm = .undefined || hm = .atMost then paddingAndBorderAxisColumn
           else fsub ah marginAxisColumn)), 1)
    else if !performLayout && wm = .atMost && fLe aw (some 0) &&
        hm = .atMost && fLe ah (some 0) then
      some (setMeasuredDims node (boundAxis node .row (some 0))
        (boundAxis node .column (some 0)), 1)
    else if !performLayout && wm = .atMost && fLe aw (some 0) then
      some (setMeasuredDims node (boundAxis node .row (some 0))
        (boundAxis node .column
          (if CSSValueIsUndefined ah then some 0 else fsub ah marginAxisColumn)), 1)
    else if !performLayout && hm = .atMost && fLe ah (some 0) then
      some (setMeasuredDims node
        (boundAxis node .row
          (if CSSValueIsUndefined aw then some 0 else fsub aw marginAxisRow))
        (boundAxis node .column (some 0)), 1)
    else if !performLayout && wm = .exactly && hm = .exactly then
      some (setMeasuredDims node (boundAxis node .row (fsub aw marginAxisRow))
        (boundAxis node .column (fsub ah marginAxisColumn)), 1)
    else
      (layoutNodeImplFull recur node aw ah wm hm performLayout direction
          marginAxisRow marginAxisColumn paddingAndBorderAxisRow
          paddingAndBorderAxisColumn).map fun r => (r.1, r.2 + 1)

/-- The cache-hit adoption phase of `layoutNodeInternal` (CSSLayout.c lines
2206-2259): copy the cached measured dimensions, on a full-layout call also
publish them as the layout dimensions and clear the dirty flag, and record
the visit's generation. -/
def hitAdopt (node1 : CSSNode) (e : CSSCachedMeasurement) (pl : Bool) (gen : Nat) :
    CSSNode :=
  let node2 := node1.withData
    { node1.data with
      layout.measuredDimensions :=
        updDim (updDim node1.data.layout.measuredDimensions .width e.computedWidth)
          .height e.computedHeight }
  let node3 :=
    if pl then
      node2.withData
        { node2.data with
          layout.dimensions :=
            updDim (updDim node2.data.layout.dimensions .width
                (node2.data.layout.measuredDimensions .width))
              .height (node2.data.layout.measuredDimensions .height)
          hasNewLayout := true
          isDirty := false }
    else node2
  node3.withData { node3.data with layout.generationCount := gen }

/-- The post-kernel phase of `layoutNodeInternal` (CSSLayout.c lines
2206-2299): record the parent direction, store a cache entry when the lookup
missed, on a full-layout call publish the measured dimensions and clear the
dirty flag, and record the visit's generation. -/
def postImpl (nodeI : CSSNode) (storeIt : Bool) (aw ah : F)
    (wm hm : CSSMeasureMode) (pl : Bool) (pd : CSSDirection) (gen : Nat) : CSSNode :=
  let nodeI1 := nodeI.withData
    { nodeI.data with layout.lastParentDirection := some pd }
  let nodeI2 :=
    if storeIt then
      nodeI1.withData
        { nodeI1.data with
          layout := storeCacheEntry nodeI1.data.layout aw ah wm hm pl }
    else nodeI1
  let nodeI3 :=
    if pl then
      nodeI2.withData
        { nodeI2.data with
          layout.dimensions :=
            updDim (updDim nodeI2.data.layout.dimensions .width
                (nodeI2.data.layout.measuredDimensions .width))
              .height (nodeI2.data.layout.measuredDimensions .height)
          hasNewLayout := true
          isDirty := false }
    else nodeI2
  nodeI3.withData { nodeI3.data with layout.generationCount := gen }

/-- The combined recursion of `layoutNodeInternal` (`isInternalCall = true`)
and `layoutNodeImpl` (`isInternalCall = false`), structurally recursive on
explicit fuel; every nested call burns one unit.  The result is the updated
node, `layoutNodeInternal`'s boolean return value (true iff layout was
performed), and the number of kernel-body executions. -/
def layoutGo : Nat → Bool → CSSNode → F → F → CSSDirection → CSSMeasureMode →
    CSSMeasureMode → Bool → Nat → Option (CSSNode × Bool × Nat)
  | 0, _, _, _, _, _, _, _, _, _ => none
  | fuel + 1, isInternalCall, node, aw, ah, pd, wm, hm, pl, gen =>
    if isInternalCall then
      let nv := needToVisitNode node pd gen
      let node1 := wrapperEntry node pd gen
      let cachedResults := findCachedResult node1 aw ah wm hm pl
      match cachedResults, nv with
      | some e, false => some (hitAdopt node1 e pl gen, false, 0)
      | cr, _ =>
        match layoutGo fuel false node1 aw ah pd wm hm pl gen with
        | none => none
        | some (nodeI, _, k) =>
          some (postImpl nodeI cr.isNone aw ah wm hm pl pd gen, true, k)
    else
      match layoutNodeImplF
          (fun c caw cah cpd cwm chm cpl =>
            (layoutGo fuel true c caw cah cpd cwm chm cpl gen).map fun r => (r.1, r.2.2))
          node aw ah pd wm hm pl with
      | none => none
      | some (n, k) => some (n, true, k)

/-- `layoutNodeInternal` (CSSLayout.c line 2120) at a given fuel. -/
def layoutNodeInternalF (fuel : Nat) (node : CSSNode) (aw ah : F)
    (pd : CSSDirection) (wm hm : CSSMeasureMode) (pl : Bool) (gen : Nat) :
    Option (CSSNode × Bool × Nat) :=
  layoutGo fuel true node aw ah pd wm hm pl gen

/-- `CSSNodeCalculateLayout` (CSSLayout.c line 2301): bump the generation,
seed the root measure modes from the provided sizes, the root style
dimensions, or the max dimensions, run the cache-guarded kernel with
`performLayout = true`, and on an actual run set the root's own position.
Returns the updated tree, the new generation count, and the number of
kernel-body executions. -/
def CSSNodeCalculateLayout (fuel : Nat) (node : CSSNode) (gen : Nat)
    (availableWidth availableHeight : F) (parentDirection : CSSDirection) :
    Option (CSSNode × Nat × Nat) :=
  let gen1 := gen + 1
  let widthSeed : F × CSSMeasureMode :=
    if !CSSValueIsUndefined availableWidth then (availableWidth, .exactly)
    else if isStyleDimDefined node .row then
      (fadd (node.data.style.dimensions (dimOf .row)) (getMarginAxis node .row), .exactly)
    else if fGe (node.data.style.maxDimensions .width) (some 0) then
      (node.data.style.maxDimensions .width, .atMost)
    else (availableWidth, .undefined)
  let heightSeed : F × CSSMeasureMode :=
    if !CSSValueIsUndefined availableHeight then (availableHeight, .exactly)
    else if isStyleDimDefined node .column then
      (fadd (node.data.style.dimensions (dimOf .column)) (getMarginAxis node .column),
       .exactly)
    else if fGe (node.data.style.maxDimensions .height) (some 0) then
      (node.data.style.maxDimensions .height, .atMost)
    else (availableHeight, .undefined)
  (layoutNodeInternalF fuel node widthSeed.1 heightSeed.1 parentDirection
      widthSeed.2 heightSeed.2 true gen1).map fun r =>
    ((if r.2.1 then setPosition r.1 r.1.data.layout.direction else r.1), gen1, r.2.2)

/-! ## Remaining public mutation API -/

/-- `CSSNodeInsertChild` (CSSLayout.c line 222): insert a parentless tree as
a child of the node at `path` (the `CSS_ASSERT` that the child has no
parent is the precondition that `child` is a standalone tree) and mark the
receiving node dirty.  The index insertion is the `CSSNodeList` container,
modelled from the spec as an ordered sequence. -/
def CSSNodeInsertChild (root : CSSNode) (path : List Nat) (child : CSSNode)
    (index : Nat) : CSSNode :=
  markDirtyAt
    (root.modifyAt path fun n => n.withChildren (n.children.insertIdx index child))
    path

/-- `CSSNodeRemoveChild` (CSSLayout.c line 229): delete the given child (by
identity, hence by index) and mark the node dirty; the detached child is a
standalone tree again. -/
def CSSNodeRemoveChild (root : CSSNode) (path : List Nat) (index : Nat) : CSSNode :=
  markDirtyAt
    (root.modifyAt path fun n => n.withChildren (n.children.eraseIdx index))
    path

/-- `CSSNodeMarkDirty` (CSSLayout.c line 243); its `CSS_ASSERT` (only
measure-function leaves or internal nodes) is a precondition on uses. -/
def CSSNodeMarkDirty (root : CSSNode) (path : List Nat) : CSSNode :=
  markDirtyAt root path

/-- `CSSNodeSetMeasureFunc` (a plain `CSS_NODE_PROPERTY_IMPL` accessor: no
dirty marking). -/
def CSSNodeSetMeasureFunc (root : CSSNode) (path : List Nat)
    (fn : Option MeasureFn) : CSSNode :=
  root.modifyAt path fun n => n.withData { n.data with measure := fn }

/-- `CSSNodeSetIsTextnode` (plain accessor: no dirty marking). -/
def CSSNodeSetIsTextnode (root : CSSNode) (path : List Nat) (b : Bool) : CSSNode :=
  root.modifyAt path fun n => n.withData { n.data with isTextNode := b }

/-- `CSSNodeSetHasNewLayout` (plain accessor: no dirty marking). -/
def CSSNodeSetHasNewLayout (root : CSSNode) (path : List Nat) (b : Bool) : CSSNode :=
  root.modifyAt path fun n => n.withData { n.data with hasNewLayout := b }

/-! ## Concrete scenarios used by the claims -/

/-- A 50×20 fixed-size child (style width 50, height 20, otherwise default:
relative position, no flex factors). -/
def child50x20 : CSSNode :=
  CSSNode.mk
    { CSSNodeNew.data with
      style := { initStyle with
        dimensions := fun d => match d with | .width => some 50 | .height => some 20 } }
    []

/-- A 300×100 Row container with `justifyContent = SpaceBetween` and three
50×20 children (spec §8 scenario 2). -/
def rootC7 : CSSNode :=
  CSSNode.mk
    { CSSNodeNew.data with
      style := { initStyle with
        flexDirection := .row
        justifyContent := .spaceBetween
        dimensions := fun d => match d with | .width => some 300 | .height => some 100 } }
    [child50x20, child50x20, child50x20]

/-- The full `Calculate` on the SpaceBetween scenario (the root style sizes
seed the `Exactly` measure modes). -/
def c7Result : Option (CSSNode × Nat × Nat) :=
  CSSNodeCalculateLayout 10 rootC7 0 none none .ltr

/-- A 300×100 Column container (default flex direction) with a single 50×20
child: no axis is a reverse direction under LTR. -/
def rootC1 : CSSNode :=
  CSSNode.mk
    { CSSNodeNew.data with
      style := { initStyle with
        dimensions := fun d => match d with | .width => some 300 | .height => some 100 } }
    [child50x20]

/-- The full `Calculate` on the Column scenario. -/
def c1Result : Option (CSSNode × Nat × Nat) :=
  CSSNodeCalculateLayout 10 rootC1 0 none none .ltr

/-- A leaf with a measure function (the callback is never invoked in the
scenarios below, which all seed `Exactly` modes on both axes). -/
def measureLeaf : CSSNode :=
  CSSNode.mk
    { CSSNodeNew.data with measure := some fun _ _ _ _ => (some 0, some 0) }
    []

/-- 99.99995, within the 1e-4 tolerance of 100. -/
def q99 : ℚ := mkRat 1999999 20000

/-- 49.99995, within the 1e-4 tolerance of 50. -/
def q49 : ℚ := mkRat 999999 20000

/-- C3 scenario, first `Calculate`: a measure leaf laid out at
99.99995 × 49.99995, then marked dirty by the host (legal on a
measure-function leaf). -/
def c3Tree1d : CSSNode :=
  CSSNodeMarkDirty
    (((CSSNodeCalculateLayout 2 measureLeaf 0 (some q99) (some q49) .ltr).map (·.1)).getD
      CSSNodeNew)
    []

/-- The state `c3Tree1d` written out directly (the theorem
`c3_second_calculate_output_differs` checks field-by-field that the first
`Calculate` plus `MarkDirty` produce exactly this state); starting the
remaining two `Calculate` calls from it keeps every proof obligation within
the elaborator's reduction depth. -/
def c3Pre : CSSNode :=
  CSSNode.mk
    { CSSNodeNew.data with
      measure := some fun _ _ _ _ => (some 0, some 0)
      isDirty := true
      layout :=
        { initLayout with
          generationCount := 1
          lastParentDirection := some .ltr
          direction := .ltr
          computedFlexBasis := none
          measuredDimensions := fun d => match d with
            | .width => some q99 | .height => some q49
          dimensions := fun d => match d with
            | .width => some q99 | .height => some q49
          cachedLayout :=
            { availableWidth := some q99
              availableHeight := some q49
              widthMeasureMode := some .exactly
              heightMeasureMode := some .exactly
              computedWidth := some q99
              computedHeight := some q49 } } }
    []

/-- C3 scenario, second `Calculate`, now at 100 × 50: the tolerance-stale
layout cache entry matches while the dirty node is re-run, and the cache is
not updated. -/
def c3Run2 : Option (CSSNode × Nat × Nat) :=
  CSSNodeCalculateLayout 2 c3Pre 1 (some 100) (some 50) .ltr

/-- The tree after the second `Calculate`. -/
def c3Tree2 : CSSNode := (c3Run2.map (·.1)).getD CSSNodeNew

/-- The state `c3Tree2` written out directly (again checked field-by-field
in the theorem): the kernel re-ran and wrote 100 × 50, the node is clean in
generation 2, and the stale invalidated cache entry
(modes cleared, computed size 99.99995 × 49.99995) was left in place. -/
def c3Mid : CSSNode :=
  CSSNode.mk
    { CSSNodeNew.data with
      measure := some fun _ _ _ _ => (some 0, some 0)
      isDirty := false
      layout :=
        { initLayout with
          generationCount := 2
          lastParentDirection := some .ltr
          direction := .ltr
          computedFlexBasis := none
          measuredDimensions := fun d => match d with
            | .width => some 100 | .height => some 50
          dimensions := fun d => match d with
            | .width => some 100 | .height => some 50
          cachedLayout :=
            { availableWidth := some q99
              availableHeight := some q49
              widthMeasureMode := none
              heightMeasureMode := none
              computedWidth := some q99
              computedHeight := some q49 } } }
    []

/-- C3 scenario, third `Calculate` with inputs identical to the second and
no intervening mutation. -/
def c3Run3 : Option (CSSNode × Nat × Nat) :=
  CSSNodeCalculateLayout 2 c3Mid 2 (some 100) (some 50) .ltr

/-- C8 scenario: measure leaf laid out at 100 × 50, padding then raised to
60 on all edges via `CSSNodeStyleSetPadding(node, CSSEdgeAll, 60)`. -/
def c8Tree1p : CSSNode :=
  styleSetFloat (paddingField .all)
    (((CSSNodeCalculateLayout 2 measureLeaf 0 (some 100) (some 50) .ltr).map (·.1)).getD
      CSSNodeNew)
    [] (some 60)

/-- The state `c8Tree1p` written out directly (checked field-by-field in
`c8_dimension_below_padding_border_after_stale_hit`). -/
def c8Pre : CSSNode :=
  CSSNode.mk
    { CSSNodeNew.data with
      measure := some fun _ _ _ _ => (some 0, some 0)
      isDirty := true
      style := { initStyle with padding := updEdge (fun _ => none) .all (some 60) }
      layout :=
        { initLayout with
          generationCount := 1
          lastParentDirection := some .ltr
          direction := .ltr
          computedFlexBasis := none
          measuredDimensions := fun d => match d with
            | .width => some 100 | .height => some 50
          dimensions := fun d => match d with
            | .width => some 100 | .height => some 50
          cachedLayout :=
            { availableWidth := some 100
              availableHeight := some 50
              widthMeasureMode := some .exactly
              heightMeasureMode := some .exactly
              computedWidth := some 100
              computedHeight := some 50 } } }
    []

/-- C8 scenario: the next `Calculate` re-runs the kernel (dirty) but finds a
tolerance-valid stale cache entry, so the fresh result is not stored. -/
def c8Tree2 : CSSNode :=
  ((CSSNodeCalculateLayout 2 c8Pre 1 (some 100) (some 50) .ltr).map (·.1)).getD
    CSSNodeNew

/-- The state `c8Tree2` written out directly (checked field-by-field in the
theorem): the kernel re-ran under the new padding and wrote 120 × 120, the
node is clean in generation 2, and the stale invalidated cache entry
(modes cleared, computed size 100 × 50 from the padding-0 era) was left in
place. -/
def c8Mid : CSSNode :=
  CSSNode.mk
    { CSSNodeNew.data with
      measure := some fun _ _ _ _ => (some 0, some 0)
      isDirty := false
      style := { initStyle with padding := updEdge (fun _ => none) .all (some 60) }
      layout :=
        { initLayout with
          generationCount := 2
          lastParentDirection := some .ltr
          direction := .ltr
          computedFlexBasis := none
          measuredDimensions := fun d => match d with
            | .width => some 120 | .height => some 120
          dimensions := fun d => match d with
            | .width => some 120 | .height => some 120
          cachedLayout :=
            { availableWidth := some 100
              availableHeight := some 50
              widthMeasureMode := none
              heightMeasureMode := none
              computedWidth := some 100
              computedHeight := some 50 } } }
    []

/-- C8 scenario: the final `Calculate` revalidates from the stale entry. -/
def c8Tree3 : CSSNode :=
  ((CSSNodeCalculateLayout 2 c8Mid 2 (some 100) (some 50) .ltr).map (·.1)).getD
    CSSNodeNew

/-- C9 scenario: a cached entry measured under an unrestricted height
(`Undefined`) with computed size 90 × 40. -/
def c9Entry : CSSCachedMeasurement :=
  { availableWidth := some 100
    availableHeight := some 50
    widthMeasureMode := some .atMost
    heightMeasureMode := some .undefined
    computedWidth := some 90
    computedHeight := some 40 }

/-- C9 scenario: a clean text-node measure leaf carrying that entry as its
layout cache. -/
def c9Node : CSSNode :=
  CSSNode.mk
    { CSSNodeNew.data with
      measure := some fun _ _ _ _ => (some 0, some 0)
      isTextNode := true
      layout := { initLayout with cachedLayout := c9Entry, lastParentDirection := some .ltr } }
    []

/-- C9 scenario: the wrapper called with the same width but a tighter
`AtMost` height restriction (30 < cached computed height 40). -/
def c9Run : Option (CSSNode × Bool × Nat) :=
  layoutNodeInternalF 3 c9Node (some 100) (some 30) .ltr .atMost .atMost false 0

/-- C2 scenario: a dirty measure leaf. -/
def c2Node0 : CSSNode :=
  CSSNodeMarkDirty
    (CSSNode.mk
      { CSSNodeNew.data with measure := some fun _ _ _ _ => (some 10, some 12) } [])
    []

/-- C2 scenario, first wrapper call (measure-only, generation 5): the dirty
node is visited, measured, and a ring entry is recorded; the node stays
dirty but now carries `generationCount = 5`. -/
def c2Node1 : CSSNode :=
  ((layoutNodeInternalF 3 c2Node0 (some 80) (some 80) .ltr .atMost .atMost false 5).map
    (·.1)).getD CSSNodeNew

/-- C2 scenario, second wrapper call in the same generation, now a
full-layout call: the node is still dirty on entry. -/
def c2Run2 : Option (CSSNode × Bool × Nat) :=
  layoutNodeInternalF 3 c2Node1 (some 80) (some 80) .ltr .atMost .atMost true 5

/-! ## Claim-side formulations (written from the claims' words) -/

/-- The C10 claim's mapping of the `flex` shorthand onto
`(flexGrow, flexShrink, flexBasis)`. -/
def flexShorthandClaim (f : F) : F × F × F :=
  match f with
  | none => (some 0, some 0, none)
  | some q =>
    if q = 0 then (some 0, some 0, none)
    else if 0 < q then (some q, some 0, some 0)
    else (some 0, some (-q), none)

/-- A float is strictly positive (the C comparison `v > 0`; false for NaN). -/
def floatPos : F → Bool
  | some q => 0 < q
  | none => false

/-- The C10 claim's description of `CSSNodeStyleGetFlex`. -/
def flexGetterClaim (grow shrink : F) : F :=
  if floatPos grow then grow
  else if floatPos shrink then fneg shrink
  else some 0

/-- The spec's Value equality (§3): both undefined, or within 1e-4. -/
def valueEqSpec (a b : F) : Prop :=
  (a = none ∧ b = none) ∨ ∃ x y, a = some x ∧ b = some y ∧ |x - y| < 1 / 10000

/-- The C6 claim's per-axis "valid" condition on a prior cache entry:
prior mode `Undefined`, new mode `AtMost`, and prior computed size ≤ new
available minus margin; or new mode `Exactly` and prior computed size
tolerance-equal to new available minus margin. -/
def claimAxisValid (priorMode : Option CSSMeasureMode) (priorComputed : F)
    (newMode : CSSMeasureMode) (newAvailable marginOnAxis : F) : Prop :=
  (priorMode = some .undefined ∧ newMode = .atMost ∧
    ∃ c r, priorComputed = some c ∧ fsub newAvailable marginOnAxis = some r ∧ c ≤ r) ∨
  (newMode = .exactly ∧ valueEqSpec priorComputed (fsub newAvailable marginOnAxis))

/-- The amended C2 invalidation condition: the node is dirty *and* its
generation count differs from the current generation, or its stored last
parent direction differs from the call's parent direction. -/
def claimInvalidateCond (n : CSSNode) (pd : CSSDirection) (g : Nat) : Prop :=
  (n.data.isDirty = true ∧ n.data.layout.generationCount ≠ g) ∨
  n.data.layout.lastParentDirection ≠ some pd

/-- Witness scenario for the amended C3 theorem: a fresh measure leaf laid
out once through the wrapper (full layout, `Exactly` 100 × 50,
generation 1); the fresh node's cache is empty, so the lookup misses and
the result is stored. -/
def c3wRun1 : Option (CSSNode × Bool × Nat) :=
  layoutNodeInternalF 2 measureLeaf (some 100) (some 50) .ltr .exactly .exactly true 1

/-- The tree after that first wrapper call. -/
def c3wTree1 : CSSNode := (c3wRun1.map (·.1)).getD CSSNodeNew

/-! ## Tree-wide dirty-flag predicates and reachable states (C5) -/

mutual
/-- Some node of the subtree is dirty. -/
def subtreeDirty : CSSNode → Bool
  | .mk d cs => d.isDirty || subtreeDirtyL cs

/-- Some node of one of the subtrees is dirty. -/
def subtreeDirtyL : List CSSNode → Bool
  | [] => false
  | c :: cs => subtreeDirty c || subtreeDirtyL cs
end

mutual
/-- The C5 property: every node with a dirty descendant is itself dirty. -/
def upClosed : CSSNode → Bool
  | .mk d cs => (!subtreeDirtyL cs || d.isDirty) && upClosedL cs

def upClosedL : List CSSNode → Bool
  | [] => true
  | c :: cs => upClosed c && upClosedL cs
end

mutual
/-- Cache invariant threaded through one layout generation `g`: a dirty
node already stamped with `g` carries an invalidated layout cache entry
(no stored width measure mode), so a full-layout exact-key lookup on it
cannot hit. -/
def genOK (g : Nat) : CSSNode → Bool
  | .mk d cs =>
    (!d.isDirty || decide (d.layout.generationCount ≠ g) ||
      d.layout.cachedLayout.widthMeasureMode.isNone) && genOKL g cs

def genOKL (g : Nat) : List CSSNode → Bool
  | [] => true
  | c :: cs => genOK g c && genOKL g cs
end

mutual
/-- Every generation stamp in the subtree is at most `g` (the global
generation counter bounds every node's stamp). -/
def genLe (g : Nat) : CSSNode → Bool
  | .mk d cs => decide (d.layout.generationCount ≤ g) && genLeL g cs

def genLeL (g : Nat) : List CSSNode → Bool
  | [] => true
  | c :: cs => genLe g c && genLeL g cs
end

mutual
/-- Node-for-node structural agreement that layout leaves invariant:
child count, style, measure function and text-node flag. -/
def layPres : CSSNode → CSSNode → Prop
  | .mk d cs, .mk d' cs' =>
    d'.style = d.style ∧ d'.measure = d.measure ∧ d'.isTextNode = d.isTextNode ∧
    layPresL cs cs'

def layPresL : List CSSNode → List CSSNode → Prop
  | [], [] => True
  | _ :: _, [] => False
  | [], _ :: _ => False
  | c :: cs, c' :: cs' => layPres c c' ∧ layPresL cs cs'
end

mutual
/-- Pointwise equality of dirty flags (measure-only layout calls change no
dirty flag anywhere in the tree). -/
def dirtyEq : CSSNode → CSSNode → Prop
  | .mk d cs, .mk d' cs' => d'.isDirty = d.isDirty ∧ dirtyEqL cs cs'

def dirtyEqL : List CSSNode → List CSSNode → Prop
  | [], [] => True
  | _ :: _, [] => False
  | [], _ :: _ => False
  | c :: cs, c' :: cs' => dirtyEq c c' ∧ dirtyEqL cs cs'
end

/-- Everything the purely cosmetic layout writes (positions, dimensions,
line index, new-layout flag, resolved direction, flex basis) may change,
while the fields the C5 invariants observe stay fixed. -/
def topCosmetic (a b : CSSNode) : Prop :=
  b.children = a.children ∧ b.data.isDirty = a.data.isDirty ∧
  b.data.style = a.data.style ∧ b.data.measure = a.data.measure ∧
  b.data.isTextNode = a.data.isTextNode ∧
  b.data.layout.generationCount = a.data.layout.generationCount ∧
  b.data.layout.cachedLayout = a.data.layout.cachedLayout ∧
  b.data.layout.cachedMeasurements = a.data.layout.cachedMeasurements

/-- What one layout visit guarantees about its result node, relative to the
input node, at generation `g`: structure preserved, invariants maintained, a
measure-only visit changes no dirty flag, a full-layout visit leaves the
whole subtree clean, and generation stamps stay bounded. -/
def resultInv (g : Nat) (pl : Bool) (c r : CSSNode) : Prop :=
  layPres c r ∧ upClosed r = true ∧ genOK g r = true ∧
  (pl = false → dirtyEq c r) ∧
  (pl = true → subtreeDirty r = false) ∧
  (∀ G, g ≤ G → genLe G c = true → genLe G r = true)

/-- The list-level part of `resultInv` shared by the kernel's child loops:
structure preserved, invariants maintained, stamps bounded, and no loop ever
dirties a clean child subtree. -/
def resultInvL (g : Nat) (cs rs : List CSSNode) : Prop :=
  layPresL cs rs ∧ upClosedL rs = true ∧ genOKL g rs = true ∧
  (∀ G, g ≤ G → genLeL G cs = true → genLeL G rs = true) ∧
  (∀ i, subtreeDirty (getCh cs i) = false → subtreeDirty (getCh rs i) = false)

/-- The `requiresStretchLayout` test of CSSLayout.c line 1617. -/
def requiresStretchOf (ctx : ImplCtx) (child : CSSNode) : Bool :=
  !isStyleDimDefined child ctx.crossAxis && getAlignItem ctx.node child = .stretch

/-- The behaviour of the recursive layout hook that the kernel-loop lemmas
rely on, at generation `g` (matched by `layoutGo` at every fuel). -/
def RecurSpec (g : Nat) (recur : RecurFn) : Prop :=
  ∀ c aw ah pd wm hm pl r, recur c aw ah pd wm hm pl = some r →
    upClosed c = true → genOK g c = true → resultInv g pl c r.1

/-- The flex lines' index ranges tile the interval `[a, b)` consecutively. -/
def linesCover : List FlexLine → Nat → Nat → Prop
  | [], a, b => a = b
  | L :: rest, a, b => L.start = a ∧ linesCover rest L.stop b

/-- States reachable through the public API from fresh nodes, paired with
an upper bound on the global generation counter (`gCurrentGenerationCount`
is shared between trees, so a tree built alongside others may observe the
counter advancing: the `bump` constructor).  The C-side `CSS_ASSERT`
preconditions on `MarkDirty` and `InsertChild` are dropped, making the
relation a superset of the states the C API admits. -/
inductive Reachable : CSSNode → Nat → Prop where
  | new : Reachable CSSNodeNew 0
  | bump {n g} : Reachable n g → Reachable n (g + 1)
  | setFloat {n g} (fld : FloatField) (p : List Nat) (v : F) :
      Reachable n g → Reachable (styleSetFloat fld n p v) g
  | setEnum {n g} {α : Type} [DecidableEq α] (fld : EnumField α) (p : List Nat)
      (v : α) : Reachable n g → Reachable (styleSetEnum fld n p v) g
  | setFlex {n g} (p : List Nat) (v : F) :
      Reachable n g → Reachable (CSSNodeStyleSetFlex n p v) g
  | markDirty {n g} (p : List Nat) :
      Reachable n g → Reachable (CSSNodeMarkDirty n p) g
  | insertChild {n c g} (p : List Nat) (i : Nat) :
      Reachable n g → Reachable c g → Reachable (CSSNodeInsertChild n p c i) g
  | removeChild {n g} (p : List Nat) (i : Nat) :
      Reachable n g → Reachable (CSSNodeRemoveChild n p i) g
  | setMeasure {n g} (p : List Nat) (f : Option MeasureFn) :
      Reachable n g → Reachable (CSSNodeSetMeasureFunc n p f) g
  | setTextnode {n g} (p : List Nat) (b : Bool) :
      Reachable n g → Reachable (CSSNodeSetIsTextnode n p b) g
  | setHasNewLayout {n g} (p : List Nat) (b : Bool) :
      Reachable n g → Reachable (CSSNodeSetHasNewLayout n p b) g
  | calculate {n g fuel aw ah pd n' g' k} :
      Reachable n g →
      CSSNodeCalculateLayout fuel n g aw ah pd = some (n', g', k) →
      Reachable n' g'

/-- Post-condition of one `layoutNodeImpl` body run: layout-irrelevant
fields preserved, invariants re-established for generation `g`. -/
def implPost (g : Nat) (pl : Bool) (n r : CSSNode) : Prop :=
  layPres n r ∧ upClosed r = true ∧ genOK g r = true ∧
  (pl = false → dirtyEq n r) ∧
  (pl = true → subtreeDirtyL r.children = false) ∧
  (∀ G, g ≤ G → genLe G n = true → genLe G r = true) ∧
  r.data.isDirty = n.data.isDirty ∧
  r.data.layout.generationCount = n.data.layout.generationCount ∧
  r.data.layout.cachedLayout = n.data.layout.cachedLayout ∧
  r.data.layout.cachedMeasurements = n.data.layout.cachedMeasurements

/-! # Theorems -/

/-! Bridges from the kernel-friendly equality checkers to propositional
equality. -/

theorem ratEqB_eq {a b : ℚ} (h : ratEqB a b = true) : a = b := by
  unfold ratEqB at h
  simp only [Bool.and_eq_true, beq_iff_eq] at h
  exact Rat.ext h.1 h.2

theorem fEqB_eq : ∀ {a b : F}, fEqB a b = true → a = b
  | none, none, _ => rfl
  | some _, some _, h => congrArg some (ratEqB_eq (by simpa [fEqB] using h))
  | none, some _, h => by simp [fEqB] at h
  | some _, none, h => by simp [fEqB] at h

theorem cmEqB_eq {x y : CSSCachedMeasurement} (h : cmEqB x y = true) : x = y := by
  unfold cmEqB at h
  simp only [Bool.and_eq_true, decide_eq_true_eq] at h
  obtain ⟨⟨⟨⟨⟨h1, h2⟩, h3⟩, h4⟩, h5⟩, h6⟩ := h
  cases x
  cases y
  simp only [CSSCachedMeasurement.mk.injEq]
  exact ⟨fEqB_eq h1, fEqB_eq h2, h3, h4, fEqB_eq h5, fEqB_eq h6⟩

theorem optF_eq {o : Option F} {v : F} (h : fEqB (o.getD none) v = true)
    (hv : v.isSome = true) : o = some v := by
  cases o with
  | none =>
    cases v with
    | none => cases hv
    | some _ => exact absurd (fEqB_eq h) (by simp)
  | some x => exact congrArg some (fEqB_eq h)

/-- C7: for a Row root with `justifyContent = SpaceBetween`, width 300 and
height 100, containing three relative 50×20 children with no flex factors,
`Calculate` places the children at (0,0), (125,0) and (250,0), each sized
50×20, and sizes the container 300×100. -/
theorem c7_row_spaceBetween_positions :
    (c7Result.map fun r =>
      r.1.children.map fun c =>
        (c.data.layout.position .left, c.data.layout.position .top,
         c.data.layout.dimensions .width, c.data.layout.dimensions .height)) =
      some [(some 0, some 0, some 50, some 20),
            (some 125, some 0, some 50, some 20),
            (some 250, some 0, some 50, some 20)] ∧
    (c7Result.map fun r =>
      (r.1.data.layout.dimensions .width, r.1.data.layout.dimensions .height)) =
      some (some 300, some 100) := by
  constructor
  · with_unfolding_all decide
  · with_unfolding_all decide

/-- C1 (failing input): in a full layout of a Column container under LTR
(main axis Column, cross axis Row — neither a reverse direction), the
kernel still writes the trailing cross-axis position of the child:
`position[Right]` ends at 300 − 50 − 0 = 250 instead of staying at its
initial 0, because the source's cross-axis predicate at CSSLayout.c line
1977 tests the truthy constant `CSSFlexDirectionRowReverse` instead of
`crossAxis`. -/
theorem c1_trailing_cross_set_although_cross_not_reverse :
    resolveAxis rootC1.data.style.flexDirection .ltr = .column ∧
    getCrossFlexDirection .column .ltr = .row ∧
    ((CSSFlexDirection.rowReverse.numCode ≠ 0) ||
      (CSSFlexDirection.row = CSSFlexDirection.columnReverse)) = true ∧
    (c1Result.map fun r => r.1.children.map fun c => c.data.layout.position .right) =
      some [some 250] := by
  refine ⟨rfl, rfl, rfl, ?_⟩
  with_unfolding_all decide

/-- C2 (counterexample): a wrapper entry on a *dirty* node does not
invalidate the caches when the node's generation already equals the current
one and its stored parent direction matches: after a measure-only visit in
generation 5 the node `c2Node1` is still dirty with one live ring entry,
and a second (full-layout) wrapper call in generation 5 leaves the ring
entry in place (the claimed invalidation would have reset the ring, and the
skipped full-layout call writes nothing to it). -/
theorem c2_dirty_entry_without_invalidation :
    c2Node1.data.isDirty = true ∧
    c2Node1.data.layout.generationCount = 5 ∧
    c2Node1.data.layout.lastParentDirection = some .ltr ∧
    c2Node1.data.layout.cachedMeasurements.length = 1 ∧
    (c2Run2.map fun r => r.1.data.layout.cachedMeasurements.length) = some 1 ∧
    (c2Run2.map fun r => r.2.1) = some false := by
  refine ⟨?_, ?_, ?_, ?_, ?_, ?_⟩ <;> with_unfolding_all decide

/-- C4 (counterexample): setting `flexBasis` on a fresh node (whose current
`flexBasis` is the undefined sentinel) to the undefined sentinel — i.e. to
its current value — marks the node dirty, because the C `!=` comparison is
true for NaN against itself. -/
theorem c4_setting_undefined_to_undefined_marks_dirty :
    CSSNodeNew.data.style.flexBasis = CSSUndefined ∧
    CSSNodeNew.data.isDirty = false ∧
    (styleSetFloat flexBasisField CSSNodeNew [] CSSUndefined).data.isDirty = true := by
  exact ⟨rfl, rfl, rfl⟩

/-- C9 (counterexample): in the text-node, same-width, tighter-height case
(`AtMost` height 30 against cached computed height 40), the cache lookup
returns a hit, but the node's stored `cachedLayout` entry is completely
unchanged — its `computedHeight` stays 40 rather than being set to the new
available height minus margin (30): the C function receives the entry by
value, so the assignment at CSSLayout.c line 2091 writes a discarded local
copy.  The measured height adopted from the hit is the stale 40. -/
theorem c9_stored_cache_entry_not_mutated :
    canUseCachedMeasurement true (some 100) (some 30) (some 0) (some 0)
      .atMost .atMost c9Entry = true ∧
    (c9Run.map fun r => r.1.data.layout.cachedLayout) = some c9Entry ∧
    c9Entry.computedHeight = some 40 ∧
    fsub (some 30) (some 0) = some 30 ∧
    (c9Run.map fun r => r.1.data.layout.measuredDimensions .height) = some (some 40) ∧
    (c9Run.map fun r => r.2.1) = some false := by
  refine ⟨?_, ?_, ?_, ?_, ?_, ?_⟩ <;> with_unfolding_all decide

/-- C3 (counterexample): the second and third `Calculate` calls have
identical inputs (100 × 50, LTR) with no intervening mutation, yet their
outputs differ: the second call (on the dirtied node) re-runs the kernel
and reports width 100, while the third call revalidates the stale
tolerance-matching cache entry and reports width 99.99995.  The third call
does execute the kernel body on zero nodes.  The first conjuncts check that
the constructed starting state `c3Pre` agrees field-by-field with the state
`c3Tree1d` actually produced by the first `Calculate` plus `MarkDirty`
(no operation in the chain writes the style, which is the default in
both). -/
theorem c3_second_calculate_output_differs :
    (c3Tree1d.data.isDirty = c3Pre.data.isDirty ∧
      c3Tree1d.data.layout.generationCount = c3Pre.data.layout.generationCount ∧
      c3Tree1d.data.layout.lastParentDirection = c3Pre.data.layout.lastParentDirection ∧
      c3Tree1d.data.layout.cachedLayout = c3Pre.data.layout.cachedLayout ∧
      c3Tree1d.data.layout.cachedMeasurements = c3Pre.data.layout.cachedMeasurements ∧
      c3Tree1d.data.layout.computedFlexBasis = c3Pre.data.layout.computedFlexBasis ∧
      c3Tree1d.data.layout.direction = c3Pre.data.layout.direction ∧
      (∀ d, c3Tree1d.data.layout.measuredDimensions d = c3Pre.data.layout.measuredDimensions d) ∧
      (∀ d, c3Tree1d.data.layout.dimensions d = c3Pre.data.layout.dimensions d) ∧
      c3Tree1d.data.measure.isSome = c3Pre.data.measure.isSome ∧
      c3Tree1d.data.isTextNode = c3Pre.data.isTextNode ∧
      c3Tree1d.children.length = c3Pre.children.length) ∧
    (c3Tree2.data.isDirty = c3Mid.data.isDirty ∧
      c3Tree2.data.layout.generationCount = c3Mid.data.layout.generationCount ∧
      c3Tree2.data.layout.lastParentDirection = c3Mid.data.layout.lastParentDirection ∧
      c3Tree2.data.layout.cachedLayout = c3Mid.data.layout.cachedLayout ∧
      c3Tree2.data.layout.cachedMeasurements = c3Mid.data.layout.cachedMeasurements ∧
      c3Tree2.data.layout.computedFlexBasis = c3Mid.data.layout.computedFlexBasis ∧
      c3Tree2.data.layout.direction = c3Mid.data.layout.direction ∧
      (∀ d, c3Tree2.data.layout.measuredDimensions d = c3Mid.data.layout.measuredDimensions d) ∧
      (∀ d, c3Tree2.data.layout.dimensions d = c3Mid.data.layout.dimensions d) ∧
      c3Tree2.data.measure.isSome = c3Mid.data.measure.isSome ∧
      c3Tree2.data.isTextNode = c3Mid.data.isTextNode ∧
      c3Tree2.children.length = c3Mid.children.length) ∧
    (c3Run2.map fun r => r.1.data.layout.dimensions .width) = some (some 100) ∧
    (c3Run3.map fun r => r.1.data.layout.dimensions .width) = some (some q99) ∧
    some q99 ≠ (some 100 : F) ∧
    (c3Run3.map fun r => r.2.2) = some 0 := by
  refine ⟨⟨?_, ?_, ?_, cmEqB_eq (by with_unfolding_all decide), ?_, ?_, ?_,
      fun d => by cases d <;> exact fEqB_eq (by with_unfolding_all decide),
      fun d => by cases d <;> exact fEqB_eq (by with_unfolding_all decide), ?_, ?_, ?_⟩,
    ⟨?_, ?_, ?_, cmEqB_eq (by with_unfolding_all decide), ?_, ?_, ?_,
      fun d => by cases d <;> exact fEqB_eq (by with_unfolding_all decide),
      fun d => by cases d <;> exact fEqB_eq (by with_unfolding_all decide), ?_, ?_, ?_⟩,
    optF_eq (by with_unfolding_all decide) rfl,
    optF_eq (by with_unfolding_all decide) rfl,
    fun h => absurd (congrArg (fun x : F => (x.getD 0).num) h) (by with_unfolding_all decide),
    ?_⟩
  all_goals with_unfolding_all decide

/-- C8 (counterexample): after raising the padding of a measure leaf to 60
per edge (padding-and-border axis total 120), a `Calculate` that
revalidates a stale cache entry reports width 100 — strictly below the
node's current padding-and-border total, violating the claimed
`dimensions[d] ≥ paddingAndBorder[d]` invariant. -/
theorem c8_dimension_below_padding_border_after_stale_hit :
    (c8Tree1p.data.isDirty = c8Pre.data.isDirty ∧
      c8Tree1p.data.layout.generationCount = c8Pre.data.layout.generationCount ∧
      c8Tree1p.data.layout.lastParentDirection = c8Pre.data.layout.lastParentDirection ∧
      c8Tree1p.data.layout.cachedLayout = c8Pre.data.layout.cachedLayout ∧
      c8Tree1p.data.layout.cachedMeasurements = c8Pre.data.layout.cachedMeasurements ∧
      c8Tree1p.data.layout.computedFlexBasis = c8Pre.data.layout.computedFlexBasis ∧
      (∀ d, c8Tree1p.data.layout.measuredDimensions d = c8Pre.data.layout.measuredDimensions d) ∧
      (∀ d, c8Tree1p.data.layout.dimensions d = c8Pre.data.layout.dimensions d) ∧
      (∀ e, c8Tree1p.data.style.padding e = c8Pre.data.style.padding e) ∧
      c8Tree1p.data.measure.isSome = c8Pre.data.measure.isSome ∧
      c8Tree1p.children.length = c8Pre.children.length) ∧
    (c8Tree2.data.isDirty = c8Mid.data.isDirty ∧
      c8Tree2.data.layout.generationCount = c8Mid.data.layout.generationCount ∧
      c8Tree2.data.layout.lastParentDirection = c8Mid.data.layout.lastParentDirection ∧
      c8Tree2.data.layout.cachedLayout = c8Mid.data.layout.cachedLayout ∧
      c8Tree2.data.layout.cachedMeasurements = c8Mid.data.layout.cachedMeasurements ∧
      c8Tree2.data.layout.computedFlexBasis = c8Mid.data.layout.computedFlexBasis ∧
      (∀ d, c8Tree2.data.layout.measuredDimensions d = c8Mid.data.layout.measuredDimensions d) ∧
      (∀ d, c8Tree2.data.layout.dimensions d = c8Mid.data.layout.dimensions d) ∧
      (∀ e, c8Tree2.data.style.padding e = c8Mid.data.style.padding e) ∧
      c8Tree2.data.measure.isSome = c8Mid.data.measure.isSome ∧
      c8Tree2.children.length = c8Mid.children.length) ∧
    c8Tree3.data.layout.dimensions .width = some 100 ∧
    getPaddingAndBorderAxis c8Tree3 .row = some 120 ∧
    ¬ (100 : ℚ) ≥ 120 := by
  refine ⟨⟨?_, ?_, ?_, cmEqB_eq (by with_unfolding_all decide), ?_, ?_,
      fun d => by cases d <;> exact fEqB_eq (by with_unfolding_all decide),
      fun d => by cases d <;> exact fEqB_eq (by with_unfolding_all decide),
      fun e => by cases e <;> exact fEqB_eq (by with_unfolding_all decide),
      ?_, ?_⟩,
    ⟨?_, ?_, ?_, cmEqB_eq (by with_unfolding_all decide), ?_, ?_,
      fun d => by cases d <;> exact fEqB_eq (by with_unfolding_all decide),
      fun d => by cases d <;> exact fEqB_eq (by with_unfolding_all decide),
      fun e => by cases e <;> exact fEqB_eq (by with_unfolding_all decide),
      ?_, ?_⟩,
    fEqB_eq (by with_unfolding_all decide),
    fEqB_eq (by with_unfolding_all decide), ?_⟩
  all_goals with_unfolding_all decide

/-! Helper lemmas for the generic style setters. -/

theorem fBeq_true_iff {a b : F} : fBeq a b = true ↔ ∃ q : ℚ, a = some q ∧ b = some q := by
  cases a <;> cases b <;> simp [fBeq]
  exact eq_comm

theorem styleSetFloat_nil_style (fld : FloatField) (n : CSSNode) (v : F) :
    (styleSetFloat fld n [] v).data.style =
      if fNe (fld.get n.data.style) v then fld.set v n.data.style else n.data.style := by
  cases n with
  | mk d cs =>
    cases hnv : fNe (fld.get d.style) v <;> cases hd : d.isDirty <;>
      simp [styleSetFloat, CSSNode.getAt?, CSSNode.modifyAt, markDirtyAt, markDirtyGo,
        CSSNode.withData, CSSNode.data, CSSNode.children, markDirtyData, hnv, hd]

theorem fNe_false {a b : F} (h : fNe a b = false) : a = b := by
  have hb : fBeq a b = true := by simpa [fNe] using h
  obtain ⟨q, h1, h2⟩ := fBeq_true_iff.mp hb
  rw [h1, h2]

theorem styleSetFloat_nil_get (fld : FloatField)
    (law : ∀ s w, fld.get (fld.set w s) = w) (n : CSSNode) (v : F) :
    fld.get (styleSetFloat fld n [] v).data.style = v := by
  rw [styleSetFloat_nil_style]
  split
  · exact law n.data.style v
  · next h => exact fNe_false (Bool.not_eq_true _ ▸ h)

theorem styleSetFloat_nil_other (fld : FloatField) (g : CSSStyle → F)
    (indep : ∀ s w, g (fld.set w s) = g s) (n : CSSNode) (v : F) :
    g (styleSetFloat fld n [] v).data.style = g n.data.style := by
  rw [styleSetFloat_nil_style]
  split
  · exact indep n.data.style v
  · rfl

/-- C10: `CSSNodeStyleSetFlex` maps its argument onto
(`flexGrow`, `flexShrink`, `flexBasis`) exactly as `flexShorthandClaim`
describes — undefined or 0 gives (0, 0, undefined); positive `f` gives
(`f`, 0, 0); negative `f` gives (0, −`f`, undefined) — and
`CSSNodeStyleGetFlex` returns `flexGrow` when positive, else `−flexShrink`
when `flexShrink` is positive, else 0 (`flexGetterClaim`). -/
theorem c10_flex_shorthand (n : CSSNode) (f : F) :
    ((CSSNodeStyleSetFlex n [] f).data.style.flexGrow,
      (CSSNodeStyleSetFlex n [] f).data.style.flexShrink,
      (CSSNodeStyleSetFlex n [] f).data.style.flexBasis) = flexShorthandClaim f ∧
    CSSNodeStyleGetFlex n =
      flexGetterClaim n.data.style.flexGrow n.data.style.flexShrink := by
  have hgrow : ∀ (m : CSSNode) w,
      (styleSetFloat flexGrowField m [] w).data.style.flexGrow = w :=
    styleSetFloat_nil_get flexGrowField (fun _ _ => rfl)
  have hshr : ∀ (m : CSSNode) w,
      (styleSetFloat flexShrinkField m [] w).data.style.flexShrink = w :=
    styleSetFloat_nil_get flexShrinkField (fun _ _ => rfl)
  have hbas : ∀ (m : CSSNode) w,
      (styleSetFloat flexBasisField m [] w).data.style.flexBasis = w :=
    styleSetFloat_nil_get flexBasisField (fun _ _ => rfl)
  have hgrow_shr : ∀ (m : CSSNode) w,
      (styleSetFloat flexShrinkField m [] w).data.style.flexGrow =
        m.data.style.flexGrow :=
    styleSetFloat_nil_other flexShrinkField (·.flexGrow) (fun _ _ => rfl)
  have hgrow_bas : ∀ (m : CSSNode) w,
      (styleSetFloat flexBasisField m [] w).data.style.flexGrow =
        m.data.style.flexGrow :=
    styleSetFloat_nil_other flexBasisField (·.flexGrow) (fun _ _ => rfl)
  have hshr_bas : ∀ (m : CSSNode) w,
      (styleSetFloat flexBasisField m [] w).data.style.flexShrink =
        m.data.style.flexShrink :=
    styleSetFloat_nil_other flexBasisField (·.flexShrink) (fun _ _ => rfl)
  constructor
  · unfold CSSNodeStyleSetFlex flexShorthandClaim
    cases f with
    | none =>
      simp only [CSSValueIsUndefined, Option.isNone_none, Bool.true_or, if_true]
      rw [hbas, hshr_bas, hshr, hgrow_bas, hgrow_shr, hgrow]
      rfl
    | some q =>
      by_cases hq : q = 0
      · subst hq
        simp only [CSSValueIsUndefined, Option.isNone_some, fBeq, Bool.false_or, beq_self_eq_true,
          if_true]
        rw [hbas, hshr_bas, hshr, hgrow_bas, hgrow_shr, hgrow]
        simp [CSSUndefined]
      · by_cases hpos : 0 < q
        · have hcond : (CSSValueIsUndefined (some q) || fBeq (some q) (some 0)) = false := by
            simp [CSSValueIsUndefined, fBeq, hq]
          have hgt : fGt (some q) (some 0) = true := by
            simp [fGt, fLt, hpos]
          rw [hcond]
          simp only [Bool.false_eq_true, if_false, hgt, if_true]
          rw [hbas, hshr_bas, hshr, hgrow_bas, hgrow_shr, hgrow]
          simp [hq, hpos]
        · have hcond : (CSSValueIsUndefined (some q) || fBeq (some q) (some 0)) = false := by
            simp [CSSValueIsUndefined, fBeq, hq]
          have hgt : fGt (some q) (some 0) = false := by
            simp [fGt, fLt, hpos]
          rw [hcond]
          simp only [Bool.false_eq_true, if_false, hgt, if_true]
          rw [hbas, hshr_bas, hshr, hgrow_bas, hgrow_shr, hgrow]
          simp [fneg, hq, hpos, CSSUndefined]
  · unfold CSSNodeStyleGetFlex flexGetterClaim
    have h1 : ∀ x : F, fGt x (some 0) = floatPos x := fun x => by cases x <;> rfl
    rw [h1, h1]

/-! Helper lemmas for the cache-validity predicate. -/

theorem qabs_eq_abs (x : ℚ) : qabs x = |x| := by
  unfold qabs
  rcases lt_or_le x 0 with h | h
  · rw [if_pos h, abs_of_neg h]
  · rw [if_neg (not_lt.mpr h), abs_of_nonneg h]

theorem fLe_true_iff {a b : F} :
    fLe a b = true ↔ ∃ x y, a = some x ∧ b = some y ∧ x ≤ y := by
  cases a <;> cases b <;> simp [fLe]

theorem feq_true_iff {a b : F} : feq a b = true ↔ valueEqSpec a b := by
  cases a <;> cases b <;> simp [feq, valueEqSpec, qabs_eq_abs]

theorem axisValid_iff (priorMode : Option CSSMeasureMode) (priorComputed : F)
    (newMode : CSSMeasureMode) (newAvailable marginOnAxis : F) :
    ((priorMode = some CSSMeasureMode.undefined &&
        newMode = CSSMeasureMode.atMost &&
        fLe priorComputed (fsub newAvailable marginOnAxis)) ||
      (newMode = CSSMeasureMode.exactly &&
        feq priorComputed (fsub newAvailable marginOnAxis))) = true ↔
    claimAxisValid priorMode priorComputed newMode newAvailable marginOnAxis := by
  simp only [Bool.or_eq_true, Bool.and_eq_true, decide_eq_true_eq, fLe_true_iff,
    feq_true_iff, claimAxisValid, and_assoc]

/-- C6: the per-axis cache-validity tests used by `canUseCachedMeasurement`
accept a prior entry exactly when the prior measurement used mode Undefined,
the new mode is AtMost and the prior computed size is at most the new
available size minus the margin on that axis, or the new mode is Exactly and
the prior computed size is tolerance-equal (within 1/10000) to the new
available size minus the margin on that axis. -/
theorem c6_cache_valid_predicate (e : CSSCachedMeasurement)
    (availableWidth availableHeight marginRow marginColumn : F)
    (wm hm : CSSMeasureMode) :
    (cacheHeightValid e availableHeight marginColumn hm = true ↔
      claimAxisValid e.heightMeasureMode e.computedHeight hm availableHeight marginColumn) ∧
    (cacheWidthValid e availableWidth marginRow wm = true ↔
      claimAxisValid e.widthMeasureMode e.computedWidth wm availableWidth marginRow) :=
  ⟨axisValid_iff _ _ _ _ _, axisValid_iff _ _ _ _ _⟩

/-! Helper lemmas for the cache-guarded wrapper. -/

theorem feq_refl (a : F) : feq a a = true := by
  cases a with
  | none => rfl
  | some q =>
    simp [feq, qabs, sub_self]

theorem styleSetFloat_nil_isDirty (fld : FloatField) (n : CSSNode) (v : F) :
    (styleSetFloat fld n [] v).data.isDirty
      = (n.data.isDirty || fNe (fld.get n.data.style) v) := by
  cases n with
  | mk d cs =>
    cases hnv : fNe (fld.get d.style) v <;> cases hd : d.isDirty <;>
      simp [styleSetFloat, CSSNode.getAt?, CSSNode.modifyAt, markDirtyAt, markDirtyGo,
        CSSNode.withData, CSSNode.data, CSSNode.children, markDirtyData, hnv, hd]

theorem layoutGo_hit_step (fuel : Nat) (node : CSSNode) (aw ah : F)
    (pd : CSSDirection) (wm hm : CSSMeasureMode) (pl : Bool) (g : Nat)
    (e : CSSCachedMeasurement)
    (hnv : needToVisitNode node pd g = false)
    (hcr : findCachedResult node aw ah wm hm pl = some e) :
    layoutGo (fuel + 1) true node aw ah pd wm hm pl g =
      some (hitAdopt node e pl g, false, 0) := by
  have h1 : wrapperEntry node pd g = node := by simp [wrapperEntry, hnv]
  simp [layoutGo, h1, hcr, hnv]

theorem layoutGo_miss_step (fuel : Nat) (node : CSSNode) (aw ah : F)
    (pd : CSSDirection) (wm hm : CSSMeasureMode) (pl : Bool) (g : Nat)
    (hcr : findCachedResult (wrapperEntry node pd g) aw ah wm hm pl = none) :
    layoutGo (fuel + 1) true node aw ah pd wm hm pl g =
      match layoutGo fuel false (wrapperEntry node pd g) aw ah pd wm hm pl g with
      | none => none
      | some (nodeI, _, k) =>
        some (postImpl nodeI true aw ah wm hm pl pd g, true, k) := by
  simp [layoutGo, hcr]

theorem hitAdopt_fields (n : CSSNode) (e : CSSCachedMeasurement) (pl : Bool) (g : Nat) :
    (hitAdopt n e pl g).data.layout.cachedLayout = n.data.layout.cachedLayout ∧
    (hitAdopt n e pl g).data.layout.cachedMeasurements
      = n.data.layout.cachedMeasurements ∧
    (hitAdopt n e pl g).data.layout.measuredDimensions .width = e.computedWidth ∧
    (hitAdopt n e pl g).data.layout.measuredDimensions .height = e.computedHeight := by
  cases n with
  | mk d cs =>
    cases pl <;> simp [hitAdopt, CSSNode.withData, CSSNode.data, updDim]

theorem hitAdopt_pl_fields (n : CSSNode) (e : CSSCachedMeasurement) (g : Nat) :
    (hitAdopt n e true g).data.layout.dimensions .width = e.computedWidth ∧
    (hitAdopt n e true g).data.layout.dimensions .height = e.computedHeight ∧
    (hitAdopt n e true g).data.isDirty = false := by
  cases n with
  | mk d cs => simp [hitAdopt, CSSNode.withData, CSSNode.data, updDim]

theorem postImpl_store_pl (nI : CSSNode) (aw ah : F) (wm hm : CSSMeasureMode)
    (pd : CSSDirection) (g : Nat) :
    (postImpl nI true aw ah wm hm true pd g).data.measure = nI.data.measure ∧
    (postImpl nI true aw ah wm hm true pd g).children = nI.children ∧
    (postImpl nI true aw ah wm hm true pd g).data.isDirty = false ∧
    (postImpl nI true aw ah wm hm true pd g).data.layout.lastParentDirection = some pd ∧
    (postImpl nI true aw ah wm hm true pd g).data.layout.generationCount = g ∧
    (∀ d, (postImpl nI true aw ah wm hm true pd g).data.layout.measuredDimensions d
      = nI.data.layout.measuredDimensions d) ∧
    (postImpl nI true aw ah wm hm true pd g).data.layout.cachedLayout =
      { availableWidth := aw, availableHeight := ah,
        widthMeasureMode := some wm, heightMeasureMode := some hm,
        computedWidth := nI.data.layout.measuredDimensions .width,
        computedHeight := nI.data.layout.measuredDimensions .height } ∧
    (postImpl nI true aw ah wm hm true pd g).data.layout.dimensions .width
      = nI.data.layout.measuredDimensions .width ∧
    (postImpl nI true aw ah wm hm true pd g).data.layout.dimensions .height
      = nI.data.layout.measuredDimensions .height := by
  cases nI with
  | mk d cs =>
    refine ⟨?_, ?_, ?_, ?_, ?_, fun dd => ?_, ?_, ?_, ?_⟩ <;>
      simp [postImpl, storeCacheEntry, CSSNode.withData, CSSNode.data, CSSNode.children,
        updDim, apply_ite] <;>
      constructor <;> split <;> rfl

theorem findCachedResult_self_hit (n : CSSNode) (aw ah : F) (wm hm : CSSMeasureMode)
    (cw ch : F)
    (h : n.data.layout.cachedLayout =
      { availableWidth := aw, availableHeight := ah,
        widthMeasureMode := some wm, heightMeasureMode := some hm,
        computedWidth := cw, computedHeight := ch }) :
    findCachedResult n aw ah wm hm true = some n.data.layout.cachedLayout := by
  unfold findCachedResult
  split
  · have hcu : canUseCachedMeasurement n.data.isTextNode aw ah (getMarginAxis n .row)
        (getMarginAxis n .column) wm hm n.data.layout.cachedLayout = true := by
      simp [canUseCachedMeasurement, cacheHeightSame, cacheWidthSame, h, feq_refl]
    simp [hcu]
  · simp [h, feq_refl]

theorem styleSetFloat_nil_noop (fld : FloatField) (n : CSSNode) (v : F) (q : ℚ)
    (h1 : fld.get n.data.style = some q) (h2 : v = some q) :
    styleSetFloat fld n [] v = n := by
  have hne : fNe (fld.get n.data.style) v = false := by
    rw [h1, h2]; simp [fNe, fBeq]
  cases n with
  | mk d cs =>
    simp only [CSSNode.data] at hne
    simp [styleSetFloat, CSSNode.getAt?, CSSNode.data, hne]

theorem styleSetEnum_nil_isDirty {α : Type} [DecidableEq α] (fld : EnumField α)
    (n : CSSNode) (v : α) :
    (styleSetEnum fld n [] v).data.isDirty
      = (n.data.isDirty || decide (fld.get n.data.style ≠ v)) := by
  cases n with
  | mk d cs =>
    by_cases hne : fld.get d.style = v
    · simp [styleSetEnum, CSSNode.getAt?, CSSNode.data, hne]
    · cases hd : d.isDirty <;>
        simp [styleSetEnum, CSSNode.getAt?, CSSNode.modifyAt, markDirtyAt,
          markDirtyGo, CSSNode.withData, CSSNode.data, CSSNode.children,
          markDirtyData, hne, hd]

theorem styleSetEnum_nil_noop {α : Type} [DecidableEq α] (fld : EnumField α)
    (n : CSSNode) (v : α) (h : fld.get n.data.style = v) :
    styleSetEnum fld n [] v = n := by
  cases n with
  | mk d cs =>
    simp only [CSSNode.data] at h
    simp [styleSetEnum, CSSNode.getAt?, CSSNode.data, h]

/-- C4 amended: every style setter generated by `CSS_NODE_STYLE_PROPERTY_IMPL`
compares the stored and the new value with the C `!=` and, on inequality,
assigns the field and calls `_CSSNodeMarkDirty`: `isDirty` afterwards equals
`isDirty` before OR-ed with that comparison.  For the enum-typed setters
(`SetDirection`, `SetJustifyContent`, ...) the `!=` is an exact comparison,
so setting the current value is always a complete no-op and the original
claim holds in full.  For the float-typed setters, setting a *defined* field
to its current value is a complete no-op, but setting an undefined (NaN)
field to the undefined sentinel does mark the node dirty, since NaN compares
unequal to itself - the one point where the original claim fails. -/
theorem c4_setter_dirtiness_formula {α : Type} [DecidableEq α]
    (fld : FloatField) (efld : EnumField α) (n : CSSNode) (v : F) (ev : α) :
    ((styleSetFloat fld n [] v).data.isDirty
      = (n.data.isDirty || fNe (fld.get n.data.style) v)) ∧
    (∀ q : ℚ, fld.get n.data.style = some q → v = some q →
      styleSetFloat fld n [] v = n) ∧
    (fld.get n.data.style = none → v = none →
      (styleSetFloat fld n [] v).data.isDirty = true) ∧
    ((styleSetEnum efld n [] ev).data.isDirty
      = (n.data.isDirty || decide (efld.get n.data.style ≠ ev))) ∧
    (efld.get n.data.style = ev → styleSetEnum efld n [] ev = n) := by
  refine ⟨styleSetFloat_nil_isDirty fld n v, ?_, ?_,
    styleSetEnum_nil_isDirty efld n ev, ?_⟩
  · intro q h1 h2
    exact styleSetFloat_nil_noop fld n v q h1 h2
  · intro h1 h2
    rw [styleSetFloat_nil_isDirty, h1, h2]
    simp [fNe, fBeq]
  · intro h
    exact styleSetEnum_nil_noop efld n ev h

/-- C2 amended: on entry to the cache-guarded wrapper the caches are
invalidated exactly when the node is dirty AND its generation count differs
from the current generation, or its stored last parent direction differs
from the call's parent direction (a dirty node already visited in this
generation is NOT re-invalidated); and the invalidation resets the
measurement ring and clears only the two measure-mode fields of the layout
cache entry, keeping its sizes. -/
theorem c2_wrapper_invalidation_condition (n : CSSNode) (pd : CSSDirection) (g : Nat) :
    (needToVisitNode n pd g = true ↔ claimInvalidateCond n pd g) ∧
    (claimInvalidateCond n pd g →
      (wrapperEntry n pd g).data.layout.cachedMeasurements = [] ∧
      (wrapperEntry n pd g).data.layout.cachedLayout =
        { n.data.layout.cachedLayout with
          widthMeasureMode := none, heightMeasureMode := none }) ∧
    (¬ claimInvalidateCond n pd g → wrapperEntry n pd g = n) := by
  have hiff : needToVisitNode n pd g = true ↔ claimInvalidateCond n pd g := by
    simp [needToVisitNode, claimInvalidateCond, Bool.or_eq_true, Bool.and_eq_true,
      decide_eq_true_eq]
  refine ⟨hiff, ?_, ?_⟩
  · intro h
    have hb : needToVisitNode n pd g = true := hiff.mpr h
    cases n with
    | mk d cs =>
      constructor <;>
        simp [wrapperEntry, hb, invalidateCaches, CSSNode.withData, CSSNode.data]
  · intro h
    have hb : needToVisitNode n pd g = false := by
      cases hx : needToVisitNode n pd g
      · rfl
      · exact absurd (hiff.mp hx) h
    simp [wrapperEntry, hb]

/-- C9 amended: in the text-node case with a 'same' width constraint,
`canUseCachedMeasurement` returns true (in particular when the new height
mode is `AtMost` with a restriction smaller than the cached computed
height), but the node's stored cache is NOT mutated: the C function takes
the entry by value, so a wrapper call that is satisfied from the cache
leaves the stored `cachedLayout` entry and the measurement ring of the node
completely unchanged and executes the kernel body zero times. -/
theorem c9_text_node_hit_no_mutation (e : CSSCachedMeasurement) (aw ah mr mc : F)
    (wm hm : CSSMeasureMode) (fuel : Nat) (node : CSSNode) (aw2 ah2 : F)
    (pd : CSSDirection) (wm2 hm2 : CSSMeasureMode) (pl : Bool) (g : Nat)
    (e2 : CSSCachedMeasurement)
    (hw : cacheWidthSame e aw wm = true)
    (hnv : needToVisitNode node pd g = false)
    (hcr : findCachedResult node aw2 ah2 wm2 hm2 pl = some e2) :
    canUseCachedMeasurement true aw ah mr mc wm hm e = true ∧
    (layoutGo (fuel + 1) true node aw2 ah2 pd wm2 hm2 pl g).map
        (fun r => (r.1.data.layout.cachedLayout,
          r.1.data.layout.cachedMeasurements, r.2.2)) =
      some (node.data.layout.cachedLayout, node.data.layout.cachedMeasurements, 0) := by
  constructor
  · simp [canUseCachedMeasurement, hw]
  · rw [layoutGo_hit_step fuel node aw2 ah2 pd wm2 hm2 pl g e2 hnv hcr]
    obtain ⟨h1, h2, -, -⟩ := hitAdopt_fields node e2 pl g
    simp [h1, h2]

theorem c9_text_node_hit_no_mutation_witness :
    canUseCachedMeasurement true (some 100) (some 30) (some 0) (some 0)
      .atMost .atMost c9Entry = true ∧
    (layoutGo 3 true c9Node (some 100) (some 30) .ltr .atMost .atMost false 0).map
        (fun r => (r.1.data.layout.cachedLayout,
          r.1.data.layout.cachedMeasurements, r.2.2)) =
      some (c9Node.data.layout.cachedLayout, c9Node.data.layout.cachedMeasurements, 0) :=
  c9_text_node_hit_no_mutation c9Entry (some 100) (some 30) (some 0) (some 0)
    .atMost .atMost 2 c9Node (some 100) (some 30) .ltr .atMost .atMost false 0 c9Entry
    (by with_unfolding_all rfl) (by with_unfolding_all rfl) (by with_unfolding_all rfl)

/-- C8 amended: `boundAxis` never goes below the node's padding-and-border
total on the axis — for every node, axis and input value (undefined and
negative values included), whenever the padding-and-border total is a
defined value `pb`, `boundAxis` returns a defined value ≥ `pb`.  (The
claim's second half — that every node's post-`Calculate` layout dimensions
satisfy this bound — is refuted by the counterexample: a stale cache
revalidation can publish dimensions from an older, smaller-padding state.) -/
theorem c8_boundAxis_ge_padding_border (n : CSSNode) (axis : CSSFlexDirection)
    (v : F) (pb : ℚ) (hpb : getPaddingAndBorderAxis n axis = some pb) :
    ∃ r, boundAxis n axis v = some r ∧ pb ≤ r := by
  unfold boundAxis
  rw [hpb]
  cases hb : boundAxisWithinMinAndMax n axis v with
  | none => exact ⟨pb, rfl, le_refl pb⟩
  | some x => exact ⟨max x pb, rfl, le_max_right x pb⟩

theorem c8_boundAxis_ge_padding_border_witness :
    ∃ r, boundAxis CSSNodeNew .row (some (-5)) = some r ∧ (0 : ℚ) ≤ r :=
  c8_boundAxis_ge_padding_border CSSNodeNew .row (some (-5)) 0
    (by with_unfolding_all rfl)

/-- C3 amended: if a full-layout wrapper call missed the cache (so the
kernel ran and the fresh result was stored in the layout cache entry), then
a second wrapper call on the result with identical available sizes, measure
modes and parent direction — in any later generation, with no intervening
mutation — is satisfied from the cache: it executes the kernel body on zero
nodes and reproduces the same dimensions and measured dimensions, leaving
the caches unchanged.  (The claimed output equality for a node whose
caches were NOT refreshed by the first call is refuted by the
counterexample: a stale tolerance-matching entry can revalidate.) -/
theorem c3_second_identical_call_zero_runs (fuel : Nat) (node n1 : CSSNode)
    (aw ah : F) (pd : CSSDirection) (wm hm : CSSMeasureMode) (g g2 k : Nat)
    (hmiss : findCachedResult (wrapperEntry node pd g) aw ah wm hm true = none)
    (hrun : layoutNodeInternalF (fuel + 1) node aw ah pd wm hm true g
      = some (n1, true, k)) :
    ∃ n2,
      layoutNodeInternalF 1 n1 aw ah pd wm hm true g2 = some (n2, false, 0) ∧
      (∀ d, n2.data.layout.dimensions d = n1.data.layout.dimensions d) ∧
      (∀ d, n2.data.layout.measuredDimensions d
        = n1.data.layout.measuredDimensions d) ∧
      n2.data.layout.cachedLayout = n1.data.layout.cachedLayout ∧
      n2.data.layout.cachedMeasurements = n1.data.layout.cachedMeasurements ∧
      n2.data.isDirty = false := by
  rw [layoutNodeInternalF, layoutGo_miss_step fuel node aw ah pd wm hm true g hmiss]
    at hrun
  rcases hI : layoutGo fuel false (wrapperEntry node pd g) aw ah pd wm hm true g with
    - | ⟨nodeI, b, k0⟩
  · rw [hI] at hrun
    cases hrun
  · rw [hI] at hrun
    simp only [Option.some.injEq, Prod.mk.injEq] at hrun
    obtain ⟨hn1, -, -⟩ := hrun
    obtain ⟨Pm, Pc, Pd0, Plpd, Pg, Pmd, Pcl, Pdw, Pdh⟩ :=
      postImpl_store_pl nodeI aw ah wm hm pd g
    rw [hn1] at Pm Pc Pd0 Plpd Pg Pmd Pcl Pdw Pdh
    have hnv2 : needToVisitNode n1 pd g2 = false := by
      simp [needToVisitNode, Pd0, Plpd]
    have hfind2 : findCachedResult n1 aw ah wm hm true
        = some n1.data.layout.cachedLayout :=
      findCachedResult_self_hit n1 aw ah wm hm
        (nodeI.data.layout.measuredDimensions .width)
        (nodeI.data.layout.measuredDimensions .height) Pcl
    refine ⟨hitAdopt n1 n1.data.layout.cachedLayout true g2, ?_, ?_, ?_, ?_, ?_, ?_⟩
    · rw [layoutNodeInternalF]
      exact layoutGo_hit_step 0 n1 aw ah pd wm hm true g2
        n1.data.layout.cachedLayout hnv2 hfind2
    · intro d
      obtain ⟨Hdw, Hdh, -⟩ := hitAdopt_pl_fields n1 n1.data.layout.cachedLayout g2
      cases d
      · rw [Hdw, Pcl, Pdw]
      · rw [Hdh, Pcl, Pdh]
    · intro d
      obtain ⟨-, -, Hmw, Hmh⟩ := hitAdopt_fields n1 n1.data.layout.cachedLayout true g2
      cases d
      · rw [Hmw, Pcl, Pmd .width]
      · rw [Hmh, Pcl, Pmd .height]
    · exact (hitAdopt_fields n1 n1.data.layout.cachedLayout true g2).1
    · exact (hitAdopt_fields n1 n1.data.layout.cachedLayout true g2).2.1
    · exact (hitAdopt_pl_fields n1 n1.data.layout.cachedLayout g2).2.2

theorem c3_second_identical_call_zero_runs_witness :
    ∃ n2,
      layoutNodeInternalF 1 c3wTree1 (some 100) (some 50) .ltr .exactly .exactly
        true 2 = some (n2, false, 0) ∧
      (∀ d, n2.data.layout.dimensions d = c3wTree1.data.layout.dimensions d) ∧
      (∀ d, n2.data.layout.measuredDimensions d
        = c3wTree1.data.layout.measuredDimensions d) ∧
      n2.data.layout.cachedLayout = c3wTree1.data.layout.cachedLayout ∧
      n2.data.layout.cachedMeasurements = c3wTree1.data.layout.cachedMeasurements ∧
      n2.data.isDirty = false :=
  c3_second_identical_call_zero_runs 1 measureLeaf c3wTree1 (some 100) (some 50)
    .ltr .exactly .exactly 1 2 1 (by with_unfolding_all rfl)
    (by with_unfolding_all rfl)

/-! Basic lemmas on the C5 tree predicates. -/

theorem upClosed_parts {d : CSSNodeData} {cs : List CSSNode}
    (h : upClosed (.mk d cs) = true) :
    (subtreeDirtyL cs = true → d.isDirty = true) ∧ upClosedL cs = true := by
  rw [upClosed] at h
  simp only [Bool.and_eq_true, Bool.or_eq_true, Bool.not_eq_true'] at h
  refine ⟨fun hd => ?_, h.2⟩
  rcases h.1 with h1 | h1
  · rw [hd] at h1; cases h1
  · exact h1

theorem upClosed_intro {d : CSSNodeData} {cs : List CSSNode}
    (h1 : subtreeDirtyL cs = true → d.isDirty = true) (h2 : upClosedL cs = true) :
    upClosed (.mk d cs) = true := by
  rw [upClosed]
  simp only [Bool.and_eq_true, Bool.or_eq_true, Bool.not_eq_true']
  refine ⟨?_, h2⟩
  cases hs : subtreeDirtyL cs
  · exact Or.inl rfl
  · exact Or.inr (h1 hs)

mutual
theorem clean_upClosed : ∀ n, subtreeDirty n = false → upClosed n = true
  | .mk d cs, h => by
    rw [subtreeDirty] at h
    simp only [Bool.or_eq_false_iff] at h
    exact upClosed_intro (fun hs => absurd hs (by simp [h.2])) (clean_upClosedL cs h.2)

theorem clean_upClosedL : ∀ cs, subtreeDirtyL cs = false → upClosedL cs = true
  | [], _ => rfl
  | c :: cs, h => by
    rw [subtreeDirtyL] at h
    simp only [Bool.or_eq_false_iff] at h
    rw [upClosedL]
    simp only [Bool.and_eq_true]
    exact ⟨clean_upClosed c h.1, clean_upClosedL cs h.2⟩
end

mutual
theorem dirtyEq_subtreeDirty : ∀ a b, dirtyEq a b → subtreeDirty b = subtreeDirty a
  | .mk d cs, .mk d' cs', h => by
    rw [dirtyEq] at h
    rw [subtreeDirty, subtreeDirty, h.1, dirtyEqL_subtreeDirtyL cs cs' h.2]

theorem dirtyEqL_subtreeDirtyL :
    ∀ as bs, dirtyEqL as bs → subtreeDirtyL bs = subtreeDirtyL as
  | [], [], _ => rfl
  | _ :: _, [], h => absurd h (by rw [dirtyEqL]; exact not_false)
  | [], _ :: _, h => absurd h (by rw [dirtyEqL]; exact not_false)
  | a :: as, b :: bs, h => by
    rw [dirtyEqL] at h
    rw [subtreeDirtyL, subtreeDirtyL, dirtyEq_subtreeDirty a b h.1,
      dirtyEqL_subtreeDirtyL as bs h.2]
end

mutual
theorem dirtyEq_upClosed : ∀ a b, dirtyEq a b → upClosed b = upClosed a
  | .mk d cs, .mk d' cs', h => by
    rw [dirtyEq] at h
    rw [upClosed, upClosed, h.1, dirtyEqL_subtreeDirtyL cs cs' h.2,
      dirtyEqL_upClosedL cs cs' h.2]

theorem dirtyEqL_upClosedL : ∀ as bs, dirtyEqL as bs → upClosedL bs = upClosedL as
  | [], [], _ => rfl
  | _ :: _, [], h => absurd h (by rw [dirtyEqL]; exact not_false)
  | [], _ :: _, h => absurd h (by rw [dirtyEqL]; exact not_false)
  | a :: as, b :: bs, h => by
    rw [dirtyEqL] at h
    rw [upClosedL, upClosedL, dirtyEq_upClosed a b h.1, dirtyEqL_upClosedL as bs h.2]
end

mutual
theorem dirtyEq_refl : ∀ a, dirtyEq a a
  | .mk d cs => by rw [dirtyEq]; exact ⟨rfl, dirtyEqL_refl cs⟩

theorem dirtyEqL_refl : ∀ as, dirtyEqL as as
  | [] => by rw [dirtyEqL]; trivial
  | a :: as => by rw [dirtyEqL]; exact ⟨dirtyEq_refl a, dirtyEqL_refl as⟩
end

mutual
theorem dirtyEq_trans : ∀ a b c, dirtyEq a b → dirtyEq b c → dirtyEq a c
  | .mk d1 cs1, .mk d2 cs2, .mk d3 cs3, h1, h2 => by
    rw [dirtyEq] at h1 h2 ⊢
    exact ⟨h2.1.trans h1.1, dirtyEqL_trans cs1 cs2 cs3 h1.2 h2.2⟩

theorem dirtyEqL_trans : ∀ as bs cs, dirtyEqL as bs → dirtyEqL bs cs → dirtyEqL as cs
  | [], [], [], _, _ => by rw [dirtyEqL]; trivial
  | [], [], _ :: _, _, h2 => absurd h2 (by rw [dirtyEqL]; exact not_false)
  | [], _ :: _, _, h1, _ => absurd h1 (by rw [dirtyEqL]; exact not_false)
  | _ :: _, [], _, h1, _ => absurd h1 (by rw [dirtyEqL]; exact not_false)
  | _ :: _, _ :: _, [], _, h2 => absurd h2 (by rw [dirtyEqL]; exact not_false)
  | a :: as, b :: bs, c :: cs, h1, h2 => by
    rw [dirtyEqL] at h1 h2 ⊢
    exact ⟨dirtyEq_trans a b c h1.1 h2.1, dirtyEqL_trans as bs cs h1.2 h2.2⟩
end

mutual
theorem layPres_refl : ∀ a, layPres a a
  | .mk d cs => by rw [layPres]; exact ⟨rfl, rfl, rfl, layPresL_refl cs⟩

theorem layPresL_refl : ∀ as, layPresL as as
  | [] => by rw [layPresL]; trivial
  | a :: as => by rw [layPresL]; exact ⟨layPres_refl a, layPresL_refl as⟩
end

mutual
theorem layPres_trans : ∀ a b c, layPres a b → layPres b c → layPres a c
  | .mk d1 cs1, .mk d2 cs2, .mk d3 cs3, h1, h2 => by
    rw [layPres] at h1 h2 ⊢
    exact ⟨h2.1.trans h1.1, h2.2.1.trans h1.2.1, h2.2.2.1.trans h1.2.2.1,
      layPresL_trans cs1 cs2 cs3 h1.2.2.2 h2.2.2.2⟩

theorem layPresL_trans : ∀ as bs cs, layPresL as bs → layPresL bs cs → layPresL as cs
  | [], [], [], _, _ => by rw [layPresL]; trivial
  | [], [], _ :: _, _, h2 => absurd h2 (by rw [layPresL]; exact not_false)
  | [], _ :: _, _, h1, _ => absurd h1 (by rw [layPresL]; exact not_false)
  | _ :: _, [], _, h1, _ => absurd h1 (by rw [layPresL]; exact not_false)
  | _ :: _, _ :: _, [], _, h2 => absurd h2 (by rw [layPresL]; exact not_false)
  | a :: as, b :: bs, c :: cs, h1, h2 => by
    rw [layPresL] at h1 h2 ⊢
    exact ⟨layPres_trans a b c h1.1 h2.1, layPresL_trans as bs cs h1.2 h2.2⟩
end

theorem layPresL_length : ∀ as bs, layPresL as bs → bs.length = as.length
  | [], [], _ => rfl
  | [], _ :: _, h => absurd h (by rw [layPresL]; exact not_false)
  | _ :: _, [], h => absurd h (by rw [layPresL]; exact not_false)
  | _ :: as, _ :: bs, h => by
    rw [layPresL] at h
    simp [layPresL_length as bs h.2]

theorem dirtyEqL_length : ∀ as bs, dirtyEqL as bs → bs.length = as.length
  | [], [], _ => rfl
  | [], _ :: _, h => absurd h (by rw [dirtyEqL]; exact not_false)
  | _ :: _, [], h => absurd h (by rw [dirtyEqL]; exact not_false)
  | _ :: as, _ :: bs, h => by
    rw [dirtyEqL] at h
    simp [dirtyEqL_length as bs h.2]

/-! Predicate access through `getCh` and stability under `List.set`. -/

theorem upClosedL_getCh : ∀ (cs : List CSSNode) (i : Nat), upClosedL cs = true →
    upClosed (getCh cs i) = true
  | [], i, _ => by
    have : upClosed CSSNodeNew = true := by with_unfolding_all decide
    simpa [getCh] using this
  | c :: cs, 0, h => by
    rw [upClosedL] at h
    exact ((Bool.and_eq_true _ _).mp h).1
  | c :: cs, i + 1, h => by
    rw [upClosedL] at h
    exact upClosedL_getCh cs i ((Bool.and_eq_true _ _).mp h).2

theorem genOKL_getCh : ∀ (cs : List CSSNode) (i : Nat) (g : Nat), genOKL g cs = true →
    genOK g (getCh cs i) = true
  | [], i, g, _ => by
    have : ∀ g, genOK g CSSNodeNew = true := fun g => by
      rw [CSSNodeNew, genOK]
      simp [genOKL, initLayout]
    simpa [getCh] using this g
  | c :: cs, 0, g, h => by
    rw [genOKL] at h
    exact ((Bool.and_eq_true _ _).mp h).1
  | c :: cs, i + 1, g, h => by
    rw [genOKL] at h
    exact genOKL_getCh cs i g ((Bool.and_eq_true _ _).mp h).2

theorem subtreeDirtyL_getCh : ∀ (cs : List CSSNode) (i : Nat),
    subtreeDirtyL cs = false → subtreeDirty (getCh cs i) = false
  | [], i, _ => by
    have : subtreeDirty CSSNodeNew = false := by with_unfolding_all decide
    simpa [getCh] using this
  | c :: cs, 0, h => by
    rw [subtreeDirtyL] at h
    exact ((Bool.or_eq_false_iff).mp h).1
  | c :: cs, i + 1, h => by
    rw [subtreeDirtyL] at h
    exact subtreeDirtyL_getCh cs i ((Bool.or_eq_false_iff).mp h).2

theorem upClosedL_set : ∀ (cs : List CSSNode) (i : Nat) (c : CSSNode),
    upClosedL cs = true → upClosed c = true → upClosedL (cs.set i c) = true
  | [], _, _, h, _ => h
  | a :: cs, 0, c, h, hc => by
    rw [upClosedL] at h
    simp only [Bool.and_eq_true] at h
    show upClosedL (c :: cs) = true
    rw [upClosedL]
    simp only [Bool.and_eq_true]
    exact ⟨hc, h.2⟩
  | a :: cs, i + 1, c, h, hc => by
    rw [upClosedL] at h
    simp only [Bool.and_eq_true] at h
    rw [List.set]
    rw [upClosedL]
    simp only [Bool.and_eq_true]
    exact ⟨h.1, upClosedL_set cs i c h.2 hc⟩

theorem genOKL_set : ∀ (cs : List CSSNode) (i : Nat) (c : CSSNode) (g : Nat),
    genOKL g cs = true → genOK g c = true → genOKL g (cs.set i c) = true
  | [], _, _, _, h, _ => h
  | a :: cs, 0, c, g, h, hc => by
    rw [genOKL] at h
    simp only [Bool.and_eq_true] at h
    show genOKL g (c :: cs) = true
    rw [genOKL]
    simp only [Bool.and_eq_true]
    exact ⟨hc, h.2⟩
  | a :: cs, i + 1, c, g, h, hc => by
    rw [genOKL] at h
    simp only [Bool.and_eq_true] at h
    rw [List.set]
    rw [genOKL]
    simp only [Bool.and_eq_true]
    exact ⟨h.1, genOKL_set cs i c g h.2 hc⟩

theorem genLeL_getCh : ∀ (cs : List CSSNode) (i : Nat) (G : Nat), genLeL G cs = true →
    genLe G (getCh cs i) = true
  | [], i, G, _ => by
    have : ∀ G, genLe G CSSNodeNew = true := fun G => by
      rw [CSSNodeNew, genLe]
      simp [genLeL, initLayout]
    simpa [getCh] using this G
  | c :: cs, 0, G, h => by
    rw [genLeL] at h
    exact ((Bool.and_eq_true _ _).mp h).1
  | c :: cs, i + 1, G, h => by
    rw [genLeL] at h
    exact genLeL_getCh cs i G ((Bool.and_eq_true _ _).mp h).2

theorem genLeL_set : ∀ (cs : List CSSNode) (i : Nat) (c : CSSNode) (G : Nat),
    genLeL G cs = true → genLe G c = true → genLeL G (cs.set i c) = true
  | [], _, _, _, h, _ => h
  | a :: cs, 0, c, G, h, hc => by
    rw [genLeL] at h
    simp only [Bool.and_eq_true] at h
    show genLeL G (c :: cs) = true
    rw [genLeL]
    simp only [Bool.and_eq_true]
    exact ⟨hc, h.2⟩
  | a :: cs, i + 1, c, G, h, hc => by
    rw [genLeL] at h
    simp only [Bool.and_eq_true] at h
    rw [List.set]
    rw [genLeL]
    simp only [Bool.and_eq_true]
    exact ⟨h.1, genLeL_set cs i c G h.2 hc⟩

theorem getCh_set_self : ∀ (cs : List CSSNode) (i : Nat) (c : CSSNode),
    i < cs.length → getCh (cs.set i c) i = c
  | [], i, c, h => absurd h (by simp)
  | a :: cs, 0, c, _ => rfl
  | a :: cs, i + 1, c, h => by
    rw [List.set]
    exact getCh_set_self cs i c (Nat.lt_of_succ_lt_succ h)

theorem getCh_set_other : ∀ (cs : List CSSNode) (i j : Nat) (c : CSSNode),
    i ≠ j → getCh (cs.set j c) i = getCh cs i
  | [], _, _, _, _ => rfl
  | a :: cs, 0, 0, c, h => absurd rfl h
  | a :: cs, 0, j + 1, c, _ => rfl
  | a :: cs, i + 1, 0, c, _ => rfl
  | a :: cs, i + 1, j + 1, c, h => by
    rw [List.set]
    exact getCh_set_other cs i j c (fun e => h (congrArg Nat.succ e))

theorem layPresL_getCh : ∀ (as bs : List CSSNode), layPresL as bs →
    ∀ i, layPres (getCh as i) (getCh bs i)
  | [], [], _, i => layPres_refl _
  | [], _ :: _, h, _ => absurd h (by rw [layPresL]; exact not_false)
  | _ :: _, [], h, _ => absurd h (by rw [layPresL]; exact not_false)
  | a :: as, b :: bs, h, 0 => by
    rw [layPresL] at h
    exact h.1
  | a :: as, b :: bs, h, i + 1 => by
    rw [layPresL] at h
    exact layPresL_getCh as bs h.2 i

theorem layPresL_set : ∀ (as bs : List CSSNode) (i : Nat) (c : CSSNode),
    layPresL as bs → layPres (getCh bs i) c → layPresL as (bs.set i c)
  | [], [], _, _, h, _ => h
  | [], _ :: _, _, _, h, _ => absurd h (by rw [layPresL]; exact not_false)
  | _ :: _, [], _, _, h, _ => absurd h (by rw [layPresL]; exact not_false)
  | a :: as, b :: bs, 0, c, h, hc => by
    rw [layPresL] at h
    show layPresL (a :: as) (c :: bs)
    rw [layPresL]
    exact ⟨layPres_trans _ _ _ h.1 hc, h.2⟩
  | a :: as, b :: bs, i + 1, c, h, hc => by
    rw [layPresL] at h
    rw [List.set]
    rw [layPresL]
    exact ⟨h.1, layPresL_set as bs i c h.2 hc⟩

theorem dirtyEqL_getCh : ∀ (as bs : List CSSNode), dirtyEqL as bs →
    ∀ i, dirtyEq (getCh as i) (getCh bs i)
  | [], [], _, i => dirtyEq_refl _
  | [], _ :: _, h, _ => absurd h (by rw [dirtyEqL]; exact not_false)
  | _ :: _, [], h, _ => absurd h (by rw [dirtyEqL]; exact not_false)
  | a :: as, b :: bs, h, 0 => by
    rw [dirtyEqL] at h
    exact h.1
  | a :: as, b :: bs, h, i + 1 => by
    rw [dirtyEqL] at h
    exact dirtyEqL_getCh as bs h.2 i

theorem dirtyEqL_set : ∀ (as bs : List CSSNode) (i : Nat) (c : CSSNode),
    dirtyEqL as bs → dirtyEq (getCh bs i) c → dirtyEqL as (bs.set i c)
  | [], [], _, _, h, _ => h
  | [], _ :: _, _, _, h, _ => absurd h (by rw [dirtyEqL]; exact not_false)
  | _ :: _, [], _, _, h, _ => absurd h (by rw [dirtyEqL]; exact not_false)
  | a :: as, b :: bs, 0, c, h, hc => by
    rw [dirtyEqL] at h
    show dirtyEqL (a :: as) (c :: bs)
    rw [dirtyEqL]
    exact ⟨dirtyEq_trans _ _ _ h.1 hc, h.2⟩
  | a :: as, b :: bs, i + 1, c, h, hc => by
    rw [dirtyEqL] at h
    rw [List.set]
    rw [dirtyEqL]
    exact ⟨h.1, dirtyEqL_set as bs i c h.2 hc⟩

/-! Cosmetic-write transfer lemmas. -/

theorem cosmetic_withData (n : CSSNode) (d' : CSSNodeData)
    (h1 : d'.isDirty = n.data.isDirty) (h2 : d'.style = n.data.style)
    (h3 : d'.measure = n.data.measure) (h4 : d'.isTextNode = n.data.isTextNode)
    (h5 : d'.layout.generationCount = n.data.layout.generationCount)
    (h6 : d'.layout.cachedLayout = n.data.layout.cachedLayout)
    (h7 : d'.layout.cachedMeasurements = n.data.layout.cachedMeasurements) :
    topCosmetic n (n.withData d') := by
  cases n with
  | mk d cs => exact ⟨rfl, h1, h2, h3, h4, h5, h6, h7⟩

theorem topCosmetic_facts : ∀ a b, topCosmetic a b →
    subtreeDirty b = subtreeDirty a ∧ upClosed b = upClosed a ∧
    (∀ g, genOK g b = genOK g a) ∧ (∀ G, genLe G b = genLe G a) ∧
    layPres a b ∧ dirtyEq a b := by
  intro a b h
  obtain ⟨hc, hd, hs, hm, ht, hg, hcl, hcm⟩ := h
  cases a with
  | mk da csa =>
    cases b with
    | mk db csb =>
      simp only [CSSNode.children, CSSNode.data] at hc hd hs hm ht hg hcl hcm
      subst hc
      refine ⟨?_, ?_, ?_, ?_, ?_, ?_⟩
      · rw [subtreeDirty, subtreeDirty, hd]
      · rw [upClosed, upClosed, hd]
      · intro g
        rw [genOK, genOK, hd, hg, hcl]
      · intro G
        rw [genLe, genLe, hg]
      · rw [layPres]
        exact ⟨hs, hm, ht, layPresL_refl _⟩
      · rw [dirtyEq]
        exact ⟨hd, dirtyEqL_refl _⟩

theorem topCosmetic_refl (a : CSSNode) : topCosmetic a a :=
  ⟨rfl, rfl, rfl, rfl, rfl, rfl, rfl, rfl⟩

theorem topCosmetic_trans {a b c : CSSNode} (h1 : topCosmetic a b)
    (h2 : topCosmetic b c) : topCosmetic a c :=
  ⟨h2.1.trans h1.1, h2.2.1.trans h1.2.1, h2.2.2.1.trans h1.2.2.1,
   h2.2.2.2.1.trans h1.2.2.2.1, h2.2.2.2.2.1.trans h1.2.2.2.2.1,
   h2.2.2.2.2.2.1.trans h1.2.2.2.2.2.1,
   h2.2.2.2.2.2.2.1.trans h1.2.2.2.2.2.2.1,
   h2.2.2.2.2.2.2.2.trans h1.2.2.2.2.2.2.2⟩

theorem setPosition_cosmetic (n : CSSNode) (dir : CSSDirection) :
    topCosmetic n (setPosition n dir) := by
  unfold setPosition
  exact cosmetic_withData _ _ rfl rfl rfl rfl rfl rfl rfl

theorem setTrailingPosition_cosmetic (n child : CSSNode) (axis : CSSFlexDirection) :
    topCosmetic child (setTrailingPosition n child axis) := by
  unfold setTrailingPosition
  exact cosmetic_withData _ _ rfl rfl rfl rfl rfl rfl rfl

theorem setMeasuredDims_cosmetic (n : CSSNode) (w h : F) :
    topCosmetic n (setMeasuredDims n w h) := by
  unfold setMeasuredDims
  exact cosmetic_withData _ _ rfl rfl rfl rfl rfl rfl rfl

/-! The `_CSSNodeMarkDirty` machinery preserves and establishes the
upward-closure invariant. -/

theorem markDirtyData_upClosed (d : CSSNodeData) (cs : List CSSNode)
    (h : upClosedL cs = true) : upClosed (.mk (markDirtyData d) cs) = true :=
  upClosed_intro (fun _ => rfl) h

theorem subtreeDirtyL_set_congr :
    ∀ (cs : List CSSNode) (i : Nat) (x c : CSSNode), cs[i]? = some c →
      subtreeDirty x = subtreeDirty c → subtreeDirtyL (cs.set i x) = subtreeDirtyL cs
  | [], i, x, c, h, _ => by simp at h
  | a :: cs, 0, x, c, h, he => by
    simp only [List.getElem?_cons_zero, Option.some.injEq] at h
    subst h
    show subtreeDirtyL (x :: cs) = subtreeDirtyL (a :: cs)
    rw [subtreeDirtyL, subtreeDirtyL, he]
  | a :: cs, i + 1, x, c, h, he => by
    simp only [List.getElem?_cons_succ] at h
    show subtreeDirtyL (a :: cs.set i x) = subtreeDirtyL (a :: cs)
    rw [subtreeDirtyL, subtreeDirtyL, subtreeDirtyL_set_congr cs i x c h he]

theorem subtreeDirtyL_of_mem_dirty :
    ∀ (cs : List CSSNode) (i : Nat) (c : CSSNode), cs[i]? = some c →
      subtreeDirty c = true → subtreeDirtyL cs = true
  | [], i, c, h, _ => by simp at h
  | a :: cs, 0, c, h, hd => by
    simp only [List.getElem?_cons_zero, Option.some.injEq] at h
    subst h
    rw [subtreeDirtyL, hd, Bool.true_or]
  | a :: cs, i + 1, c, h, hd => by
    simp only [List.getElem?_cons_succ] at h
    rw [subtreeDirtyL, subtreeDirtyL_of_mem_dirty cs i c h hd, Bool.or_true]

theorem upClosedL_getElem? :
    ∀ (cs : List CSSNode) (i : Nat) (c : CSSNode), cs[i]? = some c →
      upClosedL cs = true → upClosed c = true
  | [], i, c, h, _ => by simp at h
  | a :: cs, 0, c, h, hu => by
    simp only [List.getElem?_cons_zero, Option.some.injEq] at h
    subst h
    rw [upClosedL] at hu
    exact ((Bool.and_eq_true _ _).mp hu).1
  | a :: cs, i + 1, c, h, hu => by
    simp only [List.getElem?_cons_succ] at h
    rw [upClosedL] at hu
    exact upClosedL_getElem? cs i c h ((Bool.and_eq_true _ _).mp hu).2

theorem upClosedL_set' :
    ∀ (cs : List CSSNode) (i : Nat) (x : CSSNode), upClosedL cs = true →
      upClosed x = true → upClosedL (cs.set i x) = true :=
  upClosedL_set

theorem getElem?_lt : ∀ (cs : List CSSNode) (i : Nat) (c : CSSNode),
    cs[i]? = some c → i < cs.length
  | [], i, c, h => by simp at h
  | a :: cs, 0, c, _ => Nat.succ_pos _
  | a :: cs, i + 1, c, h => by
    simp only [List.getElem?_cons_succ] at h
    exact Nat.succ_lt_succ (getElem?_lt cs i c h)

theorem getElem?_set_self : ∀ (cs : List CSSNode) (i : Nat) (x : CSSNode),
    i < cs.length → (cs.set i x)[i]? = some x
  | [], i, x, h => absurd h (by simp)
  | a :: cs, 0, x, _ => by
    show (x :: cs)[0]? = some x
    simp
  | a :: cs, i + 1, x, h => by
    show (a :: cs.set i x)[i + 1]? = some x
    simp only [List.getElem?_cons_succ]
    exact getElem?_set_self cs i x (Nat.lt_of_succ_lt_succ h)

theorem set_set : ∀ (cs : List CSSNode) (i : Nat) (x y : CSSNode),
    (cs.set i x).set i y = cs.set i y
  | [], _, _, _ => rfl
  | a :: cs, 0, x, y => rfl
  | a :: cs, i + 1, x, y => by
    show a :: (cs.set i x).set i y = a :: cs.set i y
    rw [set_set cs i x y]

theorem subtreeDirty_of_dirty : ∀ (n : CSSNode), n.data.isDirty = true →
    subtreeDirty n = true
  | .mk d cs, h => by
    simp only [CSSNode.data] at h
    rw [subtreeDirty, h, Bool.true_or]

/-- The core mark-dirty lemma: marking at `p` after an in-place rewrite `f`
of the node at `p` (whose rewrite keeps the dirty flag and leaves
well-closed children) preserves upward closure; when the propagation flag
comes back `false`, either no subtree dirtiness was created or the root was
already dirty. -/
theorem markAfter_upClosed (f : CSSNode → CSSNode)
    (Hf : ∀ m, upClosed m = true →
      upClosedL (f m).children = true ∧ (f m).data.isDirty = m.data.isDirty) :
    ∀ (p : List Nat) (n : CSSNode), upClosed n = true →
      upClosed (markDirtyGo (n.modifyAt p f) p).1 = true ∧
      ((markDirtyGo (n.modifyAt p f) p).2 = false →
        subtreeDirty (markDirtyGo (n.modifyAt p f) p).1 = subtreeDirty n ∨
        n.data.isDirty = true)
  | [], n, h => by
    have hf := Hf n h
    rw [CSSNode.modifyAt]
    cases hfn : f n with
    | mk d cs =>
      rw [hfn] at hf
      simp only [CSSNode.children, CSSNode.data] at hf
      rw [markDirtyGo]
      simp only [CSSNode.data]
      cases hd : d.isDirty
      · simp only [Bool.false_eq_true, if_false]
        refine ⟨markDirtyData_upClosed d cs hf.1, fun hfl => ?_⟩
        simp at hfl
      · simp only [if_true]
        refine ⟨upClosed_intro (fun _ => hd) hf.1, fun _ => Or.inr ?_⟩
        rw [← hf.2]
        exact hd
  | i :: p, n, h => by
    cases n with
    | mk d cs =>
      have hparts := upClosed_parts h
      rw [CSSNode.modifyAt]
      simp only [CSSNode.children]
      cases hci : cs[i]? with
      | none =>
        rw [markDirtyGo]
        simp only [CSSNode.children, hci]
        exact ⟨h, fun _ => Or.inl trivial⟩
      | some c =>
        have hlt := getElem?_lt cs i c hci
        have hcu : upClosed c = true := upClosedL_getElem? cs i c hci hparts.2
        have IH := markAfter_upClosed f Hf p c hcu
        simp only [CSSNode.withChildren]
        rw [markDirtyGo]
        simp only [CSSNode.children,
          getElem?_set_self cs i (c.modifyAt p f) hlt]
        generalize hr : markDirtyGo (c.modifyAt p f) p = r at IH ⊢
        obtain ⟨r1, r2⟩ := r
        simp only at IH
        simp only [CSSNode.withChildren, CSSNode.children, CSSNode.data, CSSNode.withData,
          set_set cs i (c.modifyAt p f) r1]
        have hup : upClosedL (cs.set i r1) = true := upClosedL_set cs i r1 hparts.2 IH.1
        cases r2 with
        | false =>
          simp only [Bool.false_eq_true, if_false]
          rcases IH.2 rfl with hsub | hdc
          · have hcong := subtreeDirtyL_set_congr cs i r1 c hci hsub
            refine ⟨upClosed_intro (fun hs => hparts.1 (hcong ▸ hs)) hup, fun _ => Or.inl ?_⟩
            rw [subtreeDirty, subtreeDirty, hcong]
          · have hdd : d.isDirty = true :=
              hparts.1 (subtreeDirtyL_of_mem_dirty cs i c hci (subtreeDirty_of_dirty c hdc))
            exact ⟨upClosed_intro (fun _ => hdd) hup, fun _ => Or.inr hdd⟩
        | true =>
          simp only [if_true]
          cases hd : d.isDirty
          · simp only [Bool.false_eq_true, if_false]
            refine ⟨markDirtyData_upClosed d (cs.set i r1) hup, fun hfl => ?_⟩
            simp at hfl
          · simp only [if_true]
            exact ⟨upClosed_intro (fun _ => hd) hup, fun _ => Or.inr trivial⟩

theorem getCh_eq (cs : List CSSNode) (i : Nat) (c : CSSNode) (h : cs[i]? = some c) :
    getCh cs i = c := by
  rw [getCh, List.getD_eq_getElem?_getD, h]
  rfl

theorem genLe_parts {d : CSSNodeData} {cs : List CSSNode} {G : Nat}
    (h : genLe G (.mk d cs) = true) :
    d.layout.generationCount ≤ G ∧ genLeL G cs = true := by
  rw [genLe] at h
  simp only [Bool.and_eq_true, decide_eq_true_eq] at h
  exact h

theorem genLe_intro {d : CSSNodeData} {cs : List CSSNode} {G : Nat}
    (h1 : d.layout.generationCount ≤ G) (h2 : genLeL G cs = true) :
    genLe G (.mk d cs) = true := by
  rw [genLe]
  simp only [Bool.and_eq_true, decide_eq_true_eq]
  exact ⟨h1, h2⟩

theorem genLeL_getElem? : ∀ (cs : List CSSNode) (i : Nat) (c : CSSNode) (G : Nat),
    cs[i]? = some c → genLeL G cs = true → genLe G c = true := by
  intro cs i c G h hl
  rw [← getCh_eq cs i c h]
  exact genLeL_getCh cs i G hl

theorem markDirtyGo_genLe : ∀ (p : List Nat) (n : CSSNode) (G : Nat),
    genLe G n = true → genLe G (markDirtyGo n p).1 = true
  | [], .mk d cs, G, h => by
    rw [markDirtyGo]
    simp only [CSSNode.data]
    cases hd : d.isDirty
    · simp only [Bool.false_eq_true, if_false, CSSNode.withData, CSSNode.data]
      have hp := genLe_parts h
      exact genLe_intro hp.1 hp.2
    · simpa using h
  | i :: p, .mk d cs, G, h => by
    rw [markDirtyGo]
    simp only [CSSNode.children]
    cases hci : cs[i]? with
    | none => simpa using h
    | some c =>
      have hp := genLe_parts h
      have hc : genLe G c = true := genLeL_getElem? cs i c G hci hp.2
      have IH := markDirtyGo_genLe p c G hc
      simp only [CSSNode.withChildren, CSSNode.children, CSSNode.data, CSSNode.withData]
      generalize markDirtyGo c p = r at IH ⊢
      obtain ⟨r1, r2⟩ := r
      simp only at IH
      have hset : genLeL G (cs.set i r1) = true := genLeL_set cs i r1 G hp.2 IH
      cases r2
      · simpa using genLe_intro hp.1 hset
      · simp only [if_true]
        cases hd : d.isDirty
        · simp only [Bool.false_eq_true, if_false]
          exact genLe_intro hp.1 hset
        · simp only [if_true]
          exact genLe_intro hp.1 hset

theorem modifyAt_genLe (f : CSSNode → CSSNode) (G : Nat)
    (Hf : ∀ m, genLe G m = true → genLe G (f m) = true) :
    ∀ (p : List Nat) (n : CSSNode),
      genLe G n = true → genLe G (n.modifyAt p f) = true
  | [], n, h => by
    rw [CSSNode.modifyAt]
    exact Hf n h
  | i :: p, .mk d cs, h => by
    rw [CSSNode.modifyAt]
    simp only [CSSNode.children]
    cases hci : cs[i]? with
    | none => exact h
    | some c =>
      have hp := genLe_parts h
      have hc : genLe G c = true := genLeL_getElem? cs i c G hci hp.2
      simp only [CSSNode.withChildren]
      exact genLe_intro hp.1 (genLeL_set cs i _ G hp.2 (modifyAt_genLe f G Hf p c hc))

theorem modifyAt_neutral (f : CSSNode → CSSNode)
    (Hf : ∀ m, subtreeDirty (f m) = subtreeDirty m ∧
      (upClosed m = true → upClosed (f m) = true)) :
    ∀ (p : List Nat) (n : CSSNode), upClosed n = true →
      upClosed (n.modifyAt p f) = true ∧ subtreeDirty (n.modifyAt p f) = subtreeDirty n
  | [], n, h => by
    rw [CSSNode.modifyAt]
    exact ⟨(Hf n).2 h, (Hf n).1⟩
  | i :: p, .mk d cs, h => by
    rw [CSSNode.modifyAt]
    simp only [CSSNode.children]
    cases hci : cs[i]? with
    | none => exact ⟨h, rfl⟩
    | some c =>
      have hparts := upClosed_parts h
      have hcu : upClosed c = true := upClosedL_getElem? cs i c hci hparts.2
      have IH := modifyAt_neutral f Hf p c hcu
      simp only [CSSNode.withChildren]
      have hcong := subtreeDirtyL_set_congr cs i (c.modifyAt p f) c hci IH.2
      constructor
      · exact upClosed_intro (fun hs => hparts.1 (hcong ▸ hs))
          (upClosedL_set cs i _ hparts.2 IH.1)
      · rw [subtreeDirty, subtreeDirty, hcong]
        rfl

theorem prefix_cons_cases {q : List Nat} {i : Nat} {p : List Nat}
    (h : q <+: (i :: p)) : q = [] ∨ ∃ q', q = i :: q' ∧ q' <+: p := by
  cases q with
  | nil => exact Or.inl rfl
  | cons j q' =>
    obtain ⟨t, ht⟩ := h
    simp only [List.cons_append, List.cons.injEq] at ht
    exact Or.inr ⟨q', by rw [ht.1], ⟨t, ht.2⟩⟩

theorem getAt?_cons (d : CSSNodeData) (cs : List CSSNode) (i : Nat) (q : List Nat) :
    (CSSNode.mk d cs).getAt? (i :: q) =
      match cs[i]? with
      | none => none
      | some c => c.getAt? q := by
  rw [CSSNode.getAt?]
  rfl

theorem upClosedL_children (m : CSSNode) (hm : upClosed m = true) :
    upClosedL m.children = true := by
  cases m with
  | mk d cs => exact (upClosed_parts hm).2

/-- Marking after an in-place rewrite that keeps the children list and the
dirty flag: with a valid path on a well-closed tree, the node at the path
and every node above it end dirty. -/
theorem markAfter_prefix_dirty (f : CSSNode → CSSNode)
    (Hf : ∀ m, (f m).children = m.children ∧ (f m).data.isDirty = m.data.isDirty) :
    ∀ (p : List Nat) (n : CSSNode) (c0 : CSSNode), upClosed n = true →
      n.getAt? p = some c0 →
      (markDirtyGo (n.modifyAt p f) p).1.data.isDirty = true ∧
      (∀ q, q <+: p →
        ((markDirtyGo (n.modifyAt p f) p).1.getAt? q).map (fun m => m.data.isDirty) =
          some true)
  | [], n, c0, h, _ => by
    rw [CSSNode.modifyAt]
    cases hfn : f n with
    | mk d cs =>
      rw [markDirtyGo]
      simp only [CSSNode.data]
      cases hd : d.isDirty
      · simp only [Bool.false_eq_true, if_false]
        constructor
        · rfl
        · intro q hq
          rw [List.prefix_nil.mp hq, CSSNode.getAt?]
          simp only [Option.map]
          rfl
      · simp only [if_true]
        constructor
        · exact hd
        · intro q hq
          rw [List.prefix_nil.mp hq, CSSNode.getAt?]
          simp only [Option.map]
          exact congrArg some hd
  | i :: p, n, c0, h, hv => by
    cases n with
    | mk d cs =>
      have hparts := upClosed_parts h
      rw [getAt?_cons] at hv
      cases hci : cs[i]? with
      | none =>
        rw [hci] at hv
        cases hv
      | some c =>
        rw [hci] at hv
        have hlt := getElem?_lt cs i c hci
        have hcu : upClosed c = true := upClosedL_getElem? cs i c hci hparts.2
        have IH := markAfter_prefix_dirty f Hf p c c0 hcu hv
        have IHu := markAfter_upClosed f
          (fun m hm => ⟨by rw [(Hf m).1]; exact upClosedL_children m hm, (Hf m).2⟩)
          p c hcu
        rw [CSSNode.modifyAt]
        simp only [CSSNode.children]
        rw [hci]
        simp only [CSSNode.withChildren]
        rw [markDirtyGo]
        simp only [CSSNode.children, getElem?_set_self cs i (c.modifyAt p f) hlt]
        generalize hr : markDirtyGo (c.modifyAt p f) p = r at IH IHu ⊢
        obtain ⟨r1, r2⟩ := r
        simp only at IH IHu
        simp only [CSSNode.withChildren, CSSNode.children, CSSNode.data, CSSNode.withData,
          set_set cs i (c.modifyAt p f) r1]
        have hchild : ∀ (d' : CSSNodeData) (q : List Nat), q <+: (i :: p) →
            q = [] ∨
            ((CSSNode.mk d' (cs.set i r1)).getAt? q).map (fun m => m.data.isDirty) =
              some true := by
          intro d' q hq
          rcases prefix_cons_cases hq with hq0 | ⟨q', hq1, hq2⟩
          · exact Or.inl hq0
          · subst hq1
            refine Or.inr ?_
            rw [getAt?_cons, getElem?_set_self cs i r1 hlt]
            exact IH.2 q' hq2
        have htop : ∀ (d' : CSSNodeData), d'.isDirty = true → ∀ q, q <+: (i :: p) →
            ((CSSNode.mk d' (cs.set i r1)).getAt? q).map (fun m => m.data.isDirty) =
              some true := by
          intro d' hd' q hq
          rcases hchild d' q hq with hq0 | done
          · subst hq0
            rw [CSSNode.getAt?]
            simp [CSSNode.data, hd']
          · exact done
        cases r2 with
        | false =>
          have hdd : d.isDirty = true := by
            rcases IHu.2 rfl with hsub | hdc
            · refine hparts.1 (subtreeDirtyL_of_mem_dirty cs i c hci ?_)
              rw [← hsub]
              exact subtreeDirty_of_dirty r1 IH.1
            · exact hparts.1 (subtreeDirtyL_of_mem_dirty cs i c hci
                (subtreeDirty_of_dirty c hdc))
          simp only [Bool.false_eq_true, if_false]
          exact ⟨hdd, htop d hdd⟩
        | true =>
          simp only [if_true]
          cases hd : d.isDirty
          · simp only [Bool.false_eq_true, if_false]
            exact ⟨rfl, htop (markDirtyData d) rfl⟩
          · simp only [if_true]
            exact ⟨hd, htop d hd⟩

theorem withData_children (m : CSSNode) (d' : CSSNodeData) :
    (m.withData d').children = m.children := by
  cases m
  rfl

mutual
theorem genLe_mono : ∀ (n : CSSNode) (g G : Nat), g ≤ G →
    genLe g n = true → genLe G n = true
  | .mk d cs, g, G, hle, h => by
    have hp := genLe_parts h
    exact genLe_intro (le_trans hp.1 hle) (genLeL_mono cs g G hle hp.2)

theorem genLeL_mono : ∀ (cs : List CSSNode) (g G : Nat), g ≤ G →
    genLeL g cs = true → genLeL G cs = true
  | [], _, _, _, h => h
  | c :: cs, g, G, hle, h => by
    rw [genLeL] at h ⊢
    simp only [Bool.and_eq_true] at h ⊢
    exact ⟨genLe_mono c g G hle h.1, genLeL_mono cs g G hle h.2⟩
end

theorem set_getElem?_eq : ∀ (cs : List CSSNode) (i : Nat) (c : CSSNode),
    cs[i]? = some c → cs.set i c = cs
  | [], _, _, _ => rfl
  | a :: cs, 0, c, h => by
    simp only [List.getElem?_cons_zero, Option.some.injEq] at h
    rw [← h]
    rfl
  | a :: cs, i + 1, c, h => by
    simp only [List.getElem?_cons_succ] at h
    show a :: cs.set i c = a :: cs
    rw [set_getElem?_eq cs i c h]

theorem modifyAt_id : ∀ (p : List Nat) (n : CSSNode), n.modifyAt p (fun m => m) = n
  | [], _ => rfl
  | i :: p, .mk d cs => by
    rw [CSSNode.modifyAt]
    simp only [CSSNode.children]
    cases hci : cs[i]? with
    | none => rfl
    | some c =>
      simp only [CSSNode.withChildren]
      rw [modifyAt_id p c, set_getElem?_eq cs i c hci]
      rfl

theorem upClosedL_insertIdx : ∀ (cs : List CSSNode) (i : Nat) (c : CSSNode),
    upClosedL cs = true → upClosed c = true → upClosedL (cs.insertIdx i c) = true
  | cs, 0, c, h, hc => by
    show upClosedL (c :: cs) = true
    rw [upClosedL]
    simp only [Bool.and_eq_true]
    exact ⟨hc, h⟩
  | [], i + 1, c, h, _ => h
  | a :: cs, i + 1, c, h, hc => by
    show upClosedL (a :: cs.insertIdx i c) = true
    rw [upClosedL] at h ⊢
    simp only [Bool.and_eq_true] at h ⊢
    exact ⟨h.1, upClosedL_insertIdx cs i c h.2 hc⟩

theorem genLeL_insertIdx : ∀ (cs : List CSSNode) (i : Nat) (c : CSSNode) (G : Nat),
    genLeL G cs = true → genLe G c = true → genLeL G (cs.insertIdx i c) = true
  | cs, 0, c, G, h, hc => by
    show genLeL G (c :: cs) = true
    rw [genLeL]
    simp only [Bool.and_eq_true]
    exact ⟨hc, h⟩
  | [], i + 1, c, G, h, _ => h
  | a :: cs, i + 1, c, G, h, hc => by
    show genLeL G (a :: cs.insertIdx i c) = true
    rw [genLeL] at h ⊢
    simp only [Bool.and_eq_true] at h ⊢
    exact ⟨h.1, genLeL_insertIdx cs i c G h.2 hc⟩

theorem upClosedL_eraseIdx : ∀ (cs : List CSSNode) (i : Nat),
    upClosedL cs = true → upClosedL (cs.eraseIdx i) = true
  | [], _, h => h
  | a :: cs, 0, h => by
    rw [upClosedL] at h
    exact ((Bool.and_eq_true _ _).mp h).2
  | a :: cs, i + 1, h => by
    show upClosedL (a :: cs.eraseIdx i) = true
    rw [upClosedL] at h ⊢
    simp only [Bool.and_eq_true] at h ⊢
    exact ⟨h.1, upClosedL_eraseIdx cs i h.2⟩

theorem genLeL_eraseIdx : ∀ (cs : List CSSNode) (i : Nat) (G : Nat),
    genLeL G cs = true → genLeL G (cs.eraseIdx i) = true
  | [], _, _, h => h
  | a :: cs, 0, G, h => by
    rw [genLeL] at h
    exact ((Bool.and_eq_true _ _).mp h).2
  | a :: cs, i + 1, G, h => by
    show genLeL G (a :: cs.eraseIdx i) = true
    rw [genLeL] at h ⊢
    simp only [Bool.and_eq_true] at h ⊢
    exact ⟨h.1, genLeL_eraseIdx cs i G h.2⟩

theorem dirty_children_transfer (a b : CSSNode) (hc : b.children = a.children)
    (hd : b.data.isDirty = a.data.isDirty) :
    subtreeDirty b = subtreeDirty a ∧ upClosed b = upClosed a := by
  cases a with
  | mk da csa =>
    cases b with
    | mk db csb =>
      simp only [CSSNode.children, CSSNode.data] at hc hd
      subst hc
      constructor
      · rw [subtreeDirty, subtreeDirty, hd]
      · rw [upClosed, upClosed, hd]

theorem gen_children_transfer (a b : CSSNode) (hc : b.children = a.children)
    (hg : b.data.layout.generationCount = a.data.layout.generationCount) (G : Nat) :
    genLe G b = genLe G a := by
  cases a with
  | mk da csa =>
    cases b with
    | mk db csb =>
      simp only [CSSNode.children, CSSNode.data] at hc hg
      subst hc
      rw [genLe, genLe, hg]

theorem styleWrite_mark_inv (setS : CSSStyle → CSSStyle) (p : List Nat) (n : CSSNode)
    (g : Nat) (hu : upClosed n = true) (hg : genLe g n = true) :
    upClosed (markDirtyAt
      (n.modifyAt p fun m => m.withData { m.data with style := setS m.data.style }) p)
      = true ∧
    genLe g (markDirtyAt
      (n.modifyAt p fun m => m.withData { m.data with style := setS m.data.style }) p)
      = true := by
  rw [markDirtyAt]
  constructor
  · exact (markAfter_upClosed
      (fun m => m.withData { m.data with style := setS m.data.style })
      (fun m hm => ⟨by rw [withData_children]; exact upClosedL_children m hm,
        by cases m; rfl⟩) p n hu).1
  · refine markDirtyGo_genLe p _ g (modifyAt_genLe _ g ?_ p n hg)
    intro m hm
    rw [gen_children_transfer m (m.withData { m.data with style := setS m.data.style })
      (withData_children m _) (by cases m; rfl) g]
    exact hm

theorem styleSetFloat_inv (fld : FloatField) (p : List Nat) (v : F) (n : CSSNode)
    (g : Nat) (hu : upClosed n = true) (hg : genLe g n = true) :
    upClosed (styleSetFloat fld n p v) = true ∧
    genLe g (styleSetFloat fld n p v) = true := by
  unfold styleSetFloat
  split
  · exact ⟨hu, hg⟩
  · split
    · exact styleWrite_mark_inv (fld.set v) p n g hu hg
    · exact ⟨hu, hg⟩

theorem styleSetEnum_inv {α : Type} [DecidableEq α] (fld : EnumField α)
    (p : List Nat) (v : α) (n : CSSNode) (g : Nat)
    (hu : upClosed n = true) (hg : genLe g n = true) :
    upClosed (styleSetEnum fld n p v) = true ∧
    genLe g (styleSetEnum fld n p v) = true := by
  unfold styleSetEnum
  split
  · exact ⟨hu, hg⟩
  · split
    · exact styleWrite_mark_inv (fld.set v) p n g hu hg
    · exact ⟨hu, hg⟩

theorem setFlex_inv (p : List Nat) (v : F) (n : CSSNode) (g : Nat)
    (hu : upClosed n = true) (hg : genLe g n = true) :
    upClosed (CSSNodeStyleSetFlex n p v) = true ∧
    genLe g (CSSNodeStyleSetFlex n p v) = true := by
  unfold CSSNodeStyleSetFlex
  split
  · obtain ⟨h1, h2⟩ := styleSetFloat_inv flexGrowField p (some 0) n g hu hg
    obtain ⟨h3, h4⟩ := styleSetFloat_inv flexShrinkField p (some 0) _ g h1 h2
    exact styleSetFloat_inv flexBasisField p CSSUndefined _ g h3 h4
  · split
    · obtain ⟨h1, h2⟩ := styleSetFloat_inv flexGrowField p v n g hu hg
      obtain ⟨h3, h4⟩ := styleSetFloat_inv flexShrinkField p (some 0) _ g h1 h2
      exact styleSetFloat_inv flexBasisField p (some 0) _ g h3 h4
    · obtain ⟨h1, h2⟩ := styleSetFloat_inv flexGrowField p (some 0) n g hu hg
      obtain ⟨h3, h4⟩ := styleSetFloat_inv flexShrinkField p (fneg v) _ g h1 h2
      exact styleSetFloat_inv flexBasisField p CSSUndefined _ g h3 h4

theorem markDirtyAt_inv (p : List Nat) (n : CSSNode) (g : Nat)
    (hu : upClosed n = true) (hg : genLe g n = true) :
    upClosed (markDirtyAt n p) = true ∧ genLe g (markDirtyAt n p) = true := by
  rw [markDirtyAt]
  constructor
  · have := (markAfter_upClosed (fun m => m)
      (fun m hm => ⟨upClosedL_children m hm, rfl⟩) p n hu).1
    rwa [modifyAt_id] at this
  · exact markDirtyGo_genLe p n g hg

theorem insertChild_inv (p : List Nat) (c : CSSNode) (i : Nat) (n : CSSNode) (g : Nat)
    (hu : upClosed n = true) (hg : genLe g n = true)
    (huc : upClosed c = true) (hgc : genLe g c = true) :
    upClosed (CSSNodeInsertChild n p c i) = true ∧
    genLe g (CSSNodeInsertChild n p c i) = true := by
  unfold CSSNodeInsertChild
  rw [markDirtyAt]
  constructor
  · exact (markAfter_upClosed
      (fun m => m.withChildren (m.children.insertIdx i c))
      (fun m hm => by
        cases m with
        | mk d cs =>
          refine ⟨?_, rfl⟩
          simp only [CSSNode.withChildren, CSSNode.children]
          exact upClosedL_insertIdx cs i c (upClosed_parts hm).2 huc) p n hu).1
  · refine markDirtyGo_genLe p _ g (modifyAt_genLe _ g ?_ p n hg)
    intro m hm
    cases m with
    | mk d cs =>
      have hp := genLe_parts hm
      exact genLe_intro hp.1 (genLeL_insertIdx cs i c g hp.2 hgc)

theorem removeChild_inv (p : List Nat) (i : Nat) (n : CSSNode) (g : Nat)
    (hu : upClosed n = true) (hg : genLe g n = true) :
    upClosed (CSSNodeRemoveChild n p i) = true ∧
    genLe g (CSSNodeRemoveChild n p i) = true := by
  unfold CSSNodeRemoveChild
  rw [markDirtyAt]
  constructor
  · exact (markAfter_upClosed
      (fun m => m.withChildren (m.children.eraseIdx i))
      (fun m hm => by
        cases m with
        | mk d cs =>
          refine ⟨?_, rfl⟩
          simp only [CSSNode.withChildren, CSSNode.children]
          exact upClosedL_eraseIdx cs i (upClosed_parts hm).2) p n hu).1
  · refine markDirtyGo_genLe p _ g (modifyAt_genLe _ g ?_ p n hg)
    intro m hm
    cases m with
    | mk d cs =>
      have hp := genLe_parts hm
      exact genLe_intro hp.1 (genLeL_eraseIdx cs i g hp.2)

theorem accessor_inv (f : CSSNode → CSSNode)
    (Hc : ∀ m, (f m).children = m.children)
    (Hd : ∀ m, (f m).data.isDirty = m.data.isDirty)
    (Hg : ∀ m, (f m).data.layout.generationCount = m.data.layout.generationCount)
    (p : List Nat) (n : CSSNode) (g : Nat)
    (hu : upClosed n = true) (hg : genLe g n = true) :
    upClosed (n.modifyAt p f) = true ∧ genLe g (n.modifyAt p f) = true := by
  constructor
  · exact (modifyAt_neutral f (fun m =>
      ⟨(dirty_children_transfer m (f m) (Hc m) (Hd m)).1,
       fun hm => by rw [(dirty_children_transfer m (f m) (Hc m) (Hd m)).2]; exact hm⟩)
      p n hu).1
  · refine modifyAt_genLe f g ?_ p n hg
    intro m hm
    rw [gen_children_transfer m (f m) (Hc m) (Hg m) g]
    exact hm

/-! Wrapper-phase facts for the layout preservation proof. -/

theorem genOK_parts {d : CSSNodeData} {cs : List CSSNode} {g : Nat}
    (h : genOK g (.mk d cs) = true) :
    (d.isDirty = true → d.layout.generationCount = g →
      d.layout.cachedLayout.widthMeasureMode = none) ∧ genOKL g cs = true := by
  rw [genOK] at h
  simp only [Bool.and_eq_true, Bool.or_eq_true, Bool.not_eq_true', decide_eq_true_eq,
    Option.isNone_iff_eq_none] at h
  refine ⟨fun hd hg => ?_, h.2⟩
  rcases h.1 with (h1 | h1) | h1
  · rw [hd] at h1; cases h1
  · exact absurd hg h1
  · exact h1

theorem genOK_intro {d : CSSNodeData} {cs : List CSSNode} {g : Nat}
    (h1 : d.isDirty = false ∨ d.layout.generationCount ≠ g ∨
      d.layout.cachedLayout.widthMeasureMode = none)
    (h2 : genOKL g cs = true) : genOK g (.mk d cs) = true := by
  rw [genOK]
  simp only [Bool.and_eq_true, Bool.or_eq_true, Bool.not_eq_true', decide_eq_true_eq,
    Option.isNone_iff_eq_none]
  refine ⟨?_, h2⟩
  rcases h1 with h1 | h1 | h1
  · exact Or.inl (Or.inl h1)
  · exact Or.inl (Or.inr h1)
  · exact Or.inr h1

theorem layPres_of_fields (a b : CSSNode) (hc : b.children = a.children)
    (hs : b.data.style = a.data.style) (hm : b.data.measure = a.data.measure)
    (ht : b.data.isTextNode = a.data.isTextNode) : layPres a b := by
  cases a with
  | mk da csa =>
    cases b with
    | mk db csb =>
      simp only [CSSNode.children, CSSNode.data] at hc hs hm ht
      subst hc
      rw [layPres]
      exact ⟨hs, hm, ht, layPresL_refl _⟩

theorem dirtyEq_of_fields (a b : CSSNode) (hc : b.children = a.children)
    (hd : b.data.isDirty = a.data.isDirty) : dirtyEq a b := by
  cases a with
  | mk da csa =>
    cases b with
    | mk db csb =>
      simp only [CSSNode.children, CSSNode.data] at hc hd
      subst hc
      rw [dirtyEq]
      exact ⟨hd, dirtyEqL_refl _⟩

theorem upClosed_parts' (n : CSSNode) (h : upClosed n = true) :
    (subtreeDirtyL n.children = true → n.data.isDirty = true) ∧
    upClosedL n.children = true := by
  cases n with
  | mk d cs => exact upClosed_parts h

theorem genOK_parts' (n : CSSNode) (g : Nat) (h : genOK g n = true) :
    (n.data.isDirty = true → n.data.layout.generationCount = g →
      n.data.layout.cachedLayout.widthMeasureMode = none) ∧
    genOKL g n.children = true := by
  cases n with
  | mk d cs => exact genOK_parts h

theorem genOK_intro' (n : CSSNode) (g : Nat)
    (h1 : n.data.isDirty = false ∨ n.data.layout.generationCount ≠ g ∨
      n.data.layout.cachedLayout.widthMeasureMode = none)
    (h2 : genOKL g n.children = true) : genOK g n = true := by
  cases n with
  | mk d cs => exact genOK_intro h1 h2

theorem genLe_parts' (n : CSSNode) (G : Nat) (h : genLe G n = true) :
    n.data.layout.generationCount ≤ G ∧ genLeL G n.children = true := by
  cases n with
  | mk d cs => exact genLe_parts h

theorem genLe_intro' (n : CSSNode) (G : Nat)
    (h1 : n.data.layout.generationCount ≤ G) (h2 : genLeL G n.children = true) :
    genLe G n = true := by
  cases n with
  | mk d cs => exact genLe_intro h1 h2

theorem upClosed_intro' (n : CSSNode)
    (h1 : subtreeDirtyL n.children = true → n.data.isDirty = true)
    (h2 : upClosedL n.children = true) : upClosed n = true := by
  cases n with
  | mk d cs => exact upClosed_intro h1 h2

theorem subtreeDirty_parts (n : CSSNode) :
    subtreeDirty n = (n.data.isDirty || subtreeDirtyL n.children) := by
  cases n with
  | mk d cs =>
    rw [subtreeDirty]
    rfl

theorem needToVisit_false {n : CSSNode} {pd : CSSDirection} {g : Nat}
    (h : needToVisitNode n pd g = false) :
    (n.data.isDirty = true → n.data.layout.generationCount = g) ∧
    n.data.layout.lastParentDirection = some pd := by
  unfold needToVisitNode at h
  simp only [Bool.or_eq_false_iff, Bool.and_eq_false_iff, decide_eq_false_iff_not,
    not_not] at h
  refine ⟨fun hd => ?_, h.2⟩
  rcases h.1 with h1 | h1
  · rw [hd] at h1; cases h1
  · exact h1

theorem hitAdopt_data (n : CSSNode) (e : CSSCachedMeasurement) (pl : Bool) (g : Nat) :
    (hitAdopt n e pl g).children = n.children ∧
    (hitAdopt n e pl g).data.style = n.data.style ∧
    (hitAdopt n e pl g).data.measure = n.data.measure ∧
    (hitAdopt n e pl g).data.isTextNode = n.data.isTextNode ∧
    (hitAdopt n e pl g).data.isDirty = (if pl then false else n.data.isDirty) ∧
    (hitAdopt n e pl g).data.layout.generationCount = g ∧
    (hitAdopt n e pl g).data.layout.cachedLayout = n.data.layout.cachedLayout ∧
    (hitAdopt n e pl g).data.layout.cachedMeasurements
      = n.data.layout.cachedMeasurements := by
  cases n with
  | mk d cs =>
    cases pl <;>
      simp [hitAdopt, CSSNode.withData, CSSNode.data, CSSNode.children]

theorem postImpl_data (nI : CSSNode) (storeIt : Bool) (aw ah : F)
    (wm hm : CSSMeasureMode) (pl : Bool) (pd : CSSDirection) (g : Nat) :
    (postImpl nI storeIt aw ah wm hm pl pd g).children = nI.children ∧
    (postImpl nI storeIt aw ah wm hm pl pd g).data.style = nI.data.style ∧
    (postImpl nI storeIt aw ah wm hm pl pd g).data.measure = nI.data.measure ∧
    (postImpl nI storeIt aw ah wm hm pl pd g).data.isTextNode = nI.data.isTextNode ∧
    (postImpl nI storeIt aw ah wm hm pl pd g).data.isDirty
      = (if pl then false else nI.data.isDirty) ∧
    (postImpl nI storeIt aw ah wm hm pl pd g).data.layout.generationCount = g ∧
    (pl = false → (postImpl nI storeIt aw ah wm hm pl pd g).data.layout.cachedLayout
      = nI.data.layout.cachedLayout) := by
  cases nI with
  | mk d cs =>
    cases pl <;> cases storeIt <;>
      simp [postImpl, storeCacheEntry, CSSNode.withData, CSSNode.data, CSSNode.children,
        apply_ite]

theorem wrapperEntry_data (n : CSSNode) (pd : CSSDirection) (g : Nat) :
    (wrapperEntry n pd g).children = n.children ∧
    (wrapperEntry n pd g).data.style = n.data.style ∧
    (wrapperEntry n pd g).data.measure = n.data.measure ∧
    (wrapperEntry n pd g).data.isTextNode = n.data.isTextNode ∧
    (wrapperEntry n pd g).data.isDirty = n.data.isDirty ∧
    (wrapperEntry n pd g).data.layout.generationCount
      = n.data.layout.generationCount ∧
    (needToVisitNode n pd g = true →
      (wrapperEntry n pd g).data.layout.cachedLayout.widthMeasureMode = none) := by
  cases n with
  | mk d cs =>
    unfold wrapperEntry
    cases hnv : needToVisitNode (CSSNode.mk d cs) pd g <;>
      simp [invalidateCaches, CSSNode.withData, CSSNode.data, CSSNode.children]

theorem findCached_none_of_invalidated (n : CSSNode) (aw ah : F)
    (wm hm : CSSMeasureMode)
    (hwm : n.data.layout.cachedLayout.widthMeasureMode = none)
    (hnl : n.children.length ≠ 0) :
    findCachedResult n aw ah wm hm true = none := by
  unfold findCachedResult
  have h1 : (n.data.measure.isSome && decide (n.children.length = 0)) = false := by
    simp [hnl]
  rw [h1]
  simp only [Bool.false_eq_true, if_false, if_true, hwm]
  simp

theorem wrapperEntry_inv (n : CSSNode) (pd : CSSDirection) (g : Nat) :
    layPres n (wrapperEntry n pd g) ∧ dirtyEq n (wrapperEntry n pd g) ∧
    upClosed (wrapperEntry n pd g) = upClosed n ∧
    (genOK g n = true → genOK g (wrapperEntry n pd g) = true) ∧
    (∀ G, genLe G (wrapperEntry n pd g) = genLe G n) ∧
    subtreeDirty (wrapperEntry n pd g) = subtreeDirty n := by
  obtain ⟨hc, hs, hm, ht, hd, hg, hwm⟩ := wrapperEntry_data n pd g
  have hdct := dirty_children_transfer n _ hc hd
  refine ⟨layPres_of_fields n _ hc hs hm ht, dirtyEq_of_fields n _ hc hd, hdct.2, ?_,
    fun G => gen_children_transfer n _ hc hg G, hdct.1⟩
  intro hok
  cases hnv : needToVisitNode n pd g
  · have hid : wrapperEntry n pd g = n := by simp [wrapperEntry, hnv]
    rw [hid]
    exact hok
  · refine genOK_intro' _ g (Or.inr (Or.inr (hwm hnv))) ?_
    rw [hc]
    exact (genOK_parts' n g hok).2

theorem wrapper_hit_inv (n : CSSNode) (e : CSSCachedMeasurement) (pl : Bool)
    (g : Nat) (pd : CSSDirection) (aw ah : F) (wm hm : CSSMeasureMode)
    (hnv : needToVisitNode n pd g = false)
    (hcr : findCachedResult n aw ah wm hm pl = some e)
    (hu : upClosed n = true) (hok : genOK g n = true) :
    layPres n (hitAdopt n e pl g) ∧
    upClosed (hitAdopt n e pl g) = true ∧
    genOK g (hitAdopt n e pl g) = true ∧
    (pl = false → dirtyEq n (hitAdopt n e pl g)) ∧
    (pl = true → subtreeDirty (hitAdopt n e pl g) = false) ∧
    (∀ G, g ≤ G → genLe G n = true → genLe G (hitAdopt n e pl g) = true) := by
  obtain ⟨hc, hs, hm', ht, hd, hg, hcl, hcm⟩ := hitAdopt_data n e pl g
  have hLP := layPres_of_fields n _ hc hs hm' ht
  have hgenle : ∀ G, g ≤ G → genLe G n = true → genLe G (hitAdopt n e pl g) = true := by
    intro G hge hgl
    refine genLe_intro' _ G (by rw [hg]; exact hge) ?_
    rw [hc]
    exact (genLe_parts' n G hgl).2
  cases pl with
  | false =>
    simp only [Bool.false_eq_true, if_false] at hd
    have hdct := dirty_children_transfer n _ hc hd
    have hok' : genOK g (hitAdopt n e false g) = true := by
      refine genOK_intro' _ g ?_ (by rw [hc]; exact (genOK_parts' n g hok).2)
      cases hdn : n.data.isDirty
      · exact Or.inl (by rw [hd]; exact hdn)
      · have hgeq : n.data.layout.generationCount = g := (needToVisit_false hnv).1 hdn
        exact Or.inr (Or.inr (by rw [hcl]; exact (genOK_parts' n g hok).1 hdn hgeq))
    exact ⟨hLP, by rw [hdct.2]; exact hu, hok',
      fun _ => dirtyEq_of_fields n _ hc hd, fun h => Bool.noConfusion h, hgenle⟩
  | true =>
    simp only [if_true] at hd
    have hchildclean : subtreeDirtyL n.children = false := by
      by_cases hlen : n.children.length = 0
      · rw [List.length_eq_zero.mp hlen]
        rfl
      · have hdn : n.data.isDirty = false := by
          cases hdn : n.data.isDirty
          · rfl
          · have hgeq := (needToVisit_false hnv).1 hdn
            have hwm := (genOK_parts' n g hok).1 hdn hgeq
            rw [findCached_none_of_invalidated n aw ah wm hm hwm hlen] at hcr
            cases hcr
        cases hsd : subtreeDirtyL n.children
        · rfl
        · rw [(upClosed_parts' n hu).1 hsd] at hdn
          cases hdn
    have hclean : subtreeDirty (hitAdopt n e true g) = false := by
      rw [subtreeDirty_parts, hd, hc, hchildclean]
      rfl
    have hok' : genOK g (hitAdopt n e true g) = true :=
      genOK_intro' _ g (Or.inl hd) (by rw [hc]; exact (genOK_parts' n g hok).2)
    exact ⟨hLP, clean_upClosed _ hclean, hok', fun h => Bool.noConfusion h,
      fun _ => hclean, hgenle⟩

theorem wrapper_post_inv (node1 nodeI : CSSNode) (storeIt : Bool) (aw ah : F)
    (wm hm : CSSMeasureMode) (pl : Bool) (pd : CSSDirection) (g : Nat)
    (hlp : layPres node1 nodeI)
    (hup : upClosed nodeI = true)
    (hok : genOK g nodeI = true)
    (hdirty : nodeI.data.isDirty = node1.data.isDirty)
    (hcl : nodeI.data.layout.cachedLayout = node1.data.layout.cachedLayout)
    (hinv : node1.data.layout.cachedLayout.widthMeasureMode = none ∨
      node1.data.isDirty = false)
    (hclean : pl = true → subtreeDirtyL nodeI.children = false)
    (hdeq : pl = false → dirtyEq node1 nodeI)
    (hgl : ∀ G, g ≤ G → genLe G node1 = true → genLe G nodeI = true) :
    layPres node1 (postImpl nodeI storeIt aw ah wm hm pl pd g) ∧
    upClosed (postImpl nodeI storeIt aw ah wm hm pl pd g) = true ∧
    genOK g (postImpl nodeI storeIt aw ah wm hm pl pd g) = true ∧
    (pl = false → dirtyEq node1 (postImpl nodeI storeIt aw ah wm hm pl pd g)) ∧
    (pl = true → subtreeDirty (postImpl nodeI storeIt aw ah wm hm pl pd g) = false) ∧
    (∀ G, g ≤ G → genLe G node1 = true →
      genLe G (postImpl nodeI storeIt aw ah wm hm pl pd g) = true) := by
  obtain ⟨hc, hs, hm', ht, hd, hg, hcl7⟩ := postImpl_data nodeI storeIt aw ah wm hm pl pd g
  have hLP : layPres node1 (postImpl nodeI storeIt aw ah wm hm pl pd g) :=
    layPres_trans _ _ _ hlp (layPres_of_fields nodeI _ hc hs hm' ht)
  have hgenle : ∀ G, g ≤ G → genLe G node1 = true →
      genLe G (postImpl nodeI storeIt aw ah wm hm pl pd g) = true := by
    intro G hge hgl1
    refine genLe_intro' _ G (by rw [hg]; exact hge) ?_
    rw [hc]
    exact (genLe_parts' nodeI G (hgl G hge hgl1)).2
  cases pl with
  | false =>
    simp only [Bool.false_eq_true, if_false] at hd
    have hdct := dirty_children_transfer nodeI _ hc hd
    have hok' : genOK g (postImpl nodeI storeIt aw ah wm hm false pd g) = true := by
      refine genOK_intro' _ g ?_ (by rw [hc]; exact (genOK_parts' nodeI g hok).2)
      cases hdn : nodeI.data.isDirty
      · exact Or.inl (by rw [hd]; exact hdn)
      · refine Or.inr (Or.inr ?_)
        rw [hcl7 rfl, hcl]
        rcases hinv with h | h
        · exact h
        · rw [hdirty, h] at hdn
          cases hdn
    exact ⟨hLP, by rw [hdct.2]; exact hup, hok',
      fun _ => dirtyEq_trans _ _ _ (hdeq rfl) (dirtyEq_of_fields nodeI _ hc hd),
      fun h => Bool.noConfusion h, hgenle⟩
  | true =>
    simp only [if_true] at hd
    have hclean' : subtreeDirty (postImpl nodeI storeIt aw ah wm hm true pd g)
        = false := by
      rw [subtreeDirty_parts, hd, hc, hclean rfl]
      rfl
    have hok' : genOK g (postImpl nodeI storeIt aw ah wm hm true pd g) = true :=
      genOK_intro' _ g (Or.inl hd) (by rw [hc]; exact (genOK_parts' nodeI g hok).2)
    exact ⟨hLP, clean_upClosed _ hclean', hok', fun h => Bool.noConfusion h,
      fun _ => hclean', hgenle⟩

/-! `resultInv` algebra. -/

theorem layPres_style (a b : CSSNode) (h : layPres a b) :
    b.data.style = a.data.style := by
  cases a with
  | mk da csa =>
    cases b with
    | mk db csb =>
      rw [layPres] at h
      exact h.1

theorem cosmetic_resultInv (g : Nat) (c r : CSSNode) (h : topCosmetic c r)
    (hu : upClosed c = true) (hok : genOK g c = true) : resultInv g false c r := by
  obtain ⟨h1, h2, h3, h4, h5, h6⟩ := topCosmetic_facts c r h
  exact ⟨h5, by rw [h2]; exact hu, by rw [h3 g]; exact hok, fun _ => h6,
    fun hx => Bool.noConfusion hx, fun G _ hg => by rw [h4 G]; exact hg⟩

theorem resultInv_comp_cosmetic (g : Nat) (pl : Bool) (c r r' : CSSNode)
    (h : resultInv g pl c r) (hc : topCosmetic r r') : resultInv g pl c r' := by
  obtain ⟨h1, h2, h3, h4, h5, h6⟩ := topCosmetic_facts r r' hc
  obtain ⟨a1, a2, a3, a4, a5, a6⟩ := h
  exact ⟨layPres_trans _ _ _ a1 h5, by rw [h2]; exact a2, by rw [h3 g]; exact a3,
    fun hp => dirtyEq_trans _ _ _ (a4 hp) h6,
    fun hp => by rw [h1]; exact a5 hp,
    fun G hge hg => by rw [h4 G]; exact a6 G hge hg⟩

theorem cosmetic_then_resultInv (g : Nat) (pl : Bool) (c c1 r : CSSNode)
    (hc : topCosmetic c c1) (h : resultInv g pl c1 r) : resultInv g pl c r := by
  obtain ⟨h1, h2, h3, h4, h5, h6⟩ := topCosmetic_facts c c1 hc
  obtain ⟨a1, a2, a3, a4, a5, a6⟩ := h
  exact ⟨layPres_trans _ _ _ h5 a1, a2, a3,
    fun hp => dirtyEq_trans _ _ _ h6 (a4 hp), a5,
    fun G hge hg => a6 G hge (by rw [h4 G]; exact hg)⟩

theorem resultInv_refl (g : Nat) (c : CSSNode) (hu : upClosed c = true)
    (hok : genOK g c = true) : resultInv g false c c :=
  cosmetic_resultInv g c c (topCosmetic_refl c) hu hok

theorem resultInv_subtree (g : Nat) (pl : Bool) (c r : CSSNode)
    (h : resultInv g pl c r) (hclean : subtreeDirty c = false) :
    subtreeDirty r = false := by
  cases pl with
  | false =>
    rw [dirtyEq_subtreeDirty c r (h.2.2.2.1 rfl)]
    exact hclean
  | true => exact h.2.2.2.2.1 rfl

/-! `computeChildFlexBasis` and STEP 3 preserve the invariants (the only
recursive visits are measure-only). -/

theorem computeChildFlexBasisF_inv (g : Nat) (recur : RecurFn)
    (hR : RecurSpec g recur) (node child : CSSNode) (width : F)
    (widthMode : CSSMeasureMode) (height : F) (heightMode : CSSMeasureMode)
    (direction : CSSDirection) (out : CSSNode × Nat)
    (h : computeChildFlexBasisF recur node child width widthMode height heightMode
      direction = some out)
    (hu : upClosed child = true) (hok : genOK g child = true) :
    resultInv g false child out.1 := by
  unfold computeChildFlexBasisF at h
  simp only [] at h
  split_ifs at h
  all_goals try (simp only [Option.some.injEq] at h; rw [← h])
  all_goals
    first
      | exact cosmetic_resultInv g child _
          (cosmetic_withData _ _ rfl rfl rfl rfl rfl rfl rfl) hu hok
      | exact resultInv_refl g child hu hok
      | (split at h
         · simp at h
         · next child' cnt hrec =>
             simp only [Option.some.injEq] at h
             rw [← h]
             exact resultInv_comp_cosmetic g false child child' _
               (hR child _ _ direction _ _ false (child', cnt) hrec hu hok)
               (cosmetic_withData _ _ rfl rfl rfl rfl rfl rfl rfl))

theorem step3Go_inv (g : Nat) (recur : RecurFn) (hR : RecurSpec g recur)
    (node : CSSNode) (availW : F) (wm : CSSMeasureMode) (availH : F)
    (hm : CSSMeasureMode) (direction : CSSDirection) (performLayout : Bool) :
    ∀ (cs : List CSSNode) (out : List CSSNode × Nat),
      step3Go recur node availW wm availH hm direction performLayout cs = some out →
      upClosedL cs = true → genOKL g cs = true →
      layPresL cs out.1 ∧ upClosedL out.1 = true ∧ genOKL g out.1 = true ∧
      dirtyEqL cs out.1 ∧
      (∀ G, g ≤ G → genLeL G cs = true → genLeL G out.1 = true)
  | [], out, h, _, _ => by
    rw [step3Go] at h
    simp only [Option.some.injEq] at h
    rw [← h]
    exact ⟨by rw [layPresL]; trivial, rfl, rfl, by rw [dirtyEqL]; trivial,
      fun G _ hg => hg⟩
  | c :: rest, out, h, hu, hok => by
    rw [step3Go] at h
    rw [upClosedL] at hu
    rw [genOKL] at hok
    simp only [Bool.and_eq_true] at hu hok
    generalize hc1 : (if performLayout = true then
      setPosition c (resolveDirection c direction) else c) = c1 at h
    have hc1cos : topCosmetic c c1 := by
      rw [← hc1]
      cases performLayout
      · simp only [Bool.false_eq_true, if_false]
        exact topCosmetic_refl c
      · simp only [if_true]
        exact setPosition_cosmetic c _
    have hc1facts := topCosmetic_facts c _ hc1cos
    have tailGlue : ∀ (x : CSSNode) (cs' : List CSSNode),
        resultInv g false c x →
        (layPresL rest cs' ∧ upClosedL cs' = true ∧ genOKL g cs' = true ∧
          dirtyEqL rest cs' ∧
          (∀ G, g ≤ G → genLeL G rest = true → genLeL G cs' = true)) →
        layPresL (c :: rest) (x :: cs') ∧ upClosedL (x :: cs') = true ∧
        genOKL g (x :: cs') = true ∧ dirtyEqL (c :: rest) (x :: cs') ∧
        (∀ G, g ≤ G → genLeL G (c :: rest) = true →
          genLeL G (x :: cs') = true) := by
      intro x cs' hri IH
      refine ⟨?_, ?_, ?_, ?_, ?_⟩
      · rw [layPresL]
        exact ⟨hri.1, IH.1⟩
      · rw [upClosedL]
        simp only [Bool.and_eq_true]
        exact ⟨hri.2.1, IH.2.1⟩
      · rw [genOKL]
        simp only [Bool.and_eq_true]
        exact ⟨hri.2.2.1, IH.2.2.1⟩
      · rw [dirtyEqL]
        exact ⟨hri.2.2.2.1 rfl, IH.2.2.2.1⟩
      · intro G hge hgl
        rw [genLeL] at hgl ⊢
        simp only [Bool.and_eq_true] at hgl ⊢
        exact ⟨hri.2.2.2.2.2 G hge hgl.1, IH.2.2.2.2 G hge hgl.2⟩
    split at h
    · cases hrest : step3Go recur node availW wm availH hm direction performLayout
        rest with
      | none =>
        rw [hrest] at h
        simp at h
      | some o =>
        rw [hrest] at h
        obtain ⟨cs', k⟩ := o
        simp only [Option.some.injEq] at h
        rw [← h]
        exact tailGlue c1 cs' (cosmetic_resultInv g c c1 hc1cos hu.1 hok.1)
          (step3Go_inv g recur hR node availW wm availH hm direction
            performLayout rest (cs', k) hrest hu.2 hok.2)
    · cases hcfb : computeChildFlexBasisF recur node c1 availW wm availH hm
        direction with
      | none =>
        rw [hcfb] at h
        simp at h
      | some o2 =>
        rw [hcfb] at h
        obtain ⟨c2, k1⟩ := o2
        cases hrest : step3Go recur node availW wm availH hm direction performLayout
          rest with
        | none =>
          rw [hrest] at h
          simp at h
        | some o =>
          rw [hrest] at h
          obtain ⟨cs', k2⟩ := o
          simp only [Option.some.injEq] at h
          rw [← h]
          have hri2 := computeChildFlexBasisF_inv g recur hR node c1 availW wm availH
            hm direction (c2, k1) hcfb (by rw [hc1facts.2.1]; exact hu.1)
            (by rw [hc1facts.2.2.1 g]; exact hok.1)
          exact tailGlue c2 cs' (cosmetic_then_resultInv g false c c1 c2 hc1cos hri2)
            (step3Go_inv g recur hR node availW wm availH hm direction
              performLayout rest (cs', k2) hrest hu.2 hok.2)

/-! `resultInvL` algebra for the kernel's index-driven child loops. -/

theorem resultInvL_refl (g : Nat) (cs : List CSSNode) (hu : upClosedL cs = true)
    (hok : genOKL g cs = true) : resultInvL g cs cs :=
  ⟨layPresL_refl cs, hu, hok, fun _ _ hg => hg, fun _ hc => hc⟩

theorem resultInvL_trans (g : Nat) (as bs cs : List CSSNode)
    (h1 : resultInvL g as bs) (h2 : resultInvL g bs cs) : resultInvL g as cs :=
  ⟨layPresL_trans _ _ _ h1.1 h2.1, h2.2.1, h2.2.2.1,
   fun G hge hg => h2.2.2.2.1 G hge (h1.2.2.2.1 G hge hg),
   fun i hc => h2.2.2.2.2 i (h1.2.2.2.2 i hc)⟩

theorem resultInvL_set (g : Nat) (cs : List CSSNode) (i : Nat) (x : CSSNode)
    (hu : upClosedL cs = true) (hok : genOKL g cs = true)
    (hx_lp : layPres (getCh cs i) x) (hx_up : upClosed x = true)
    (hx_ok : genOK g x = true)
    (hxg : ∀ G, g ≤ G → genLe G (getCh cs i) = true → genLe G x = true)
    (hxc : subtreeDirty (getCh cs i) = false → subtreeDirty x = false) :
    resultInvL g cs (cs.set i x) := by
  refine ⟨layPresL_set cs cs i x (layPresL_refl cs) hx_lp,
    upClosedL_set cs i x hu hx_up, genOKL_set cs i x g hok hx_ok,
    fun G hge hg => genLeL_set cs i x G hg (hxg G hge (genLeL_getCh cs i G hg)),
    fun j hc => ?_⟩
  by_cases hij : j = i
  · subst hij
    by_cases hlen : j < cs.length
    · rw [getCh_set_self cs j x hlen]
      exact hxc hc
    · rw [List.set_eq_of_length_le (Nat.le_of_not_lt hlen)]
      exact hc
  · rw [getCh_set_other cs j i x hij]
    exact hc

theorem dirtyEqL_clean_mono (as bs : List CSSNode) (h : dirtyEqL as bs) :
    ∀ i, subtreeDirty (getCh as i) = false → subtreeDirty (getCh bs i) = false := by
  intro i hc
  rw [dirtyEq_subtreeDirty _ _ (dirtyEqL_getCh as bs h i)]
  exact hc

theorem cosmetic_set_bundle (g : Nat) (cs : List CSSNode) (i : Nat) (x : CSSNode)
    (hcos : topCosmetic (getCh cs i) x)
    (hu : upClosedL cs = true) (hok : genOKL g cs = true) :
    resultInvL g cs (cs.set i x) ∧ dirtyEqL cs (cs.set i x) ∧
    upClosedL (cs.set i x) = true ∧ genOKL g (cs.set i x) = true := by
  obtain ⟨h1, h2, h3, h4, h5, h6⟩ := topCosmetic_facts _ _ hcos
  have hri := resultInvL_set g cs i x hu hok h5
    (by rw [h2]; exact upClosedL_getCh cs i hu)
    (by rw [h3 g]; exact genOKL_getCh cs i g hok)
    (fun G _ hg => by rw [h4 G]; exact hg)
    (fun hc => by rw [h1]; exact hc)
  exact ⟨hri, dirtyEqL_set cs cs i x (dirtyEqL_refl cs) h6, hri.2.1, hri.2.2.1⟩

theorem cosmetic_posWrite (n : CSSNode) (p : EdgeArr) :
    topCosmetic n (n.withData { n.data with layout.position := p }) :=
  cosmetic_withData n _ rfl rfl rfl rfl rfl rfl rfl

theorem mainLoopGo_inv (g : Nat) (ctx : ImplCtx) (canSkipFlex : Bool) (between : F) :
    ∀ (idxs : List Nat) (cs : List CSSNode) (mainDim crossDim : F),
      upClosedL cs = true → genOKL g cs = true →
      resultInvL g cs (mainLoopGo ctx canSkipFlex between idxs cs mainDim crossDim).1 ∧
      dirtyEqL cs (mainLoopGo ctx canSkipFlex between idxs cs mainDim crossDim).1
  | [], cs, mainDim, crossDim, hu, hok => by
    rw [mainLoopGo]
    exact ⟨resultInvL_refl g cs hu hok, dirtyEqL_refl cs⟩
  | i :: rest, cs, mainDim, crossDim, hu, hok => by
    have step : ∀ (x : CSSNode), topCosmetic (getCh cs i) x →
        ∀ (md cd : F),
        resultInvL g cs (mainLoopGo ctx canSkipFlex between rest (cs.set i x) md cd).1 ∧
        dirtyEqL cs (mainLoopGo ctx canSkipFlex between rest (cs.set i x) md cd).1 := by
      intro x hcos md cd
      obtain ⟨hb1, hb2, hb3, hb4⟩ := cosmetic_set_bundle g cs i x hcos hu hok
      have hrec := mainLoopGo_inv g ctx canSkipFlex between rest (cs.set i x) md cd hb3 hb4
      exact ⟨resultInvL_trans g _ _ _ hb1 hrec.1, dirtyEqL_trans _ _ _ hb2 hrec.2⟩
    rw [mainLoopGo]
    cases hpl : ctx.performLayout <;>
      simp only [hpl, eq_self_iff_true, if_true, Bool.false_eq_true, if_false]
    · split
      · exact mainLoopGo_inv g ctx canSkipFlex between rest cs _ _ hu hok
      · split
        · split
          · exact mainLoopGo_inv g ctx canSkipFlex between rest cs _ _ hu hok
          · exact mainLoopGo_inv g ctx canSkipFlex between rest cs _ _ hu hok
        · exact mainLoopGo_inv g ctx canSkipFlex between rest cs _ _ hu hok
    · split
      · refine step _ (cosmetic_posWrite _ _) _ _
      · split
        · split
          · refine step _ (cosmetic_posWrite _ _) _ _
          · refine step _ (cosmetic_posWrite _ _) _ _
        · refine step _ (cosmetic_posWrite _ _) _ _

theorem getCh_cons_zero (c : CSSNode) (cs : List CSSNode) : getCh (c :: cs) 0 = c := by
  simp [getCh]

theorem getCh_cons_succ (c : CSSNode) (cs : List CSSNode) (i : Nat) :
    getCh (c :: cs) (i + 1) = getCh cs i := by
  simp [getCh]

theorem subtreeDirty_new : subtreeDirty CSSNodeNew = false := by
  with_unfolding_all decide

theorem getCh_out_of_range (cs : List CSSNode) (i : Nat) (h : cs.length ≤ i) :
    getCh cs i = CSSNodeNew := by
  simp [getCh, List.getD, List.getElem?_eq_none h]

theorem getCh_set_clean (cs : List CSSNode) (i : Nat) (x : CSSNode)
    (hx : subtreeDirty x = false) : subtreeDirty (getCh (cs.set i x) i) = false := by
  by_cases hlen : i < cs.length
  · rw [getCh_set_self cs i x hlen]
    exact hx
  · rw [List.set_eq_of_length_le (Nat.le_of_not_lt hlen),
      getCh_out_of_range cs i (Nat.le_of_not_lt hlen)]
    exact subtreeDirty_new

theorem resultInvL_cons (g : Nat) (c r : CSSNode) (cs rs : List CSSNode)
    (h1 : layPres c r) (h2 : upClosed r = true) (h3 : genOK g r = true)
    (h4 : ∀ G, g ≤ G → genLe G c = true → genLe G r = true)
    (h5 : subtreeDirty c = false → subtreeDirty r = false)
    (ht : resultInvL g cs rs) : resultInvL g (c :: cs) (r :: rs) := by
  obtain ⟨t1, t2, t3, t4, t5⟩ := ht
  refine ⟨?_, ?_, ?_, ?_, ?_⟩
  · rw [layPresL]
    exact ⟨h1, t1⟩
  · rw [upClosedL]
    simp only [Bool.and_eq_true]
    exact ⟨h2, t2⟩
  · rw [genOKL]
    simp only [Bool.and_eq_true]
    exact ⟨h3, t3⟩
  · intro G hge hg
    rw [genLeL] at hg ⊢
    simp only [Bool.and_eq_true] at hg ⊢
    exact ⟨h4 G hge hg.1, t4 G hge hg.2⟩
  · intro i hc
    cases i with
    | zero =>
      rw [getCh_cons_zero] at hc ⊢
      exact h5 hc
    | succ i =>
      rw [getCh_cons_succ] at hc ⊢
      exact t5 i hc

theorem dirtyEqL_cons (c r : CSSNode) (cs rs : List CSSNode)
    (hd : dirtyEq c r) (ht : dirtyEqL cs rs) : dirtyEqL (c :: cs) (r :: rs) := by
  rw [dirtyEqL]
  exact ⟨hd, ht⟩

theorem upClosedL_cons_parts (c : CSSNode) (cs : List CSSNode)
    (h : upClosedL (c :: cs) = true) : upClosed c = true ∧ upClosedL cs = true := by
  rw [upClosedL] at h
  exact (Bool.and_eq_true _ _).mp h

theorem genOKL_cons_parts (g : Nat) (c : CSSNode) (cs : List CSSNode)
    (h : genOKL g (c :: cs) = true) : genOK g c = true ∧ genOKL g cs = true := by
  rw [genOKL] at h
  exact (Bool.and_eq_true _ _).mp h

theorem enumMap_cosmetic_bundle (g : Nat) (f : Nat × CSSNode → CSSNode)
    (hf : ∀ p, topCosmetic p.2 (f p)) :
    ∀ (cs : List CSSNode) (n : Nat), upClosedL cs = true → genOKL g cs = true →
      resultInvL g cs ((List.enumFrom n cs).map f) ∧
      dirtyEqL cs ((List.enumFrom n cs).map f)
  | [], n, hu, hok => ⟨resultInvL_refl g [] hu hok, dirtyEqL_refl []⟩
  | c :: cs, n, hu, hok => by
    obtain ⟨hu1, hu2⟩ := upClosedL_cons_parts c cs hu
    obtain ⟨hk1, hk2⟩ := genOKL_cons_parts g c cs hok
    obtain ⟨IH1, IH2⟩ := enumMap_cosmetic_bundle g f hf cs (n + 1) hu2 hk2
    obtain ⟨e1, e2, e3, e4, e5, e6⟩ := topCosmetic_facts c (f (n, c)) (hf (n, c))
    exact ⟨resultInvL_cons g c (f (n, c)) cs _ e5
        (by rw [e2]; exact hu1) (by rw [e3 g]; exact hk1)
        (fun G _ hg => by rw [e4 G]; exact hg)
        (fun hc => by rw [e1]; exact hc) IH1,
      dirtyEqL_cons c (f (n, c)) cs _ e6 IH2⟩

theorem applyLineIndex_inv (g : Nat) (lines : List FlexLine) (cs : List CSSNode)
    (hu : upClosedL cs = true) (hok : genOKL g cs = true) :
    resultInvL g cs (applyLineIndex lines cs) ∧ dirtyEqL cs (applyLineIndex lines cs) := by
  have hf : ∀ p : Nat × CSSNode, topCosmetic p.2
      (match lines.findIdx? (fun L => decide (L.start ≤ p.1) && decide (p.1 < L.stop)) with
       | some k => p.2.withData { p.2.data with lineIndex := k }
       | none => p.2) := by
    intro p
    cases lines.findIdx? (fun L => decide (L.start ≤ p.1) && decide (p.1 < L.stop)) with
    | none => exact topCosmetic_refl p.2
    | some k => exact cosmetic_withData _ _ rfl rfl rfl rfl rfl rfl rfl
  exact enumMap_cosmetic_bundle g _ hf cs 0 hu hok

theorem requiresStretch_congr (ctx : ImplCtx) (a b : CSSNode)
    (hs : b.data.style = a.data.style) :
    requiresStretchOf ctx b = requiresStretchOf ctx a := by
  simp only [requiresStretchOf, isStyleDimDefined, getAlignItem, hs]

theorem flexPass2Go_inv (g : Nat) (recur : RecurFn) (hrec : RecurSpec g recur)
    (ctx : ImplCtx) (rfs ts tg : F) :
    ∀ (idxs : List Nat) (cs : List CSSNode) (dFS : F) (k : Nat)
      (out : List CSSNode × F × Nat),
      flexPass2Go recur ctx rfs ts tg idxs cs dFS k = some out →
      upClosedL cs = true → genOKL g cs = true →
      resultInvL g cs out.1 ∧
      (ctx.performLayout = false → dirtyEqL cs out.1) ∧
      (∀ j, j ∈ idxs → ctx.performLayout = true →
        requiresStretchOf ctx (getCh cs j) = false →
        subtreeDirty (getCh out.1 j) = false)
  | [], cs, dFS, k, out, h, hu, hok => by
    rw [flexPass2Go] at h
    simp only [Option.some.injEq] at h
    rw [← h]
    exact ⟨resultInvL_refl g cs hu hok, fun _ => dirtyEqL_refl cs,
      fun j hj => absurd hj (List.not_mem_nil j)⟩
  | i :: rest, cs, dFS, k, out, h, hu, hok => by
    rw [flexPass2Go] at h
    simp only [] at h
    split at h
    · exact Option.noConfusion h
    · next child' k1 heq =>
      have hres := hrec _ _ _ _ _ _ _ _ heq (upClosedL_getCh cs i hu)
        (genOKL_getCh cs i g hok)
      obtain ⟨b1, b2, b3, b4, b5, b6⟩ := hres
      have hset : resultInvL g cs (cs.set i child') :=
        resultInvL_set g cs i child' hu hok b1 b2 b3 b6
          (fun hc => resultInv_subtree g _ _ _ ⟨b1, b2, b3, b4, b5, b6⟩ hc)
      have IH := flexPass2Go_inv g recur hrec ctx rfs ts tg rest (cs.set i child') _ _
        out h hset.2.1 hset.2.2.1
      refine ⟨resultInvL_trans g _ _ _ hset IH.1, ?_, ?_⟩
      · intro hplf
        have hd : dirtyEq (getCh cs i) child' := b4 (by
          show (ctx.performLayout &&
            !(!isStyleDimDefined (getCh cs i) ctx.crossAxis &&
              getAlignItem ctx.node (getCh cs i) = CSSAlign.stretch)) = false
          rw [hplf]
          rfl)
        exact dirtyEqL_trans _ _ _ (dirtyEqL_set cs cs i child' (dirtyEqL_refl cs) hd)
          (IH.2.1 hplf)
      · intro j hj hpl hstretch
        rcases List.mem_cons.mp hj with hj0 | hjr
        · subst hj0
          have hcl : subtreeDirty child' = false := b5 (by
            show (ctx.performLayout && !requiresStretchOf ctx (getCh cs j)) = true
            rw [hpl, hstretch]
            rfl)
          exact IH.1.2.2.2.2 j (getCh_set_clean cs j child' hcl)
        · refine IH.2.2 j hjr hpl ?_
          by_cases hij : j = i
          · subst hij
            by_cases hlen : j < cs.length
            · rw [getCh_set_self cs j child' hlen,
                requiresStretch_congr ctx (getCh cs j) child' (layPres_style _ _ b1)]
              exact hstretch
            · rw [List.set_eq_of_length_le (Nat.le_of_not_lt hlen)]
              exact hstretch
          · rw [getCh_set_other cs j i child' hij]
            exact hstretch

theorem isStyleDimDefined_congr (a b : CSSNode) (ax : CSSFlexDirection)
    (hs : b.data.style = a.data.style) :
    isStyleDimDefined b ax = isStyleDimDefined a ax := by
  simp only [isStyleDimDefined, hs]

theorem getAlignItem_congr (n a b : CSSNode) (hs : b.data.style = a.data.style) :
    getAlignItem n b = getAlignItem n a := by
  simp only [getAlignItem, hs]

theorem crossLoopGo_inv (g : Nat) (recur : RecurFn) (hrec : RecurSpec g recur)
    (ctx : ImplCtx) (crossDim containerCrossAxis totalLineCrossDim leadingPBCross : F) :
    ∀ (idxs : List Nat) (cs : List CSSNode) (k : Nat) (out : List CSSNode × Nat),
      crossLoopGo recur ctx crossDim containerCrossAxis totalLineCrossDim leadingPBCross
        idxs cs k = some out →
      upClosedL cs = true → genOKL g cs = true →
      resultInvL g cs out.1 ∧
      (∀ j, j ∈ idxs →
        (getCh cs j).data.style.positionType ≠ CSSPositionType.absolute →
        getAlignItem ctx.node (getCh cs j) = CSSAlign.stretch →
        (if ctx.isMainAxisRow = true then isStyleDimDefined (getCh cs j) CSSFlexDirection.column
         else isStyleDimDefined (getCh cs j) CSSFlexDirection.row) = false →
        subtreeDirty (getCh out.1 j) = false)
  | [], cs, k, out, h, hu, hok => by
    rw [crossLoopGo] at h
    simp only [Option.some.injEq] at h
    rw [← h]
    exact ⟨resultInvL_refl g cs hu hok, fun j hj => absurd hj (List.not_mem_nil j)⟩
  | i :: rest, cs, k, out, h, hu, hok => by
    have tr : ∀ (x : CSSNode), x.data.style = (getCh cs i).data.style →
        ∀ j, (getCh cs j).data.style.positionType ≠ CSSPositionType.absolute →
          getAlignItem ctx.node (getCh cs j) = CSSAlign.stretch →
          (if ctx.isMainAxisRow = true then
            isStyleDimDefined (getCh cs j) CSSFlexDirection.column
           else isStyleDimDefined (getCh cs j) CSSFlexDirection.row) = false →
          (getCh (cs.set i x) j).data.style.positionType ≠ CSSPositionType.absolute ∧
          getAlignItem ctx.node (getCh (cs.set i x) j) = CSSAlign.stretch ∧
          (if ctx.isMainAxisRow = true then
            isStyleDimDefined (getCh (cs.set i x) j) CSSFlexDirection.column
           else isStyleDimDefined (getCh (cs.set i x) j) CSSFlexDirection.row) = false := by
      intro x hstyle j hne hstr hdef
      have hsj : (getCh (cs.set i x) j).data.style = (getCh cs j).data.style := by
        by_cases hij : j = i
        · subst hij
          by_cases hlen : j < cs.length
          · rw [getCh_set_self cs j x hlen, hstyle]
          · rw [List.set_eq_of_length_le (Nat.le_of_not_lt hlen)]
        · rw [getCh_set_other cs j i x hij]
      refine ⟨by rw [hsj]; exact hne, ?_, ?_⟩
      · rw [getAlignItem_congr ctx.node (getCh cs j) _ hsj]
        exact hstr
      · rw [isStyleDimDefined_congr (getCh cs j) _ CSSFlexDirection.column hsj,
          isStyleDimDefined_congr (getCh cs j) _ CSSFlexDirection.row hsj]
        exact hdef
    have stepCos : ∀ (x : CSSNode) (k' : Nat), topCosmetic (getCh cs i) x →
        (((getCh cs i).data.style.positionType ≠ CSSPositionType.absolute ∧
          getAlignItem ctx.node (getCh cs i) = CSSAlign.stretch ∧
          (if ctx.isMainAxisRow = true then
            isStyleDimDefined (getCh cs i) CSSFlexDirection.column
           else isStyleDimDefined (getCh cs i) CSSFlexDirection.row) = false) → False) →
        crossLoopGo recur ctx crossDim containerCrossAxis totalLineCrossDim leadingPBCross
          rest (cs.set i x) k' = some out →
        resultInvL g cs out.1 ∧
        (∀ j, j ∈ i :: rest →
          (getCh cs j).data.style.positionType ≠ CSSPositionType.absolute →
          getAlignItem ctx.node (getCh cs j) = CSSAlign.stretch →
          (if ctx.isMainAxisRow = true then
            isStyleDimDefined (getCh cs j) CSSFlexDirection.column
           else isStyleDimDefined (getCh cs j) CSSFlexDirection.row) = false →
          subtreeDirty (getCh out.1 j) = false) := by
      intro x k' hcos hnot hrest
      obtain ⟨hb1, hb2, hb3, hb4⟩ := cosmetic_set_bundle g cs i x hcos hu hok
      have IH := crossLoopGo_inv g recur hrec ctx crossDim containerCrossAxis
        totalLineCrossDim leadingPBCross rest (cs.set i x) k' out hrest hb3 hb4
      refine ⟨resultInvL_trans g _ _ _ hb1 IH.1, ?_⟩
      intro j hj hne hstr hdef
      rcases List.mem_cons.mp hj with hj0 | hjr
      · subst hj0
        exact absurd ⟨hne, hstr, hdef⟩ hnot
      · obtain ⟨t1, t2, t3⟩ := tr x hcos.2.2.1 j hne hstr hdef
        exact IH.2 j hjr t1 t2 t3
    have stepInv : ∀ (x : CSSNode) (k' : Nat),
        resultInv g true (getCh cs i) x → subtreeDirty x = false →
        crossLoopGo recur ctx crossDim containerCrossAxis totalLineCrossDim leadingPBCross
          rest (cs.set i x) k' = some out →
        resultInvL g cs out.1 ∧
        (∀ j, j ∈ i :: rest →
          (getCh cs j).data.style.positionType ≠ CSSPositionType.absolute →
          getAlignItem ctx.node (getCh cs j) = CSSAlign.stretch →
          (if ctx.isMainAxisRow = true then
            isStyleDimDefined (getCh cs j) CSSFlexDirection.column
           else isStyleDimDefined (getCh cs j) CSSFlexDirection.row) = false →
          subtreeDirty (getCh out.1 j) = false) := by
      intro x k' hinv hxclean hrest
      have hset : resultInvL g cs (cs.set i x) :=
        resultInvL_set g cs i x hu hok hinv.1 hinv.2.1 hinv.2.2.1 hinv.2.2.2.2.2
          (fun _ => hxclean)
      have IH := crossLoopGo_inv g recur hrec ctx crossDim containerCrossAxis
        totalLineCrossDim leadingPBCross rest (cs.set i x) k' out hrest hset.2.1 hset.2.2.1
      refine ⟨resultInvL_trans g _ _ _ hset IH.1, ?_⟩
      intro j hj hne hstr hdef
      rcases List.mem_cons.mp hj with hj0 | hjr
      · subst hj0
        exact IH.1.2.2.2.2 j (getCh_set_clean cs j x hxclean)
      · obtain ⟨t1, t2, t3⟩ := tr x (layPres_style _ _ hinv.1) j hne hstr hdef
        exact IH.2 j hjr t1 t2 t3
    rw [crossLoopGo] at h
    simp only [] at h
    split at h
    · next hcond =>
      refine stepCos _ _ (cosmetic_posWrite _ _) (fun hc => hc.1 hcond) h
    · next hcond =>
      split at h
      · next str heq =>
        exact Option.noConfusion h
      · next str child1 lcd k1 heq =>
        rcases Bool.eq_false_or_eq_true ctx.isMainAxisRow with hrow | hrow
        ·
          simp only [hrow, Bool.false_eq_true, if_false, eq_self_iff_true, if_true] at heq
          split at heq
          · next hstr =>
            split at heq
            · next hnd =>
              iterate 4 (all_goals (first
                | exact Option.noConfusion heq
                | split at heq
                | skip))
              all_goals (
                rename_i child' k1' hrecEq
                simp only [Option.some.injEq, Prod.mk.injEq] at heq
                obtain ⟨he1, he2, he3⟩ := heq
                subst he1
                subst he2
                subst he3
                have hres := hrec _ _ _ _ _ _ _ _ hrecEq (upClosedL_getCh cs i hu)
                  (genOKL_getCh cs i g hok)
                have hcos2 := cosmetic_posWrite child'
                  (updEdge child'.data.layout.position (posEdge ctx.crossAxis)
                    (fadd (child'.data.layout.position (posEdge ctx.crossAxis))
                      (fadd totalLineCrossDim leadingPBCross)))
                refine stepInv _ _ (resultInv_comp_cosmetic g true _ _ _ hres hcos2) ?_ h
                rw [(topCosmetic_facts _ _ hcos2).1]
                exact hres.2.2.2.2.1 rfl)
            · next hnd =>
              simp only [Option.some.injEq, Prod.mk.injEq] at heq
              obtain ⟨he1, he2, he3⟩ := heq
              subst he1
              subst he2
              subst he3
              refine stepCos _ _ (cosmetic_posWrite _ _) ?_ h
              intro hc
              have hdef' := hc.2.2
              simp only [hrow, Bool.false_eq_true, if_false, eq_self_iff_true, if_true] at hdef'
              exact hnd (by rw [hdef']; rfl)
          · next hnstr =>
            split at heq
            · next hnfs =>
              split at heq
              · next hcen =>
                simp only [Option.some.injEq, Prod.mk.injEq] at heq
                obtain ⟨he1, he2, he3⟩ := heq
                subst he1
                subst he2
                subst he3
                refine stepCos _ _ (cosmetic_posWrite _ _) (fun hc => hnstr hc.2.1) h
              · next hcen =>
                simp only [Option.some.injEq, Prod.mk.injEq] at heq
                obtain ⟨he1, he2, he3⟩ := heq
                subst he1
                subst he2
                subst he3
                refine stepCos _ _ (cosmetic_posWrite _ _) (fun hc => hnstr hc.2.1) h
            · next hnfs =>
              simp only [Option.some.injEq, Prod.mk.injEq] at heq
              obtain ⟨he1, he2, he3⟩ := heq
              subst he1
              subst he2
              subst he3
              refine stepCos _ _ (cosmetic_posWrite _ _) (fun hc => hnstr hc.2.1) h
        ·
          simp only [hrow, Bool.false_eq_true, if_false, eq_self_iff_true, if_true] at heq
          split at heq
          · next hstr =>
            split at heq
            · next hnd =>
              iterate 4 (all_goals (first
                | exact Option.noConfusion heq
                | split at heq
                | skip))
              all_goals (
                rename_i child' k1' hrecEq
                simp only [Option.some.injEq, Prod.mk.injEq] at heq
                obtain ⟨he1, he2, he3⟩ := heq
                subst he1
                subst he2
                subst he3
                have hres := hrec _ _ _ _ _ _ _ _ hrecEq (upClosedL_getCh cs i hu)
                  (genOKL_getCh cs i g hok)
                have hcos2 := cosmetic_posWrite child'
                  (updEdge child'.data.layout.position (posEdge ctx.crossAxis)
                    (fadd (child'.data.layout.position (posEdge ctx.crossAxis))
                      (fadd totalLineCrossDim leadingPBCross)))
                refine stepInv _ _ (resultInv_comp_cosmetic g true _ _ _ hres hcos2) ?_ h
                rw [(topCosmetic_facts _ _ hcos2).1]
                exact hres.2.2.2.2.1 rfl)
            · next hnd =>
              simp only [Option.some.injEq, Prod.mk.injEq] at heq
              obtain ⟨he1, he2, he3⟩ := heq
              subst he1
              subst he2
              subst he3
              refine stepCos _ _ (cosmetic_posWrite _ _) ?_ h
              intro hc
              have hdef' := hc.2.2
              simp only [hrow, Bool.false_eq_true, if_false, eq_self_iff_true, if_true] at hdef'
              exact hnd (by rw [hdef']; rfl)
          · next hnstr =>
            split at heq
            · next hnfs =>
              split at heq
              · next hcen =>
                simp only [Option.some.injEq, Prod.mk.injEq] at heq
                obtain ⟨he1, he2, he3⟩ := heq
                subst he1
                subst he2
                subst he3
                refine stepCos _ _ (cosmetic_posWrite _ _) (fun hc => hnstr hc.2.1) h
              · next hcen =>
                simp only [Option.some.injEq, Prod.mk.injEq] at heq
                obtain ⟨he1, he2, he3⟩ := heq
                subst he1
                subst he2
                subst he3
                refine stepCos _ _ (cosmetic_posWrite _ _) (fun hc => hnstr hc.2.1) h
            · next hnfs =>
              simp only [Option.some.injEq, Prod.mk.injEq] at heq
              obtain ⟨he1, he2, he3⟩ := heq
              subst he1
              subst he2
              subst he3
              refine stepCos _ _ (cosmetic_posWrite _ _) (fun hc => hnstr hc.2.1) h

theorem crossDim_test_eq (ctx : ImplCtx)
    (hcross : ctx.crossAxis = getCrossFlexDirection ctx.mainAxis ctx.direction)
    (hrowax : ctx.isMainAxisRow = isRowDirection ctx.mainAxis) (child : CSSNode) :
    (if ctx.isMainAxisRow = true then isStyleDimDefined child CSSFlexDirection.column
     else isStyleDimDefined child CSSFlexDirection.row) =
    isStyleDimDefined child ctx.crossAxis := by
  rw [hcross, hrowax]
  cases ctx.mainAxis <;> cases ctx.direction <;>
    simp [getCrossFlexDirection, resolveAxis, isColumnDirection, isRowDirection,
      isStyleDimDefined, dimOf]

theorem processLine_inv (g : Nat) (recur : RecurFn) (hrec : RecurSpec g recur)
    (ctx : ImplCtx)
    (hcross : ctx.crossAxis = getCrossFlexDirection ctx.mainAxis ctx.direction)
    (hrowax : ctx.isMainAxisRow = isRowDirection ctx.mainAxis)
    (line : FlexLine) (cs : List CSSNode) (t m : F)
    (out : List CSSNode × F × F × Nat)
    (h : processLine recur ctx line cs t m = some out)
    (hu : upClosedL cs = true) (hok : genOKL g cs = true) :
    resultInvL g cs out.1 ∧
    (ctx.performLayout = false → dirtyEqL cs out.1) ∧
    (ctx.performLayout = true → ∀ j,
      j ∈ (List.range (line.stop - line.start)).map (· + line.start) →
      (getCh cs j).data.style.positionType ≠ CSSPositionType.absolute →
      subtreeDirty (getCh out.1 j) = false) := by
  rw [processLine] at h
  simp only [] at h
  generalize hmmC : (if ctx.isMainAxisRow = true then ctx.heightMeasureMode
    else ctx.widthMeasureMode) = mmCross at h
  rw [Option.bind_eq_some] at h
  obtain ⟨fr, hFR, h⟩ := h
  rw [Option.bind_eq_some] at h
  obtain ⟨s7, hS7, h⟩ := h
  simp only [Option.some.injEq] at h
  subst h
  have hF : resultInvL g cs fr.1 ∧
      (ctx.performLayout = false → dirtyEqL cs fr.1) ∧
      (ctx.performLayout = true → ∀ j,
        j ∈ (List.range (line.stop - line.start)).map (· + line.start) →
        (getCh cs j).data.style.positionType ≠ CSSPositionType.absolute →
        requiresStretchOf ctx (getCh cs j) = false →
        subtreeDirty (getCh fr.1 j) = false) := by
    by_cases hcsf : (!(!ctx.performLayout && decide (mmCross = CSSMeasureMode.exactly))) = true
    · rw [if_pos hcsf] at hFR
      have hFlex := flexPass2Go_inv g recur hrec ctx _ _ _ _ cs _ _ _ hFR hu hok
      exact ⟨hFlex.1, fun hplf => hFlex.2.1 hplf, fun hpl j hjm hrel hstr =>
        hFlex.2.2 j (List.mem_filter.mpr ⟨hjm, decide_eq_true hrel⟩) hpl hstr⟩
    · rw [if_neg hcsf] at hFR
      simp only [Option.some.injEq] at hFR
      subst hFR
      have hY : (!ctx.performLayout && decide (mmCross = CSSMeasureMode.exactly)) = true := by
        rcases Bool.eq_false_or_eq_true
          (!ctx.performLayout && decide (mmCross = CSSMeasureMode.exactly)) with hb | hb
        · exact hb
        · exact absurd (by rw [hb]; rfl) hcsf
      have hplf : ctx.performLayout = false := by
        have hnp := ((Bool.and_eq_true _ _).mp hY).1
        rcases Bool.eq_false_or_eq_true ctx.performLayout with hp | hp
        · rw [hp] at hnp
          exact Bool.noConfusion hnp
        · exact hp
      refine ⟨resultInvL_refl g cs hu hok, fun _ => dirtyEqL_refl cs, fun hpl => ?_⟩
      rw [hplf] at hpl
      exact Bool.noConfusion hpl
  by_cases hpl : ctx.performLayout = true
  · rw [if_pos hpl] at hS7
    exact
      let hmlAB := mainLoopGo_inv g ctx _ _ _ fr.1 _ _ hF.1.2.1 hF.1.2.2.1
      let hcl := crossLoopGo_inv g recur hrec ctx _ _ _ _ _ _ 0 _ hS7
        hmlAB.1.2.1 hmlAB.1.2.2.1
      ⟨resultInvL_trans g _ _ _ hF.1 (resultInvL_trans g _ _ _ hmlAB.1 hcl.1),
       fun hplf => by rw [hplf] at hpl; exact Bool.noConfusion hpl,
       fun _ j hjm hrel => by
         rcases Bool.eq_false_or_eq_true (requiresStretchOf ctx (getCh cs j)) with hst | hst
         · simp only [requiresStretchOf, Bool.and_eq_true, Bool.not_eq_true',
             decide_eq_true_eq] at hst
           have hsty := layPres_style _ _
             (layPresL_getCh _ _ (layPresL_trans _ _ _ hF.1.1 hmlAB.1.1) j)
           refine hcl.2 j hjm ?_ ?_ ?_
           · rw [hsty]
             exact hrel
           · rw [getAlignItem_congr ctx.node (getCh cs j) _ hsty]
             exact hst.2
           · rw [crossDim_test_eq ctx hcross hrowax _,
               isStyleDimDefined_congr (getCh cs j) _ ctx.crossAxis hsty]
             exact hst.1
         · have hc1 : subtreeDirty (getCh fr.1 j) = false := hF.2.2 hpl j hjm hrel hst
           exact hcl.1.2.2.2.2 j (hmlAB.1.2.2.2.2 j hc1)⟩
  · rw [if_neg hpl] at hS7
    simp only [Option.some.injEq] at hS7
    subst hS7
    exact
      let hmlAB := mainLoopGo_inv g ctx _ _ _ fr.1 _ _ hF.1.2.1 hF.1.2.2.1
      ⟨resultInvL_trans g _ _ _ hF.1 hmlAB.1,
       fun hplf => dirtyEqL_trans _ _ _ (hF.2.1 hplf) hmlAB.2,
       fun hplt => absurd hplt hpl⟩

theorem mem_range_map_add (a b j : Nat) :
    j ∈ (List.range (b - a)).map (· + a) ↔ a ≤ j ∧ j < b := by
  simp only [List.mem_map, List.mem_range]
  constructor
  · rintro ⟨x, hx, rfl⟩
    omega
  · intro hj
    exact ⟨j - a, by omega, by omega⟩

theorem processLinesGo_inv (g : Nat) (recur : RecurFn) (hrec : RecurSpec g recur)
    (ctx : ImplCtx)
    (hcross : ctx.crossAxis = getCrossFlexDirection ctx.mainAxis ctx.direction)
    (hrowax : ctx.isMainAxisRow = isRowDirection ctx.mainAxis) :
    ∀ (lines : List FlexLine) (cs : List CSSNode) (t m : F) (k : Nat)
      (out : List CSSNode × F × F × Nat),
      processLinesGo recur ctx lines cs t m k = some out →
      upClosedL cs = true → genOKL g cs = true →
      resultInvL g cs out.1 ∧
      (ctx.performLayout = false → dirtyEqL cs out.1) ∧
      (ctx.performLayout = true → ∀ j L, L ∈ lines → L.start ≤ j → j < L.stop →
        (getCh cs j).data.style.positionType ≠ CSSPositionType.absolute →
        subtreeDirty (getCh out.1 j) = false)
  | [], cs, t, m, k, out, h, hu, hok => by
    rw [processLinesGo] at h
    simp only [Option.some.injEq] at h
    rw [← h]
    exact ⟨resultInvL_refl g cs hu hok, fun _ => dirtyEqL_refl cs,
      fun _ j L hL => absurd hL (List.not_mem_nil L)⟩
  | L :: rest, cs, t, m, k, out, h, hu, hok => by
    rw [processLinesGo] at h
    split at h
    · exact Option.noConfusion h
    · next cs' t' m' k1 heq =>
      have hPL := processLine_inv g recur hrec ctx hcross hrowax L cs t m _ heq hu hok
      have IH := processLinesGo_inv g recur hrec ctx hcross hrowax rest _ t' m' (k + k1)
        out h hPL.1.2.1 hPL.1.2.2.1
      refine ⟨resultInvL_trans g _ _ _ hPL.1 IH.1,
        fun hplf => dirtyEqL_trans _ _ _ (hPL.2.1 hplf) (IH.2.1 hplf),
        fun hpl j L' hL' hle hlt hrel => ?_⟩
      rcases List.mem_cons.mp hL' with hL0 | hLr
      · subst hL0
        exact IH.1.2.2.2.2 j (hPL.2.2 hpl j
          ((mem_range_map_add L'.start L'.stop j).mpr ⟨hle, hlt⟩) hrel)
      · have hsty := layPres_style _ _ (layPresL_getCh _ _ hPL.1.1 j)
        exact IH.2.2 hpl j L' hLr hle hlt (by rw [hsty]; exact hrel)

theorem collectLinesGo_cover (mainAxis : CSSFlexDirection) (avail : F) (wrap : Bool) :
    ∀ (cs : List CSSNode) (idx start items : Nat) (consumed tg ts : F),
      linesCover (collectLinesGo mainAxis avail wrap cs idx start items consumed tg ts)
        start (idx + cs.length)
  | [], idx, start, items, consumed, tg, ts => by
    rw [collectLinesGo, linesCover]
    exact ⟨rfl, rfl⟩
  | c :: rest, idx, start, items, consumed, tg, ts => by
    rw [collectLinesGo]
    try simp only []
    rw [List.length_cons, (by omega : idx + (rest.length + 1) = (idx + 1) + rest.length)]
    split
    · split
      · rw [linesCover]
        exact ⟨rfl, collectLinesGo_cover mainAxis avail wrap rest (idx + 1) idx _ _ _ _⟩
      · exact collectLinesGo_cover mainAxis avail wrap rest (idx + 1) start _ _ _ _
    · exact collectLinesGo_cover mainAxis avail wrap rest (idx + 1) start _ _ _ _

theorem linesCover_mem : ∀ (ls : List FlexLine) (a b j : Nat),
    linesCover ls a b → a ≤ j → j < b → ∃ L, L ∈ ls ∧ L.start ≤ j ∧ j < L.stop
  | [], a, b, j, hc, hle, hlt => by
    rw [linesCover] at hc
    omega
  | L :: ls, a, b, j, hc, hle, hlt => by
    rw [linesCover] at hc
    by_cases hj : j < L.stop
    · exact ⟨L, List.mem_cons_self L ls, by rw [hc.1]; exact hle, hj⟩
    · obtain ⟨L', hm, h1, h2⟩ :=
        linesCover_mem ls L.stop b j hc.2 (Nat.le_of_not_lt hj) hlt
      exact ⟨L', List.mem_cons_of_mem L hm, h1, h2⟩

theorem step8ApplyGo_inv (g : Nat) (ctx : ImplCtx) (lead lh : F) :
    ∀ (idxs : List Nat) (cs : List CSSNode),
      upClosedL cs = true → genOKL g cs = true →
      resultInvL g cs (step8ApplyGo ctx lead lh idxs cs) ∧
      dirtyEqL cs (step8ApplyGo ctx lead lh idxs cs)
  | [], cs, hu, hok => by
    rw [step8ApplyGo]
    exact ⟨resultInvL_refl g cs hu hok, dirtyEqL_refl cs⟩
  | ii :: rest, cs, hu, hok => by
    have step : ∀ (x : CSSNode), topCosmetic (getCh cs ii) x →
        resultInvL g cs (step8ApplyGo ctx lead lh rest (cs.set ii x)) ∧
        dirtyEqL cs (step8ApplyGo ctx lead lh rest (cs.set ii x)) := by
      intro x hcos
      obtain ⟨hb1, hb2, hb3, hb4⟩ := cosmetic_set_bundle g cs ii x hcos hu hok
      have IH := step8ApplyGo_inv g ctx lead lh rest (cs.set ii x) hb3 hb4
      exact ⟨resultInvL_trans g _ _ _ hb1 IH.1, dirtyEqL_trans _ _ _ hb2 IH.2⟩
    rw [step8ApplyGo]
    try simp only []
    iterate 5 (all_goals (first
      | exact step8ApplyGo_inv g ctx lead lh rest cs hu hok
      | refine step _ (cosmetic_posWrite _ _)
      | split
      | skip))

theorem step8LinesGo_inv (g : Nat) (ctx : ImplCtx) (childCount : Nat)
    (crossDimLead : F) :
    ∀ (remLines startIndex i : Nat) (currentLead : F) (cs : List CSSNode),
      upClosedL cs = true → genOKL g cs = true →
      resultInvL g cs (step8LinesGo ctx childCount crossDimLead startIndex remLines i
        currentLead cs) ∧
      dirtyEqL cs (step8LinesGo ctx childCount crossDimLead startIndex remLines i
        currentLead cs)
  | 0, startIndex, i, currentLead, cs, hu, hok => by
    rw [step8LinesGo]
    exact ⟨resultInvL_refl g cs hu hok, dirtyEqL_refl cs⟩
  | remLines + 1, startIndex, i, currentLead, cs, hu, hok => by
    rw [step8LinesGo]
    try simp only []
    exact
      let hap := step8ApplyGo_inv g ctx _ _ _ cs hu hok
      let IH := step8LinesGo_inv g ctx childCount crossDimLead remLines _ _ _ _
        hap.1.2.1 hap.1.2.2.1
      ⟨resultInvL_trans g _ _ _ hap.1 IH.1, dirtyEqL_trans _ _ _ hap.2 IH.2⟩

theorem step8_inv (g : Nat) (ctx : ImplCtx) (lineCount : Nat) (t : F)
    (cs : List CSSNode) (hu : upClosedL cs = true) (hok : genOKL g cs = true) :
    resultInvL g cs (step8 ctx lineCount t cs) ∧ dirtyEqL cs (step8 ctx lineCount t cs) := by
  unfold step8
  try simp only []
  exact step8LinesGo_inv g ctx _ _ lineCount 0 0 _ cs hu hok

theorem map_cosmetic_bundle (g : Nat) (f : CSSNode → CSSNode)
    (hf : ∀ c, topCosmetic c (f c)) :
    ∀ (cs : List CSSNode), upClosedL cs = true → genOKL g cs = true →
      resultInvL g cs (cs.map f) ∧ dirtyEqL cs (cs.map f)
  | [], hu, hok => ⟨resultInvL_refl g [] hu hok, dirtyEqL_refl []⟩
  | c :: cs, hu, hok => by
    obtain ⟨hu1, hu2⟩ := upClosedL_cons_parts c cs hu
    obtain ⟨hk1, hk2⟩ := genOKL_cons_parts g c cs hok
    obtain ⟨IH1, IH2⟩ := map_cosmetic_bundle g f hf cs hu2 hk2
    obtain ⟨e1, e2, e3, e4, e5, e6⟩ := topCosmetic_facts c (f c) (hf c)
    exact ⟨resultInvL_cons g c (f c) cs _ e5
        (by rw [e2]; exact hu1) (by rw [e3 g]; exact hk1)
        (fun G _ hg => by rw [e4 G]; exact hg)
        (fun hc => by rw [e1]; exact hc) IH1,
      dirtyEqL_cons c (f c) cs _ e6 IH2⟩

theorem step11_inv (g : Nat) (node : CSSNode) (mainAxis crossAxis : CSSFlexDirection)
    (cs : List CSSNode) (hu : upClosedL cs = true) (hok : genOKL g cs = true) :
    resultInvL g cs (step11 node mainAxis crossAxis cs) ∧
    dirtyEqL cs (step11 node mainAxis crossAxis cs) := by
  unfold step11
  try simp only []
  split
  · refine map_cosmetic_bundle g _ (fun c => ?_) cs hu hok
    have h1 : topCosmetic c
        (if (mainAxis = CSSFlexDirection.rowReverse ||
              mainAxis = CSSFlexDirection.columnReverse) = true then
          setTrailingPosition node c mainAxis
        else c) := by
      split
      · exact setTrailingPosition_cosmetic node c mainAxis
      · exact topCosmetic_refl c
    split
    · exact topCosmetic_trans h1 (setTrailingPosition_cosmetic node _ crossAxis)
    · exact h1
  · exact ⟨resultInvL_refl g cs hu hok, dirtyEqL_refl cs⟩

theorem resultInv_trans_any (g : Nat) (pl : Bool) (a b c : CSSNode)
    (h1 : resultInv g false a b) (h2 : resultInv g pl b c) : resultInv g pl a c :=
  ⟨layPres_trans _ _ _ h1.1 h2.1, h2.2.1, h2.2.2.1,
   fun hp => dirtyEq_trans _ _ _ (h1.2.2.2.1 rfl) (h2.2.2.2.1 hp),
   h2.2.2.2.2.1,
   fun G hge hg => h2.2.2.2.2.2 G hge (h1.2.2.2.2.2 G hge hg)⟩

theorem absoluteLayoutChildF_inv (g : Nat) (recur : RecurFn) (hrec : RecurSpec g recur)
    (node child : CSSNode) (width : F) (widthMode : CSSMeasureMode)
    (direction : CSSDirection) (out : CSSNode × Nat)
    (h : absoluteLayoutChildF recur node child width widthMode direction = some out)
    (hu : upClosed child = true) (hok : genOK g child = true) :
    resultInv g true child out.1 := by
  rw [absoluteLayoutChildF] at h
  simp only [] at h
  rw [Option.bind_eq_some] at h
  obtain ⟨msr, hM, h⟩ := h
  rw [Option.bind_eq_some] at h
  obtain ⟨r2, hR2, h⟩ := h
  simp only [Option.some.injEq] at h
  subst h
  have hstage1 : resultInv g false child msr.1 := by
    iterate 8 (all_goals (first
      | (rw [Option.map_eq_some'] at hM
         obtain ⟨r1, hr1, hmap⟩ := hM
         rw [← hmap]
         exact hrec _ _ _ _ _ _ _ _ hr1 hu hok)
      | (simp only [Option.some.injEq] at hM
         rw [← hM]
         exact resultInv_refl g child hu hok)
      | split at hM
      | skip))
  have hstage2 := hrec _ _ _ _ _ _ _ _ hR2 hstage1.2.1 hstage1.2.2.1
  refine resultInv_trans_any g true child msr.1 _ hstage1
    (resultInv_comp_cosmetic g true msr.1 r2.1 _ hstage2 ?_)
  iterate 4 (all_goals (first
    | exact topCosmetic_refl _
    | exact cosmetic_posWrite _ _
    | exact topCosmetic_trans (cosmetic_posWrite _ _) (cosmetic_posWrite _ _)
    | split
    | skip))

theorem step10Go_inv (g : Nat) (recur : RecurFn) (hrec : RecurSpec g recur)
    (node : CSSNode) (availInnerW : F) (wm : CSSMeasureMode)
    (direction : CSSDirection) :
    ∀ (idxs : List Nat) (cs : List CSSNode) (k : Nat) (out : List CSSNode × Nat),
      step10Go recur node availInnerW wm direction idxs cs k = some out →
      upClosedL cs = true → genOKL g cs = true →
      resultInvL g cs out.1 ∧
      (∀ j, j ∈ idxs → subtreeDirty (getCh out.1 j) = false)
  | [], cs, k, out, h, hu, hok => by
    rw [step10Go] at h
    simp only [Option.some.injEq] at h
    rw [← h]
    exact ⟨resultInvL_refl g cs hu hok, fun j hj => absurd hj (List.not_mem_nil j)⟩
  | i :: rest, cs, k, out, h, hu, hok => by
    rw [step10Go] at h
    split at h
    · exact Option.noConfusion h
    · next c' k1 heq =>
      have hres := absoluteLayoutChildF_inv g recur hrec node (getCh cs i) availInnerW wm
        direction (c', k1) heq (upClosedL_getCh cs i hu) (genOKL_getCh cs i g hok)
      have hclean : subtreeDirty c' = false := hres.2.2.2.2.1 rfl
      have hset : resultInvL g cs (cs.set i c') :=
        resultInvL_set g cs i c' hu hok hres.1 hres.2.1 hres.2.2.1 hres.2.2.2.2.2
          (fun _ => hclean)
      have IH := step10Go_inv g recur hrec node availInnerW wm direction rest
        (cs.set i c') (k + k1) out h hset.2.1 hset.2.2.1
      refine ⟨resultInvL_trans g _ _ _ hset IH.1, fun j hj => ?_⟩
      rcases List.mem_cons.mp hj with hj0 | hjr
      · subst hj0
        exact IH.1.2.2.2.2 j (getCh_set_clean cs j c' hclean)
      · exact IH.2 j hjr

theorem mem_enumFrom_self : ∀ (cs : List CSSNode) (n j : Nat), j < cs.length →
    (n + j, getCh cs j) ∈ List.enumFrom n cs
  | [], _, j, hj => absurd hj (by simp)
  | c :: cs, n, 0, _ => by
    rw [getCh_cons_zero]
    exact List.mem_cons_self _ _
  | c :: cs, n, j + 1, hj => by
    rw [getCh_cons_succ, (by omega : n + (j + 1) = (n + 1) + j)]
    exact List.mem_cons_of_mem _ (mem_enumFrom_self cs (n + 1) j
      (by simp only [List.length_cons] at hj; omega))

theorem mem_absIdx (cs : List CSSNode) (j : Nat) (hj : j < cs.length)
    (habs : (getCh cs j).data.style.positionType = CSSPositionType.absolute) :
    j ∈ ((cs.enum.filter
      fun p => p.2.data.style.positionType = CSSPositionType.absolute).map (·.1)) := by
  refine List.mem_map.mpr ⟨(j, getCh cs j), List.mem_filter.mpr ⟨?_, ?_⟩, rfl⟩
  · have hm := mem_enumFrom_self cs 0 j hj
    simpa [Nat.zero_add] using hm
  · exact decide_eq_true habs

theorem subtreeDirtyL_false_of_forall : ∀ (cs : List CSSNode),
    (∀ j, j < cs.length → subtreeDirty (getCh cs j) = false) → subtreeDirtyL cs = false
  | [], _ => by rw [subtreeDirtyL]
  | c :: cs, h => by
    rw [subtreeDirtyL]
    have h0 := h 0 (by simp)
    rw [getCh_cons_zero] at h0
    rw [h0, Bool.false_or]
    exact subtreeDirtyL_false_of_forall cs fun j hj => by
      have hx := h (j + 1) (by simp only [List.length_cons]; omega)
      rwa [getCh_cons_succ] at hx

theorem postStep3_true_inv (g : Nat) (recur : RecurFn) (hrec : RecurSpec g recur)
    (ma : CSSFlexDirection) (aimd : F) (wr : Bool) (cs0 : List CSSNode)
    (ctx : ImplCtx) (rl : List CSSNode × F × F × Nat)
    (node9 : CSSNode) (aiw : F) (wm : CSSMeasureMode) (direction : CSSDirection)
    (b8 : Bool) (ll : Nat) (t8 : F) (r10 : List CSSNode × Nat)
    (hctx1 : ctx.crossAxis = getCrossFlexDirection ctx.mainAxis ctx.direction)
    (hctx2 : ctx.isMainAxisRow = isRowDirection ctx.mainAxis)
    (hpl : ctx.performLayout = true)
    (hpls : processLinesGo recur ctx
      (collectLinesGo ma aimd wr cs0 0 0 0 (some 0) (some 0) (some 0))
      (applyLineIndex (collectLinesGo ma aimd wr cs0 0 0 0 (some 0) (some 0) (some 0)) cs0)
      (some 0) (some 0) 0 = some rl)
    (h10 : step10Go recur node9 aiw wm direction
      (((if b8 = true then step8 ctx ll t8 rl.1 else rl.1).enum.filter
        fun p => p.2.data.style.positionType = CSSPositionType.absolute).map (·.1))
      (if b8 = true then step8 ctx ll t8 rl.1 else rl.1) 0 = some r10)
    (hu0 : upClosedL cs0 = true) (hok0 : genOKL g cs0 = true) :
    resultInvL g cs0 r10.1 ∧ (∀ j, j < cs0.length → subtreeDirty (getCh r10.1 j) = false) := by
  have hALI := applyLineIndex_inv g
    (collectLinesGo ma aimd wr cs0 0 0 0 (some 0) (some 0) (some 0)) cs0 hu0 hok0
  have hPLS := processLinesGo_inv g recur hrec ctx hctx1 hctx2 _ _ _ _ 0 rl hpls
    hALI.1.2.1 hALI.1.2.2.1
  have hRA : resultInvL g cs0 rl.1 := resultInvL_trans g _ _ _ hALI.1 hPLS.1
  have hC3 : resultInvL g rl.1 (if b8 = true then step8 ctx ll t8 rl.1 else rl.1) ∧
      dirtyEqL rl.1 (if b8 = true then step8 ctx ll t8 rl.1 else rl.1) := by
    split
    · exact step8_inv g ctx ll t8 rl.1 hRA.2.1 hRA.2.2.1
    · exact ⟨resultInvL_refl g rl.1 hRA.2.1 hRA.2.2.1, dirtyEqL_refl rl.1⟩
  generalize hCS3 : (if b8 = true then step8 ctx ll t8 rl.1 else rl.1) = cs3 at hC3 h10
  have hS10 := step10Go_inv g recur hrec node9 aiw wm direction _ cs3 0 r10 h10
    hC3.1.2.1 hC3.1.2.2.1
  refine ⟨resultInvL_trans g _ _ _ hRA (resultInvL_trans g _ _ _ hC3.1 hS10.1),
    fun j hj => ?_⟩
  by_cases habs : (getCh cs0 j).data.style.positionType = CSSPositionType.absolute
  · have hsty : (getCh cs3 j).data.style = (getCh cs0 j).data.style :=
      layPres_style _ _ (layPresL_getCh _ _ (layPresL_trans _ _ _ hRA.1 hC3.1.1) j)
    have hlen : cs3.length = cs0.length :=
      (layPresL_length _ _ hC3.1.1).trans (layPresL_length _ _ hRA.1)
    exact hS10.2 j (mem_absIdx cs3 j (by rw [hlen]; exact hj) (by rw [hsty]; exact habs))
  · have hcov := collectLinesGo_cover ma aimd wr cs0 0 0 0 (some 0) (some 0) (some 0)
    obtain ⟨L, hLmem, hLs, hLt⟩ :=
      linesCover_mem _ 0 (0 + cs0.length) j hcov (Nat.zero_le j) (by omega)
    have hsty1 : (getCh (applyLineIndex
        (collectLinesGo ma aimd wr cs0 0 0 0 (some 0) (some 0) (some 0)) cs0) j).data.style =
        (getCh cs0 j).data.style :=
      layPres_style _ _ (layPresL_getCh _ _ hALI.1.1 j)
    have hclean1 := hPLS.2.2 hpl j L hLmem hLs hLt (by rw [hsty1]; exact habs)
    exact hS10.1.2.2.2.2 j (hC3.1.2.2.2.2 j hclean1)

theorem postStep3_false_inv (g : Nat) (recur : RecurFn) (hrec : RecurSpec g recur)
    (ma : CSSFlexDirection) (aimd : F) (wr : Bool) (cs0 : List CSSNode)
    (ctx : ImplCtx) (rl : List CSSNode × F × F × Nat)
    (hctx1 : ctx.crossAxis = getCrossFlexDirection ctx.mainAxis ctx.direction)
    (hctx2 : ctx.isMainAxisRow = isRowDirection ctx.mainAxis)
    (hplf : ctx.performLayout = false)
    (hpls : processLinesGo recur ctx
      (collectLinesGo ma aimd wr cs0 0 0 0 (some 0) (some 0) (some 0))
      (applyLineIndex (collectLinesGo ma aimd wr cs0 0 0 0 (some 0) (some 0) (some 0)) cs0)
      (some 0) (some 0) 0 = some rl)
    (hu0 : upClosedL cs0 = true) (hok0 : genOKL g cs0 = true) :
    resultInvL g cs0 rl.1 ∧ dirtyEqL cs0 rl.1 := by
  have hALI := applyLineIndex_inv g
    (collectLinesGo ma aimd wr cs0 0 0 0 (some 0) (some 0) (some 0)) cs0 hu0 hok0
  have hPLS := processLinesGo_inv g recur hrec ctx hctx1 hctx2 _ _ _ _ 0 rl hpls
    hALI.1.2.1 hALI.1.2.2.1
  exact ⟨resultInvL_trans g _ _ _ hALI.1 hPLS.1,
    dirtyEqL_trans _ _ _ hALI.2 (hPLS.2.1 hplf)⟩


theorem layPres_mk (a : CSSNode) (d' : CSSNodeData) (cs' : List CSSNode)
    (hs : d'.style = a.data.style) (hm : d'.measure = a.data.measure)
    (ht : d'.isTextNode = a.data.isTextNode) (hl : layPresL a.children cs') :
    layPres a (.mk d' cs') := by
  cases a with
  | mk da csa =>
    rw [layPres]
    exact ⟨hs, hm, ht, hl⟩

theorem dirtyEq_mk (a : CSSNode) (d' : CSSNodeData) (cs' : List CSSNode)
    (hd : d'.isDirty = a.data.isDirty) (hl : dirtyEqL a.children cs') :
    dirtyEq a (.mk d' cs') := by
  cases a with
  | mk da csa =>
    rw [dirtyEq]
    exact ⟨hd, hl⟩

theorem upClosed_mk_of (a : CSSNode) (d' : CSSNodeData) (cs' : List CSSNode)
    (hd : d'.isDirty = a.data.isDirty)
    (hsd : subtreeDirtyL cs' = true → subtreeDirtyL a.children = true)
    (hu : upClosed a = true) (hu' : upClosedL cs' = true) :
    upClosed (.mk d' cs') = true :=
  upClosed_intro (fun hx => by rw [hd]; exact (upClosed_parts' a hu).1 (hsd hx)) hu'

theorem genOK_own_transfer (a : CSSNode) (d' : CSSNodeData) (cs' : List CSSNode)
    (g : Nat) (hd : d'.isDirty = a.data.isDirty)
    (hg : d'.layout.generationCount = a.data.layout.generationCount)
    (hc : d'.layout.cachedLayout = a.data.layout.cachedLayout)
    (hok : genOK g a = true) (hokL : genOKL g cs' = true) :
    genOK g (.mk d' cs') = true := by
  cases a with
  | mk da csa =>
    rw [genOK] at hok ⊢
    simp only [Bool.and_eq_true] at hok ⊢
    refine ⟨?_, hokL⟩
    rw [hd, hg, hc]
    exact hok.1

theorem genLe_own_transfer (a : CSSNode) (d' : CSSNodeData) (cs' : List CSSNode)
    (G : Nat) (hg : d'.layout.generationCount = a.data.layout.generationCount)
    (hle : genLe G a = true) (hleL : genLeL G cs' = true) :
    genLe G (.mk d' cs') = true :=
  genLe_intro (by rw [hg]; exact (genLe_parts' a G hle).1) hleL

theorem implCosmetic_concl (g : Nat) (pl : Bool) (n x : CSSNode)
    (hcos : topCosmetic n x) (hu : upClosed n = true) (hok : genOK g n = true)
    (h5 : pl = true → subtreeDirtyL x.children = false) : implPost g pl n x := by
  obtain ⟨f1, f2, f3, f4, f5, f6⟩ := topCosmetic_facts n x hcos
  exact ⟨f5, by rw [f2]; exact hu, by rw [f3 g]; exact hok, fun _ => f6, h5,
    fun G _ hg => by rw [f4 G]; exact hg, hcos.2.1, hcos.2.2.2.2.2.1,
    hcos.2.2.2.2.2.2.1, hcos.2.2.2.2.2.2.2⟩

theorem implPost_precosmetic (g : Nat) (pl : Bool) (n0 n r : CSSNode)
    (hcos : topCosmetic n0 n) (h : implPost g pl n r) : implPost g pl n0 r := by
  obtain ⟨f1, f2, f3, f4, f5, f6⟩ := topCosmetic_facts n0 n hcos
  obtain ⟨a1, a2, a3, a4, a5, a6, a7, a8, a9, a10⟩ := h
  exact ⟨layPres_trans _ _ _ f5 a1, a2, a3, fun hp => dirtyEq_trans _ _ _ f6 (a4 hp), a5,
    fun G hge hg => a6 G hge (by rw [f4 G]; exact hg),
    a7.trans hcos.2.1, a8.trans hcos.2.2.2.2.2.1,
    a9.trans hcos.2.2.2.2.2.2.1, a10.trans hcos.2.2.2.2.2.2.2⟩

theorem layoutNodeImplFull_inv (g : Nat) (recur : RecurFn) (hrec : RecurSpec g recur)
    (node : CSSNode) (aw ah : F) (wm hm : CSSMeasureMode) (performLayout : Bool)
    (direction : CSSDirection) (mRow mCol pbRow pbCol : F) (out : CSSNode × Nat)
    (h : layoutNodeImplFull recur node aw ah wm hm performLayout direction
      mRow mCol pbRow pbCol = some out)
    (hu : upClosed node = true) (hok : genOK g node = true) :
    implPost g performLayout node out.1 := by
  rw [layoutNodeImplFull] at h
  simp only [] at h
  rw [Option.bind_eq_some] at h
  obtain ⟨r0, h3g, h⟩ := h
  rw [Option.bind_eq_some] at h
  obtain ⟨rl, hpls, h⟩ := h
  rw [Option.bind_eq_some] at h
  obtain ⟨r10, h10, h⟩ := h
  simp only [Option.some.injEq] at h
  subst h
  have hS3 := step3Go_inv g recur hrec node _ wm _ hm direction performLayout
    node.children r0 h3g (upClosed_parts' node hu).2 (genOK_parts' node g hok).2
  have hR0 : resultInvL g node.children r0.1 :=
    ⟨hS3.1, hS3.2.1, hS3.2.2.1, hS3.2.2.2.2, dirtyEqL_clean_mono _ _ hS3.2.2.2.1⟩
  by_cases hpl : performLayout = true
  · rw [if_pos hpl] at h10
    rw [if_pos hpl]
    have hpost := postStep3_true_inv g recur hrec _ _ _ r0.1 _ rl _ _ wm direction
      _ _ _ r10 rfl rfl hpl hpls h10 hS3.2.1 hS3.2.2.1
    exact
      let h11 := step11_inv g _ _ _ r10.1 hpost.1.2.1 hpost.1.2.2.1
      let RL := resultInvL_trans g _ _ _ (resultInvL_trans g _ _ _ hR0 hpost.1) h11.1
      let hlen5 := (layPresL_length _ _ h11.1.1).trans (layPresL_length _ _ hpost.1.1)
      let hclean5 := subtreeDirtyL_false_of_forall _ (fun j hj =>
        h11.1.2.2.2.2 j (hpost.2 j (by rw [← hlen5]; exact hj)))
      ⟨layPres_mk node _ _ rfl rfl rfl RL.1,
       upClosed_mk_of node _ _ rfl
         (fun hx => absurd hx (by rw [hclean5]; exact fun q => Bool.noConfusion q))
         hu RL.2.1,
       genOK_own_transfer node _ _ g rfl rfl rfl hok RL.2.2.1,
       fun hplf => absurd hpl (by rw [hplf]; exact fun q => Bool.noConfusion q),
       fun _ => hclean5,
       fun G hge hg => genLe_own_transfer node _ _ G rfl hg
         (RL.2.2.2.1 G hge (genLe_parts' node G hg).2),
       rfl, rfl, rfl, rfl⟩
  · have hplf : performLayout = false := by
      rcases Bool.eq_false_or_eq_true performLayout with hp | hp
      · exact absurd hp hpl
      · exact hp
    rw [if_neg hpl] at h10
    rw [hplf] at h10
    simp only [Bool.false_and, Bool.and_false, Bool.false_eq_true, if_false] at h10
    simp only [Option.some.injEq] at h10
    subst h10
    rw [hplf]
    simp only [Bool.false_eq_true, if_false]
    have hmeas := postStep3_false_inv g recur hrec _ _ _ r0.1 _ rl rfl rfl hplf hpls
      hS3.2.1 hS3.2.2.1
    exact
      let RL := resultInvL_trans g _ _ _ hR0 hmeas.1
      let DEQ := dirtyEqL_trans _ _ _ hS3.2.2.2.1 hmeas.2
      ⟨layPres_mk node _ _ rfl rfl rfl RL.1,
       upClosed_mk_of node _ _ rfl
         (fun hx => by rw [dirtyEqL_subtreeDirtyL _ _ DEQ] at hx; exact hx)
         hu RL.2.1,
       genOK_own_transfer node _ _ g rfl rfl rfl hok RL.2.2.1,
       fun _ => dirtyEq_mk node _ _ rfl DEQ,
       fun hpt => Bool.noConfusion hpt,
       fun G hge hg => genLe_own_transfer node _ _ G rfl hg
         (RL.2.2.2.1 G hge (genLe_parts' node G hg).2),
       rfl, rfl, rfl, rfl⟩

theorem subtreeDirtyL_of_len0 (cs : List CSSNode) (h : cs.length = 0) :
    subtreeDirtyL cs = false := by
  cases cs with
  | nil => rw [subtreeDirtyL]
  | cons c cs => simp at h

theorem upClosed_cosmetic_of (a b : CSSNode) (hu : upClosed a = true)
    (hcos : topCosmetic a b) : upClosed b = true := by
  rw [(topCosmetic_facts a b hcos).2.1]
  exact hu

theorem genOK_cosmetic_of (a b : CSSNode) (g : Nat) (hok : genOK g a = true)
    (hcos : topCosmetic a b) : genOK g b = true := by
  rw [(topCosmetic_facts a b hcos).2.2.1 g]
  exact hok

theorem implPost_precosmetic' (g : Nat) (pl : Bool) (n0 n r : CSSNode)
    (h : implPost g pl n r) (hcos : topCosmetic n0 n) : implPost g pl n0 r :=
  implPost_precosmetic g pl n0 n r hcos h

theorem layoutNodeImplF_inv (g : Nat) (recur : RecurFn) (hrec : RecurSpec g recur)
    (node0 : CSSNode) (aw ah : F) (pd : CSSDirection) (wm hm : CSSMeasureMode)
    (performLayout : Bool) (out : CSSNode × Nat)
    (h : layoutNodeImplF recur node0 aw ah pd wm hm performLayout = some out)
    (hu : upClosed node0 = true) (hok : genOK g node0 = true) :
    implPost g performLayout node0 out.1 := by
  cases node0 with
  | mk nd ncs =>
  rw [layoutNodeImplF] at h
  simp only [CSSNode.withData, CSSNode.data, CSSNode.children] at h
  cases hms : nd.measure with
  | some f =>
    rw [hms] at h
    simp only [] at h
    split at h
    · next hlen =>
      split at h
      · next hwmhm =>
        simp only [Option.some.injEq] at h
        subst h
        refine implCosmetic_concl g performLayout _ _
          ⟨rfl, rfl, rfl, hms.symm, rfl, rfl, rfl, rfl⟩ hu hok ?_
        intro _
        show subtreeDirtyL ncs = false
        exact subtreeDirtyL_of_len0 ncs hlen
      · split at h
        · next hfle =>
          simp only [Option.some.injEq] at h
          subst h
          refine implCosmetic_concl g performLayout _ _
            ⟨rfl, rfl, rfl, hms.symm, rfl, rfl, rfl, rfl⟩ hu hok ?_
          intro _
          show subtreeDirtyL ncs = false
          exact subtreeDirtyL_of_len0 ncs hlen
        · next hfle =>
          simp only [Option.some.injEq] at h
          subst h
          refine implCosmetic_concl g performLayout _ _
            ⟨rfl, rfl, rfl, hms.symm, rfl, rfl, rfl, rfl⟩ hu hok ?_
          intro _
          show subtreeDirtyL ncs = false
          exact subtreeDirtyL_of_len0 ncs hlen
    · next hlen =>
      rw [Option.map_eq_some'] at h
      obtain ⟨r, hfull, hmap⟩ := h
      subst hmap
      exact implPost_precosmetic' g _ _ _ r.1
        (layoutNodeImplFull_inv g recur hrec _ _ _ _ _ _ _ _ _ _ _ r hfull
          (upClosed_cosmetic_of _ _ hu ⟨rfl, rfl, rfl, hms.symm, rfl, rfl, rfl, rfl⟩)
          (genOK_cosmetic_of _ _ g hok ⟨rfl, rfl, rfl, hms.symm, rfl, rfl, rfl, rfl⟩))
        ⟨rfl, rfl, rfl, hms.symm, rfl, rfl, rfl, rfl⟩
  | none =>
    rw [hms] at h
    simp only [] at h
    split at h
    · next hlen =>
      simp only [Option.some.injEq] at h
      subst h
      refine implCosmetic_concl g performLayout _ _
        ⟨rfl, rfl, rfl, hms.symm, rfl, rfl, rfl, rfl⟩ hu hok ?_
      intro _
      show subtreeDirtyL ncs = false
      exact subtreeDirtyL_of_len0 ncs hlen
    · next hlen =>
      split at h
      · next hsc =>
        simp only [Option.some.injEq] at h
        subst h
        refine implCosmetic_concl g performLayout _ _
          ⟨rfl, rfl, rfl, hms.symm, rfl, rfl, rfl, rfl⟩ hu hok ?_
        intro hpt
        have hnp := ((Bool.and_eq_true _ _).mp hsc).1
        rw [hpt] at hnp
        exact Bool.noConfusion hnp
      · split at h
        · next hsc =>
          simp only [Option.some.injEq] at h
          subst h
          refine implCosmetic_concl g performLayout _ _
            ⟨rfl, rfl, rfl, hms.symm, rfl, rfl, rfl, rfl⟩ hu hok ?_
          intro hpt
          have hnp := ((Bool.and_eq_true _ _).mp hsc).1
          rw [hpt] at hnp
          exact Bool.noConfusion hnp
        · split at h
          · next hsc =>
            simp only [Option.some.injEq] at h
            subst h
            refine implCosmetic_concl g performLayout _ _
              ⟨rfl, rfl, rfl, hms.symm, rfl, rfl, rfl, rfl⟩ hu hok ?_
            intro hpt
            have hnp := ((Bool.and_eq_true _ _).mp hsc).1
            rw [hpt] at hnp
            exact Bool.noConfusion hnp
          · split at h
            · next hsc =>
              simp only [Option.some.injEq] at h
              subst h
              refine implCosmetic_concl g performLayout _ _
                ⟨rfl, rfl, rfl, hms.symm, rfl, rfl, rfl, rfl⟩ hu hok ?_
              intro hpt
              have hnp := ((Bool.and_eq_true _ _).mp hsc).1
              rw [hpt] at hnp
              exact Bool.noConfusion hnp
            · rw [Option.map_eq_some'] at h
              obtain ⟨r, hfull, hmap⟩ := h
              subst hmap
              exact implPost_precosmetic' g _ _ _ r.1
                (layoutNodeImplFull_inv g recur hrec _ _ _ _ _ _ _ _ _ _ _ r hfull
                  (upClosed_cosmetic_of _ _ hu ⟨rfl, rfl, rfl, hms.symm, rfl, rfl, rfl, rfl⟩)
                  (genOK_cosmetic_of _ _ g hok ⟨rfl, rfl, rfl, hms.symm, rfl, rfl, rfl, rfl⟩))
                ⟨rfl, rfl, rfl, hms.symm, rfl, rfl, rfl, rfl⟩

theorem layoutGo_master (g : Nat) : ∀ (fuel : Nat),
    (∀ (node : CSSNode) (aw ah : F) (pd : CSSDirection) (wm hm : CSSMeasureMode)
      (pl : Bool) (out : CSSNode × Bool × Nat),
      layoutGo fuel true node aw ah pd wm hm pl g = some out →
      upClosed node = true → genOK g node = true → resultInv g pl node out.1) ∧
    (∀ (node : CSSNode) (aw ah : F) (pd : CSSDirection) (wm hm : CSSMeasureMode)
      (pl : Bool) (out : CSSNode × Bool × Nat),
      layoutGo fuel false node aw ah pd wm hm pl g = some out →
      upClosed node = true → genOK g node = true → implPost g pl node out.1)
  | 0 => by
    constructor <;>
      (intro node aw ah pd wm hm pl out h hu hok; rw [layoutGo] at h
       exact Option.noConfusion h)
  | fuel + 1 => by
    have IH := layoutGo_master g fuel
    have hRS : RecurSpec g (fun c caw cah cpd cwm chm cpl =>
        (layoutGo fuel true c caw cah cpd cwm chm cpl g).map fun r => (r.1, r.2.2)) := by
      intro c caw cah cpd cwm chm cpl r hr huc hokc
      rw [Option.map_eq_some'] at hr
      obtain ⟨r0, h0, hmap⟩ := hr
      have hres := IH.1 c caw cah cpd cwm chm cpl r0 h0 huc hokc
      rw [← hmap]
      exact hres
    constructor
    · intro node aw ah pd wm hm pl out h hu hok
      rw [layoutGo] at h
      rw [if_pos rfl] at h
      simp only [] at h
      have hinv : (wrapperEntry node pd g).data.layout.cachedLayout.widthMeasureMode
          = none ∨ (wrapperEntry node pd g).data.isDirty = false := by
        cases hnv : needToVisitNode node pd g with
        | true => exact Or.inl ((wrapperEntry_data node pd g).2.2.2.2.2.2 hnv)
        | false =>
          have hid : wrapperEntry node pd g = node := by simp [wrapperEntry, hnv]
          rw [hid]
          rcases Bool.eq_false_or_eq_true node.data.isDirty with hd | hd
          · exact Or.inl ((genOK_parts' node g hok).1 hd ((needToVisit_false hnv).1 hd))
          · exact Or.inr hd
      split at h
      · next e heq1 heq2 =>
        simp only [Option.some.injEq] at h
        subst h
        have hid : wrapperEntry node pd g = node := by simp [wrapperEntry, heq2]
        rw [hid] at heq1 ⊢
        obtain ⟨w1, w2, w3, w4, w5, w6⟩ :=
          wrapper_hit_inv node e pl g pd aw ah wm hm heq2 heq1 hu hok
        exact ⟨w1, w2, w3, w4, w5, w6⟩
      · next cr nv hno =>
        split at h
        · exact Option.noConfusion h
        · next nodeI fst k heq =>
          simp only [Option.some.injEq] at h
          subst h
          obtain ⟨e1, e2, e3, e4, e5, e6⟩ := wrapperEntry_inv node pd g
          have himp := IH.2 (wrapperEntry node pd g) aw ah pd wm hm pl _ heq
            (by rw [e3]; exact hu) (e4 hok)
          obtain ⟨p1, p2, p3, p4, p5, p6⟩ := wrapper_post_inv (wrapperEntry node pd g)
            nodeI _ aw ah wm hm pl pd g himp.1 himp.2.1 himp.2.2.1
            himp.2.2.2.2.2.2.1 himp.2.2.2.2.2.2.2.2.1 hinv
            himp.2.2.2.2.1 himp.2.2.2.1 himp.2.2.2.2.2.1
          exact ⟨layPres_trans _ _ _ e1 p1, p2, p3,
            fun hplf => dirtyEq_trans _ _ _ e2 (p4 hplf), p5,
            fun G hge hg => p6 G hge (by rw [e5 G]; exact hg)⟩
    · intro node aw ah pd wm hm pl out h hu hok
      rw [layoutGo] at h
      rw [if_neg (fun q => Bool.noConfusion q)] at h
      split at h
      · exact Option.noConfusion h
      · next n k heq =>
        simp only [Option.some.injEq] at h
        subst h
        exact layoutNodeImplF_inv g _ hRS node aw ah pd wm hm pl (n, k) heq hu hok

mutual
theorem genOK_of_genLe : ∀ (n : CSSNode) (g : Nat), genLe g n = true →
    genOK (g + 1) n = true
  | .mk d cs, g, h => by
    have hp := genLe_parts h
    exact genOK_intro (Or.inr (Or.inl (by omega))) (genOKL_of_genLeL cs g hp.2)

theorem genOKL_of_genLeL : ∀ (cs : List CSSNode) (g : Nat), genLeL g cs = true →
    genOKL (g + 1) cs = true
  | [], _, _ => rfl
  | c :: cs, g, h => by
    rw [genLeL] at h
    simp only [Bool.and_eq_true] at h
    rw [genOKL]
    simp only [Bool.and_eq_true]
    exact ⟨genOK_of_genLe c g h.1, genOKL_of_genLeL cs g h.2⟩
end

theorem calculate_inv (fuel : Nat) (n : CSSNode) (g : Nat) (aw ah : F)
    (pd : CSSDirection) (n' : CSSNode) (g' k : Nat)
    (h : CSSNodeCalculateLayout fuel n g aw ah pd = some (n', g', k))
    (hu : upClosed n = true) (hg : genLe g n = true) :
    upClosed n' = true ∧ genLe g' n' = true := by
  rw [CSSNodeCalculateLayout] at h
  try simp only [] at h
  rw [Option.map_eq_some'] at h
  obtain ⟨r, hrun, hmap⟩ := h
  simp only [Prod.mk.injEq] at hmap
  obtain ⟨hm1, hm2, hm3⟩ := hmap
  subst hm1
  subst hm2
  subst hm3
  unfold layoutNodeInternalF at hrun
  have hres := (layoutGo_master (g + 1) fuel).1 n _ _ pd _ _ true r hrun hu
    (genOK_of_genLe n g hg)
  have hcos : topCosmetic r.1
      (if r.2.1 = true then setPosition r.1 r.1.data.layout.direction else r.1) := by
    split
    · exact setPosition_cosmetic _ _
    · exact topCosmetic_refl _
  constructor
  · rw [(topCosmetic_facts _ _ hcos).2.1]
    exact hres.2.1
  · rw [(topCosmetic_facts _ _ hcos).2.2.2.1 (g + 1)]
    exact hres.2.2.2.2.2 (g + 1) (Nat.le_refl _) (genLe_mono n g (g + 1) (by omega) hg)

theorem upClosed_new : upClosed CSSNodeNew = true := by
  with_unfolding_all decide

theorem genLe_new (g : Nat) : genLe g CSSNodeNew = true := by
  rw [CSSNodeNew, genLe]
  simp [genLeL, initLayout]

theorem reachable_inv : ∀ (n : CSSNode) (g : Nat), Reachable n g →
    upClosed n = true ∧ genLe g n = true := by
  intro n g h
  induction h with
  | new => exact ⟨upClosed_new, genLe_new 0⟩
  | bump _ ih => exact ⟨ih.1, genLe_mono _ _ _ (by omega) ih.2⟩
  | setFloat fld p v _ ih => exact styleSetFloat_inv fld p v _ _ ih.1 ih.2
  | setEnum fld p v _ ih => exact styleSetEnum_inv fld p v _ _ ih.1 ih.2
  | setFlex p v _ ih => exact setFlex_inv p v _ _ ih.1 ih.2
  | markDirty p _ ih => exact markDirtyAt_inv p _ _ ih.1 ih.2
  | insertChild p i _ _ ihn ihc =>
    exact insertChild_inv p _ i _ _ ihn.1 ihn.2 ihc.1 ihc.2
  | removeChild p i _ ih => exact removeChild_inv p i _ _ ih.1 ih.2
  | setMeasure p f _ ih =>
    exact accessor_inv (fun m => m.withData { m.data with measure := f })
      (fun m => rfl) (fun m => rfl) (fun m => rfl) p _ _ ih.1 ih.2
  | setTextnode p b _ ih =>
    exact accessor_inv (fun m => m.withData { m.data with isTextNode := b })
      (fun m => rfl) (fun m => rfl) (fun m => rfl) p _ _ ih.1 ih.2
  | setHasNewLayout p b _ ih =>
    exact accessor_inv (fun m => m.withData { m.data with hasNewLayout := b })
      (fun m => rfl) (fun m => rfl) (fun m => rfl) p _ _ ih.1 ih.2
  | calculate _ hc ih => exact calculate_inv _ _ _ _ _ _ _ _ _ hc ih.1 ih.2

theorem subtreeDirty_of_getAt : ∀ (p : List Nat) (m c : CSSNode),
    m.getAt? p = some c → c.data.isDirty = true → subtreeDirty m = true
  | [], m, c, h, hd => by
    rw [CSSNode.getAt?] at h
    simp only [Option.some.injEq] at h
    subst h
    exact subtreeDirty_of_dirty m hd
  | i :: p, .mk d cs, c, h, hd => by
    rw [CSSNode.getAt?] at h
    split at h
    · exact Option.noConfusion h
    · next ci hci =>
      have hci' : cs[i]? = some ci := hci
      rw [subtreeDirty]
      rw [subtreeDirtyL_of_mem_dirty cs i ci hci'
        (subtreeDirty_of_getAt p ci c h hd)]
      simp

theorem upClosed_ancestors : ∀ (p : List Nat) (n c : CSSNode), upClosed n = true →
    n.getAt? p = some c → c.data.isDirty = true →
    ∀ q, q <+: p → ((n.getAt? q).map fun m => m.data.isDirty) = some true
  | [], n, c, hu, h, hd, q, hq => by
    rw [CSSNode.getAt?] at h
    simp only [Option.some.injEq] at h
    subst h
    rw [List.prefix_nil.mp hq]
    rw [CSSNode.getAt?]
    simp [hd]
  | i :: p, .mk d cs, c, hu, h, hd, q, hq => by
    rw [CSSNode.getAt?] at h
    split at h
    · exact Option.noConfusion h
    · next ci hci =>
      have hci' : cs[i]? = some ci := hci
      rcases prefix_cons_cases hq with hq0 | ⟨q', hq1, hq2⟩
      · subst hq0
        rw [CSSNode.getAt?]
        have hdirty : d.isDirty = true := by
          have hsd : subtreeDirtyL cs = true :=
            subtreeDirtyL_of_mem_dirty cs i ci hci'
              (subtreeDirty_of_getAt p ci c h hd)
          exact (upClosed_parts hu).1 hsd
        simp [CSSNode.data, hdirty]
      · subst hq1
        rw [getAt?_cons]
        rw [hci']
        exact upClosed_ancestors p ci c
          (upClosedL_getElem? cs i ci hci' (upClosed_parts hu).2) h hd q' hq2

/-- C5: the dirty flag is upward-closed. For every tree reachable through the
public API surface (node creation, float/enum style setters, the flex
shorthand, mark-dirty, child insertion and removal, the measure/text-node/
has-new-layout accessors, and full `CSSNodeCalculateLayout` runs):
(1) whenever the node at path `p` is dirty, the node at every prefix path `q`
of `p` - every ancestor, and the node itself - is dirty; and (2) setting a
float style field of the node at `p` to a value the C `!=` test distinguishes
from the stored one leaves a tree in which that node and all of its ancestors
are dirty. -/
theorem c5_dirty_flag_upward_closed :
    (∀ n g, Reachable n g → ∀ p c, n.getAt? p = some c → c.data.isDirty = true →
      ∀ q, q <+: p → ((n.getAt? q).map fun m => m.data.isDirty) = some true) ∧
    (∀ n g, Reachable n g → ∀ (fld : FloatField) p v c, n.getAt? p = some c →
      fNe (fld.get c.data.style) v = true →
      ∀ q, q <+: p →
        (((styleSetFloat fld n p v).getAt? q).map fun m => m.data.isDirty) =
          some true) := by
  constructor
  · intro n g hr p c hget hd q hq
    exact upClosed_ancestors p n c (reachable_inv n g hr).1 hget hd q hq
  · intro n g hr fld p v c hget hne q hq
    have hu := (reachable_inv n g hr).1
    unfold styleSetFloat
    split
    · next heq =>
      rw [hget] at heq
      exact Option.noConfusion heq
    · next m heq =>
      rw [hget] at heq
      injection heq with heq
      subst heq
      rw [if_pos hne]
      unfold markDirtyAt
      exact (markAfter_prefix_dirty
        (fun m => m.withData { m.data with style := fld.set v m.data.style })
        (fun m => ⟨rfl, rfl⟩) p n c hu hget).2 q hq

theorem c5_dirty_flag_upward_closed_witness :
    (((CSSNodeMarkDirty (CSSNodeInsertChild CSSNodeNew [] CSSNodeNew 0)
        [0]).getAt? []).map fun m => m.data.isDirty) = some true ∧
    (((styleSetFloat widthField
        (CSSNodeMarkDirty (CSSNodeInsertChild CSSNodeNew [] CSSNodeNew 0) [0])
        [] (some 5)).getAt? []).map fun m => m.data.isDirty) = some true :=
  have hr : Reachable
      (CSSNodeMarkDirty (CSSNodeInsertChild CSSNodeNew [] CSSNodeNew 0) [0]) 0 :=
    Reachable.markDirty [0]
      (Reachable.insertChild [] 0 Reachable.new Reachable.new)
  ⟨c5_dirty_flag_upward_closed.1 _ 0 hr [] _ rfl (by with_unfolding_all decide)
      [] List.nil_prefix,
   c5_dirty_flag_upward_closed.2 _ 0 hr widthField [] (some 5) _ rfl
      (by with_unfolding_all decide) [] List.nil_prefix⟩
